import Mathlib

/-!
# Verification of the hetida-designer structure service

Shallow embedding of the structure synchronization engine
(`hetdesrun/structure/db/*.py`) together with proofs about it.

Conventions of the embedding:
* surrogate ids (UUIDs) are modelled as `Nat`;
* a natural key `(stakeholder_key, external_id)` is a pair of strings;
* Python dicts built by comprehensions are modelled as association lists
  where the *last* binding for a key wins (`dictLookup`);
* SQLAlchemy sessions are replaced by an explicit `Store` record holding the
  rows of the four entity tables and the two association tables; each service
  function becomes a pure function on `Store`.
-/

namespace HdStruct

/-- A natural key: `(stakeholder_key, external_id)`. -/
abbrev NatKey := String × String

/-- Lookup in an association list with Python-dict semantics: the *last*
binding for a key wins (dicts built by comprehensions overwrite earlier
bindings). -/
def dictLookup [DecidableEq κ] (l : List (κ × α)) (k : κ) : Option α :=
  (l.reverse.find? (fun p => decide (p.1 = k))).map (·.2)

/-! ## Document model (`hetdesrun/structure/models.py` objects as used by the
service layer) -/

/-- Element type entity (document object and `StructureServiceElementTypeDBModel`
row share these columns: the upsert statement writes `id`, `external_id`,
`stakeholder_key`, `name`, `description`). -/
structure StructureServiceElementType where
  id : Nat
  external_id : String
  stakeholder_key : String
  name : String
  description : Option String
deriving Repr, DecidableEq

/-- Thing node entity; fields are exactly those read or written by
`sort_thing_nodes`, `populate_element_type_ids` and `upsert_thing_nodes`. -/
structure StructureServiceThingNode where
  id : Nat
  external_id : String
  stakeholder_key : String
  name : String
  description : Option String
  parent_external_node_id : Option String
  parent_node_id : Option Nat
  element_type_external_id : String
  element_type_id : Option Nat
  meta_data : Option String
deriving Repr, DecidableEq

/-- Source entity; fields are those of the `insert_data` dict in
`upsert_sources` plus `thing_node_external_ids` (a document-side field that is
used for association reconciliation). -/
structure StructureServiceSource where
  id : Nat
  external_id : String
  stakeholder_key : String
  name : String
  type : String
  visible : Bool
  display_path : String
  preset_filters : String
  passthrough_filters : Option String
  adapter_key : String
  source_id : String
  ref_key : Option String
  ref_id : String
  meta_data : Option String
  thing_node_external_ids : List String
deriving Repr, DecidableEq

/-- Sink entity, mirror of `StructureServiceSource` with `sink_id`. -/
structure StructureServiceSink where
  id : Nat
  external_id : String
  stakeholder_key : String
  name : String
  type : String
  visible : Bool
  display_path : String
  preset_filters : String
  passthrough_filters : Option String
  adapter_key : String
  sink_id : String
  ref_key : Option String
  ref_id : String
  meta_data : Option String
  thing_node_external_ids : List String
deriving Repr, DecidableEq

/-- A complete structure document (`CompleteStructure`). -/
structure CompleteStructure where
  element_types : List StructureServiceElementType
  thing_nodes : List StructureServiceThingNode
  sources : List StructureServiceSource
  sinks : List StructureServiceSink
deriving Repr, DecidableEq

/-- The relational store: the four entity tables plus the two association
tables.  Association rows are `(source_id, thingnode_id)` resp.
`(sink_id, thingnode_id)` pairs of surrogate ids, as in the statements
`delete(thingnode_source_association).where(...c.source_id.in_(...))` and the
corresponding inserts. -/
structure Store where
  element_types : List StructureServiceElementType
  thing_nodes : List StructureServiceThingNode
  sources : List StructureServiceSource
  sinks : List StructureServiceSink
  thingnode_source_association : List (Nat × Nat)
  thingnode_sink_association : List (Nat × Nat)
deriving Repr, DecidableEq

/-- Natural key of an element type. -/
def etKey (et : StructureServiceElementType) : NatKey :=
  (et.stakeholder_key, et.external_id)

/-- Natural key of a thing node. -/
def tnKey (tn : StructureServiceThingNode) : NatKey :=
  (tn.stakeholder_key, tn.external_id)

/-- Natural key of a source. -/
def srcKey (s : StructureServiceSource) : NatKey :=
  (s.stakeholder_key, s.external_id)

/-- Natural key of a sink. -/
def snkKey (s : StructureServiceSink) : NatKey :=
  (s.stakeholder_key, s.external_id)

/-! ## `sort_thing_nodes` (structure_service.py lines 106-202) -/

/-- Python truthiness of an optional string (`if tn.parent_external_node_id:`),
false for `None` and for the empty string. -/
def truthyStr : Option String → Bool
  | none => false
  | some s => !(s == "")

/-- Step "Assign IDs from existing database entries": every node whose natural
key is found in `existing_thing_nodes` adopts the id of the stored row.  In
Python this mutates the node objects in place; here it returns the updated
list. -/
def assignIds (thing_nodes : List StructureServiceThingNode)
    (existing_thing_nodes : List (NatKey × StructureServiceThingNode)) :
    List StructureServiceThingNode :=
  thing_nodes.map fun tn =>
    match dictLookup existing_thing_nodes (tnKey tn) with
    | some row => { tn with id := row.id }
    | none => tn

/-- The `thing_node_map` dict keyed by natural key (built over the id-assigned
nodes: in Python the dict is built first but holds references to the objects
that are mutated by the id assignment). -/
def thingNodeMap (thing_nodes : List StructureServiceThingNode) :
    List (NatKey × StructureServiceThingNode) :=
  thing_nodes.map fun tn => (tnKey tn, tn)

/-- Resolution of a node's parent reference against the in-document map:
`thing_node_map.get((tn.stakeholder_key, tn.parent_external_node_id))`, only
attempted when the reference is truthy. -/
def resolveParent (m : List (NatKey × StructureServiceThingNode))
    (tn : StructureServiceThingNode) : Option StructureServiceThingNode :=
  if truthyStr tn.parent_external_node_id then
    dictLookup m (tn.stakeholder_key, tn.parent_external_node_id.getD "")
  else none

/-- The in-place mutation `tn.parent_node_id = parent_tn.id` performed for
every node whose parent reference resolves. -/
def setParentIds (m : List (NatKey × StructureServiceThingNode))
    (thing_nodes : List StructureServiceThingNode) :
    List StructureServiceThingNode :=
  thing_nodes.map fun tn =>
    match resolveParent m tn with
    | some p => { tn with parent_node_id := some p.id }
    | none => tn

/-- `children_by_node_id[pid]`: the children lists are built by appending in
document order, so the list for a given parent id is exactly the sublist of
nodes whose resolved parent carries that id. -/
def childrenOf (m : List (NatKey × StructureServiceThingNode))
    (linked : List StructureServiceThingNode) (pid : Nat) :
    List StructureServiceThingNode :=
  linked.filter fun tn =>
    match resolveParent m tn with
    | some p => decide (p.id = pid)
    | none => false

/-- Stable insertion of a node into a list sorted by `external_id`: the node
goes in front of the first element whose key is not smaller, so an element
inserted from the left ends up before all equal keys. -/
def insertByExternalId (a : StructureServiceThingNode) :
    List StructureServiceThingNode → List StructureServiceThingNode
  | [] => [a]
  | b :: bs =>
    if b.external_id < a.external_id then b :: insertByExternalId a bs
    else a :: b :: bs

/-- `sorted(children, key=lambda x: x.external_id)`.  Python's `sorted` is a
stable sort, and the result of a stable sort is uniquely determined by the
key function (elements in key order, equal keys in original order), so it is
modelled by the structurally recursive stable insertion sort, which computes
the same function. -/
def sortChildren (cs : List StructureServiceThingNode) :
    List StructureServiceThingNode :=
  cs.foldr insertByExternalId []

/-- The root list: nodes whose parent reference is falsy. -/
def rootNodes (linked : List StructureServiceThingNode) :
    List StructureServiceThingNode :=
  linked.filter fun tn => !(truthyStr tn.parent_external_node_id)

/-- The BFS over levels (`while queue: ...`): one level is processed at a
time; the next level is the concatenation of each node's sorted children; the
loop stops when the next level is empty.  `fuel` bounds the number of levels
(the Python loop has no bound; on every input on which it terminates it uses
at most as many levels as there are nodes). -/
def bfsLevels (m : List (NatKey × StructureServiceThingNode))
    (linked : List StructureServiceThingNode) :
    Nat → List StructureServiceThingNode → List (List StructureServiceThingNode)
  | 0, _ => []
  | fuel + 1, cur =>
    let next := (cur.map (fun n => sortChildren (childrenOf m linked n.id))).flatten
    cur :: (if next.isEmpty then [] else bfsLevels m linked fuel next)

/-- `sort_thing_nodes`: assign ids from existing rows, build the adjacency,
BFS from the roots, flatten level by level.  Orphan nodes (truthy parent
reference that does not resolve in the document map) are in no children list
and not in the root list, hence excluded. -/
def sort_thing_nodes (thing_nodes : List StructureServiceThingNode)
    (existing_thing_nodes : List (NatKey × StructureServiceThingNode)) :
    List StructureServiceThingNode :=
  let assigned := assignIds thing_nodes existing_thing_nodes
  let m := thingNodeMap assigned
  let linked := setParentIds m assigned
  (bfsLevels m linked (thing_nodes.length + 1) (rootNodes linked)).flatten

/-! ## Generic lemmas about the dict model and list indexing -/

theorem mem_of_getElem?_eq_some {l : List α} {i : Nat} {a : α}
    (h : l[i]? = some a) : a ∈ l := by
  obtain ⟨hl, rfl⟩ := List.getElem?_eq_some.mp h
  exact List.getElem_mem hl

theorem lt_length_of_getElem?_eq_some {l : List α} {i : Nat} {a : α}
    (h : l[i]? = some a) : i < l.length :=
  (List.getElem?_eq_some.mp h).1

theorem dictLookup_mem [DecidableEq κ] {l : List (κ × α)} {k : κ} {v : α}
    (h : dictLookup l k = some v) : (k, v) ∈ l := by
  unfold dictLookup at h
  cases hf : l.reverse.find? (fun p => decide (p.1 = k)) with
  | none => rw [hf] at h; simp at h
  | some p =>
    rw [hf] at h
    have hk : p.1 = k := by simpa using List.find?_some hf
    have hv : p.2 = v := by simpa using h
    have hmem : p ∈ l := List.mem_reverse.mp (List.mem_of_find?_eq_some hf)
    have hp : p = (k, v) := by
      cases p; cases hk; cases hv; rfl
    rwa [hp] at hmem

theorem dictLookup_eq_none_iff [DecidableEq κ] {l : List (κ × α)} {k : κ} :
    dictLookup l k = none ↔ ∀ p ∈ l, p.1 ≠ k := by
  unfold dictLookup
  rw [Option.map_eq_none', List.find?_eq_none]
  constructor
  · intro h p hp
    simpa using h p (List.mem_reverse.mpr hp)
  · intro h p hp
    simpa using h p (List.mem_reverse.mp hp)

theorem dictLookup_isSome_of_mem [DecidableEq κ] {l : List (κ × α)} {k : κ} {p : κ × α}
    (hp : p ∈ l) (hk : p.1 = k) : ∃ v, dictLookup l k = some v := by
  cases h : dictLookup l k with
  | none => exact absurd hk (dictLookup_eq_none_iff.mp h p hp)
  | some v => exact ⟨v, rfl⟩

/-! ## Lemmas about the pieces of `sort_thing_nodes` -/

/-- A value found in the `thing_node_map` is one of the nodes and carries the
key it is filed under. -/
theorem thingNodeMap_lookup_mem {tns : List StructureServiceThingNode}
    {k : NatKey} {v : StructureServiceThingNode}
    (h : dictLookup (thingNodeMap tns) k = some v) : v ∈ tns ∧ tnKey v = k := by
  have hmem := dictLookup_mem h
  unfold thingNodeMap at hmem
  rw [List.mem_map] at hmem
  obtain ⟨tn, htn, heq⟩ := hmem
  cases heq
  exact ⟨htn, rfl⟩

/-- The id-assignment step does not change any field other than `id`. -/
theorem assignIds_fields {tns : List StructureServiceThingNode}
    {ex : List (NatKey × StructureServiceThingNode)}
    {tn' : StructureServiceThingNode} (h : tn' ∈ assignIds tns ex) :
    ∃ tn ∈ tns, tn'.external_id = tn.external_id ∧
      tn'.stakeholder_key = tn.stakeholder_key ∧
      tn'.parent_external_node_id = tn.parent_external_node_id := by
  unfold assignIds at h
  rw [List.mem_map] at h
  obtain ⟨tn, htn, heq⟩ := h
  refine ⟨tn, htn, ?_⟩
  cases hd : dictLookup ex (tnKey tn) <;> rw [hd] at heq <;> subst heq <;>
    exact ⟨rfl, rfl, rfl⟩

/-- The parent-link step is a map. -/
theorem setParentIds_eq_map (m : List (NatKey × StructureServiceThingNode))
    (tns : List StructureServiceThingNode) :
    setParentIds m tns = tns.map (fun tn =>
      match resolveParent m tn with
      | some p => { tn with parent_node_id := some p.id }
      | none => tn) := rfl

/-- Linking a node changes neither its id, nor its natural key, nor its
parent reference. -/
theorem linkFun_preserves (m : List (NatKey × StructureServiceThingNode))
    (tn : StructureServiceThingNode) :
    ((match resolveParent m tn with
      | some p => { tn with parent_node_id := some p.id }
      | none => tn) : StructureServiceThingNode).id = tn.id ∧
    ((match resolveParent m tn with
      | some p => { tn with parent_node_id := some p.id }
      | none => tn) : StructureServiceThingNode).external_id = tn.external_id ∧
    ((match resolveParent m tn with
      | some p => { tn with parent_node_id := some p.id }
      | none => tn) : StructureServiceThingNode).stakeholder_key = tn.stakeholder_key ∧
    ((match resolveParent m tn with
      | some p => { tn with parent_node_id := some p.id }
      | none => tn) : StructureServiceThingNode).parent_external_node_id
        = tn.parent_external_node_id := by
  cases resolveParent m tn <;> exact ⟨rfl, rfl, rfl, rfl⟩

/-- Membership characterisation of a children list. -/
theorem mem_childrenOf {m : List (NatKey × StructureServiceThingNode)}
    {linked : List StructureServiceThingNode} {pid : Nat}
    {tn : StructureServiceThingNode} :
    tn ∈ childrenOf m linked pid ↔
      tn ∈ linked ∧ ∃ p, resolveParent m tn = some p ∧ p.id = pid := by
  unfold childrenOf
  rw [List.mem_filter]
  constructor
  · rintro ⟨h1, h2⟩
    refine ⟨h1, ?_⟩
    cases hr : resolveParent m tn with
    | none => rw [hr] at h2; simp at h2
    | some p => rw [hr] at h2; exact ⟨p, rfl, of_decide_eq_true h2⟩
  · rintro ⟨h1, p, hp, hpid⟩
    exact ⟨h1, by rw [hp]; simpa using hpid⟩

theorem mem_insertByExternalId {a tn : StructureServiceThingNode}
    {cs : List StructureServiceThingNode} :
    tn ∈ insertByExternalId a cs ↔ tn = a ∨ tn ∈ cs := by
  induction cs with
  | nil => simp [insertByExternalId]
  | cons b bs ih =>
    rw [insertByExternalId]
    by_cases h : b.external_id < a.external_id
    · rw [if_pos h]
      simp only [List.mem_cons, ih]
      tauto
    · rw [if_neg h]
      simp only [List.mem_cons]

/-- Sorting the children does not change membership. -/
theorem mem_sortChildren {cs : List StructureServiceThingNode}
    {tn : StructureServiceThingNode} : tn ∈ sortChildren cs ↔ tn ∈ cs := by
  unfold sortChildren
  induction cs with
  | nil => simp
  | cons b bs ih =>
    simp only [List.foldr_cons, mem_insertByExternalId, List.mem_cons, ih]

/-- Membership characterisation of the root list. -/
theorem mem_rootNodes {linked : List StructureServiceThingNode}
    {tn : StructureServiceThingNode} :
    tn ∈ rootNodes linked ↔
      tn ∈ linked ∧ truthyStr tn.parent_external_node_id = false := by
  unfold rootNodes
  rw [List.mem_filter]
  constructor
  · rintro ⟨h1, h2⟩; exact ⟨h1, by simpa using h2⟩
  · rintro ⟨h1, h2⟩; exact ⟨h1, by simpa using h2⟩

/-- Every node emitted by the BFS is either one of the start nodes or a member
of some children list. -/
theorem mem_bfsLevels {m : List (NatKey × StructureServiceThingNode)}
    {linked : List StructureServiceThingNode} :
    ∀ {fuel : Nat} {cur : List StructureServiceThingNode}
      {tn : StructureServiceThingNode},
      tn ∈ (bfsLevels m linked fuel cur).flatten →
      tn ∈ cur ∨ ∃ pid, tn ∈ childrenOf m linked pid := by
  intro fuel
  induction fuel with
  | zero => intro cur tn h; simp [bfsLevels] at h
  | succ fuel ih =>
    intro cur tn h
    rw [bfsLevels] at h
    simp only [List.flatten_cons, List.mem_append] at h
    rcases h with h | h
    · exact Or.inl h
    · have h' : tn ∈ (bfsLevels m linked fuel
          ((cur.map (fun n => sortChildren (childrenOf m linked n.id))).flatten)).flatten := by
        by_cases hemp :
            ((cur.map (fun n => sortChildren (childrenOf m linked n.id))).flatten).isEmpty
        · rw [if_pos hemp] at h; simp at h
        · rwa [if_neg hemp] at h
      rcases ih h' with h'' | h''
      · rw [List.mem_flatten] at h''
        obtain ⟨cs, hcs, htn⟩ := h''
        rw [List.mem_map] at hcs
        obtain ⟨n, _, rfl⟩ := hcs
        exact Or.inr ⟨n.id, mem_sortChildren.mp htn⟩
      · exact Or.inr h''

/-- **Orphan exclusion at the level of the output list**: every node in the
output of `sort_thing_nodes` whose parent reference is truthy has a parent
that resolves against the in-document map. -/
theorem sort_output_parent_resolves {tns : List StructureServiceThingNode}
    {ex : List (NatKey × StructureServiceThingNode)}
    {X : StructureServiceThingNode} (hX : X ∈ sort_thing_nodes tns ex)
    (ht : truthyStr X.parent_external_node_id = true) :
    ∃ p, resolveParent (thingNodeMap (assignIds tns ex)) X = some p := by
  unfold sort_thing_nodes at hX
  rcases mem_bfsLevels hX with h | ⟨pid, h⟩
  · rw [mem_rootNodes] at h
    rw [ht] at h
    exact absurd h.2 (by simp)
  · rw [mem_childrenOf] at h
    obtain ⟨_, p, hp, _⟩ := h
    exact ⟨p, hp⟩

/-- A successful parent resolution means the reference is truthy and the
in-document map contains the parent key. -/
theorem resolveParent_eq_some {m : List (NatKey × StructureServiceThingNode)}
    {tn p : StructureServiceThingNode} (h : resolveParent m tn = some p) :
    truthyStr tn.parent_external_node_id = true ∧
    dictLookup m (tn.stakeholder_key, tn.parent_external_node_id.getD "") = some p := by
  unfold resolveParent at h
  by_cases ht : truthyStr tn.parent_external_node_id
  · rw [if_pos ht] at h; exact ⟨ht, h⟩
  · rw [if_neg ht] at h; simp at h

/-- Core BFS lemma for the ordering invariant: under distinct surrogate ids,
any node of the flattened BFS output whose parent reference resolves is
either a start node or is preceded in the output by a node carrying the
parent's natural key. -/
theorem bfsLevels_parent_earlier
    {m : List (NatKey × StructureServiceThingNode)}
    {linked : List StructureServiceThingNode}
    (hids : (linked.map (fun tn => tn.id)).Nodup)
    (hm : ∀ k v, dictLookup m k = some v →
      ∃ w ∈ linked, w.id = v.id ∧ tnKey w = k) :
    ∀ (fuel : Nat) (cur : List StructureServiceThingNode),
      (∀ Y ∈ cur, Y ∈ linked) →
      ∀ (i : Nat) (X P : StructureServiceThingNode),
        ((bfsLevels m linked fuel cur).flatten)[i]? = some X →
        resolveParent m X = some P →
          X ∈ cur ∨ ∃ j < i, ∃ W,
            ((bfsLevels m linked fuel cur).flatten)[j]? = some W ∧
            tnKey W = (X.stakeholder_key, X.parent_external_node_id.getD "") := by
  intro fuel
  induction fuel with
  | zero =>
    intro cur _ i X P hX _
    simp [bfsLevels] at hX
  | succ fuel ih =>
    intro cur hcur i X P hX hP
    simp only [bfsLevels] at hX ⊢
    by_cases hemp :
        ((cur.map (fun n => sortChildren (childrenOf m linked n.id))).flatten).isEmpty
    · rw [if_pos hemp] at hX ⊢
      simp only [List.flatten_cons, List.flatten_nil, List.append_nil] at hX
      exact Or.inl (mem_of_getElem?_eq_some hX)
    · rw [if_neg hemp] at hX ⊢
      simp only [List.flatten_cons] at hX ⊢
      rcases Nat.lt_or_ge i cur.length with hi | hi
      · rw [List.getElem?_append, if_pos hi] at hX
        exact Or.inl (mem_of_getElem?_eq_some hX)
      · rw [List.getElem?_append_right hi] at hX
        rcases ih _ (by
            intro Y hY
            rw [List.mem_flatten] at hY
            obtain ⟨cs, hcs, hYcs⟩ := hY
            rw [List.mem_map] at hcs
            obtain ⟨n, _, rfl⟩ := hcs
            exact (mem_childrenOf.mp (mem_sortChildren.mp hYcs)).1)
          _ X P hX hP with hnext | ⟨j', hj', W, hW, hWkey⟩
        · -- X is in the next level: its parent is one of the current nodes
          rw [List.mem_flatten] at hnext
          obtain ⟨cs, hcs, hXcs⟩ := hnext
          rw [List.mem_map] at hcs
          obtain ⟨n, hn, rfl⟩ := hcs
          obtain ⟨-, p, hp, hpid⟩ := mem_childrenOf.mp (mem_sortChildren.mp hXcs)
          rw [hP] at hp
          cases hp
          obtain ⟨-, hdict⟩ := resolveParent_eq_some hP
          obtain ⟨w, hw, hwid, hwkey⟩ := hm _ _ hdict
          have hn' : n ∈ linked := hcur n hn
          have hnw : n = w :=
            List.inj_on_of_nodup_map hids hn' hw (by simp [hwid, hpid])
          obtain ⟨j0, hj0⟩ := List.getElem?_of_mem hn
          have hj0lt : j0 < cur.length := lt_length_of_getElem?_eq_some hj0
          refine Or.inr ⟨j0, lt_of_lt_of_le hj0lt hi, n, ?_, by rw [hnw]; exact hwkey⟩
          rw [List.getElem?_append, if_pos hj0lt]
          exact hj0
        · refine Or.inr ⟨cur.length + j', by omega, W, ?_, hWkey⟩
          rw [List.getElem?_append_right (by omega), Nat.add_sub_cancel_left]
          exact hW

/-- The parent-link step neither changes the multiset of ids nor the keys:
the id projection of the linked list equals that of the input list. -/
theorem setParentIds_map_id (m : List (NatKey × StructureServiceThingNode))
    (tns : List StructureServiceThingNode) :
    (setParentIds m tns).map (fun tn => tn.id) = tns.map (fun tn => tn.id) := by
  rw [setParentIds_eq_map, List.map_map]
  apply List.map_congr_left
  intro tn _
  exact (linkFun_preserves m tn).1

/-- **C2 (amended)**: for every input thing-node list and existing-node map
*whose id assignment yields pairwise distinct surrogate ids*, every node `N`
in the flattened output of `sort_thing_nodes` that has a parent among the
output nodes (an output node whose natural key is `N`'s parent key) is
preceded strictly earlier in the output by a node carrying that parent key.
The distinct-id hypothesis is required: see the counterexample. -/
theorem sort_thing_nodes_parent_appears_earlier
    (tns : List StructureServiceThingNode)
    (ex : List (NatKey × StructureServiceThingNode))
    (hids : ((assignIds tns ex).map (fun tn => tn.id)).Nodup)
    (i : Nat) (X : StructureServiceThingNode)
    (hX : (sort_thing_nodes tns ex)[i]? = some X)
    (ht : truthyStr X.parent_external_node_id = true)
    (_hpar : ∃ P ∈ sort_thing_nodes tns ex,
        tnKey P = (X.stakeholder_key, X.parent_external_node_id.getD "")) :
    ∃ j < i, ∃ W, (sort_thing_nodes tns ex)[j]? = some W ∧
      tnKey W = (X.stakeholder_key, X.parent_external_node_id.getD "") := by
  have hXmem : X ∈ sort_thing_nodes tns ex := mem_of_getElem?_eq_some hX
  obtain ⟨P, hP⟩ := sort_output_parent_resolves hXmem ht
  have hids' : ((setParentIds (thingNodeMap (assignIds tns ex))
      (assignIds tns ex)).map (fun tn => tn.id)).Nodup := by
    rw [setParentIds_map_id]; exact hids
  have hm : ∀ k v, dictLookup (thingNodeMap (assignIds tns ex)) k = some v →
      ∃ w ∈ setParentIds (thingNodeMap (assignIds tns ex)) (assignIds tns ex),
        w.id = v.id ∧ tnKey w = k := by
    intro k v hv
    obtain ⟨hvmem, hvkey⟩ := thingNodeMap_lookup_mem hv
    refine ⟨(match resolveParent (thingNodeMap (assignIds tns ex)) v with
      | some p => { v with parent_node_id := some p.id }
      | none => v), ?_, ?_, ?_⟩
    · rw [setParentIds_eq_map]
      exact List.mem_map_of_mem _ hvmem
    · exact (linkFun_preserves _ v).1
    · obtain ⟨-, he, hs, -⟩ := linkFun_preserves (thingNodeMap (assignIds tns ex)) v
      rw [← hvkey]
      unfold tnKey
      rw [he, hs]
  have hroots : ∀ Y ∈ rootNodes (setParentIds (thingNodeMap (assignIds tns ex))
      (assignIds tns ex)), Y ∈ setParentIds (thingNodeMap (assignIds tns ex))
      (assignIds tns ex) := fun Y hY => (mem_rootNodes.mp hY).1
  have := bfsLevels_parent_earlier hids' hm (tns.length + 1) _ hroots i X P hX hP
  rcases this with hroot | hfound
  · rw [mem_rootNodes] at hroot
    rw [ht] at hroot
    exact absurd hroot.2 (by simp)
  · exact hfound

/-- Thing-node literal used by the C2 counterexample and several witnesses. -/
def mkTN (i : Nat) (ext : String) (pref : Option String) :
    StructureServiceThingNode :=
  { id := i, external_id := ext, stakeholder_key := "k", name := ext,
    description := none, parent_external_node_id := pref, parent_node_id := none,
    element_type_external_id := "et1", element_type_id := none, meta_data := none }

/-- C2 counterexample input: `P` and `Q` share the surrogate id 7 (the code's
docstring only assumes ids are assigned, not that they are distinct).  BFS
reaches `C` through the root `Q` (same id as `C`'s real parent `P`) one level
before it reaches `P`, so the output is `[R, Q, A, C, P, C]` and `C` precedes
its parent `P`. -/
def cexTns : List StructureServiceThingNode :=
  [mkTN 1 "R" none, mkTN 2 "A" (some "R"), mkTN 7 "P" (some "A"),
   mkTN 7 "Q" none, mkTN 5 "C" (some "P")]

/-- **C2, counterexample**: the claim as stated (with no hypothesis on the
surrogate ids) is false: on `cexTns` with an empty existing-node map the
node `C` at output position 3 has its parent `P` among the output nodes, but
no node with `P`'s key appears strictly earlier than position 3. -/
theorem sort_thing_nodes_parent_appears_earlier_cex :
    ¬ (∀ (i : Nat) (X : StructureServiceThingNode),
        (sort_thing_nodes cexTns [])[i]? = some X →
        truthyStr X.parent_external_node_id = true →
        (∃ P ∈ sort_thing_nodes cexTns [],
          tnKey P = (X.stakeholder_key, X.parent_external_node_id.getD "")) →
        ∃ j < i, ∃ W, (sort_thing_nodes cexTns [])[j]? = some W ∧
          tnKey W = (X.stakeholder_key, X.parent_external_node_id.getD "")) := by
  intro h
  obtain ⟨j, hj, W, hW, hWkey⟩ :=
    h 3 ({ mkTN 5 "C" (some "P") with parent_node_id := some 7 }) (by decide)
      (by decide)
      ⟨{ mkTN 7 "P" (some "A") with parent_node_id := some 2 }, by decide, by decide⟩
  have htake : (sort_thing_nodes cexTns []).take 3 =
      [mkTN 1 "R" none, mkTN 7 "Q" none,
       { mkTN 2 "A" (some "R") with parent_node_id := some 1 }] := by decide
  have hWmem : W ∈ (sort_thing_nodes cexTns []).take 3 := by
    apply @mem_of_getElem?_eq_some _ _ j
    rw [List.getElem?_take_of_lt hj]
    exact hW
  rw [htake] at hWmem
  simp only [List.mem_cons, List.not_mem_nil, or_false] at hWmem
  have : tnKey W ≠ (("k" : String), ("P" : String)) := by
    rcases hWmem with rfl | rfl | rfl <;> decide
  exact this hWkey

/-- **C2, witness**: concrete run of the amended theorem on a two-node chain
`R ← A`: the parent `R` of the node at position 1 appears at position 0. -/
theorem sort_thing_nodes_parent_appears_earlier_witness :
    ∃ j < 1, ∃ W,
      (sort_thing_nodes [mkTN 1 "R" none, mkTN 2 "A" (some "R")] [])[j]? = some W ∧
      tnKey W = (("k" : String), ("R" : String)) :=
  sort_thing_nodes_parent_appears_earlier
    [mkTN 1 "R" none, mkTN 2 "A" (some "R")] [] (by decide) 1
    ({ mkTN 2 "A" (some "R") with parent_node_id := some 1 }) (by decide) (by decide)
    ⟨mkTN 1 "R" none, by decide, by decide⟩

/-- A truthy optional string is `some` of its `getD ""`. -/
theorem truthy_eq_some_getD {o : Option String} (h : truthyStr o = true) :
    o = some (o.getD "") := by
  cases o with
  | none => simp [truthyStr] at h
  | some s => rfl

/-- Helper for C5/C10: if no document node carries a node's parent key, then
no output node of `sort_thing_nodes` has that node's stakeholder key and
parent reference (in particular the node itself is excluded). -/
theorem sort_excludes_doc_unresolved
    {tns : List StructureServiceThingNode}
    {ex : List (NatKey × StructureServiceThingNode)}
    {tn : StructureServiceThingNode}
    (ht : truthyStr tn.parent_external_node_id = true)
    (hnodoc : ∀ u ∈ tns, ¬(u.stakeholder_key = tn.stakeholder_key ∧
        some u.external_id = tn.parent_external_node_id)) :
    ∀ X ∈ sort_thing_nodes tns ex,
      ¬(X.stakeholder_key = tn.stakeholder_key ∧
        X.parent_external_node_id = tn.parent_external_node_id) := by
  rintro X hX ⟨hsk, hpref⟩
  have htX : truthyStr X.parent_external_node_id = true := by rw [hpref]; exact ht
  obtain ⟨p, hp⟩ := sort_output_parent_resolves hX htX
  obtain ⟨-, hdict⟩ := resolveParent_eq_some hp
  obtain ⟨hpmem, hpkey⟩ := thingNodeMap_lookup_mem hdict
  obtain ⟨u, hu, hue, hus, -⟩ := assignIds_fields hpmem
  have hpsk : p.stakeholder_key = X.stakeholder_key := congrArg Prod.fst hpkey
  have hpext : p.external_id = X.parent_external_node_id.getD "" :=
    congrArg Prod.snd hpkey
  refine hnodoc u hu ⟨?_, ?_⟩
  · rw [← hus, hpsk, hsk]
  · rw [← hue, hpext, ← hpref, ← truthy_eq_some_getD htX]

/-- **C10**: `sort_thing_nodes` resolves parent references only against the
in-document node map, never against the existing-nodes map from the store:
a node with a truthy parent reference whose parent key matches no node of the
input document list is excluded from the output even when that parent key is
present in the `existing_thing_nodes` map passed in from the store. -/
theorem sort_thing_nodes_ignores_store_parents
    (tns : List StructureServiceThingNode)
    (ex : List (NatKey × StructureServiceThingNode))
    (tn : StructureServiceThingNode) (_htn : tn ∈ tns)
    (ht : truthyStr tn.parent_external_node_id = true)
    (hnodoc : ∀ u ∈ tns, ¬(u.stakeholder_key = tn.stakeholder_key ∧
        some u.external_id = tn.parent_external_node_id))
    (_hstore : ∃ r, dictLookup ex
        (tn.stakeholder_key, tn.parent_external_node_id.getD "") = some r) :
    ∀ X ∈ sort_thing_nodes tns ex,
      ¬(X.stakeholder_key = tn.stakeholder_key ∧
        X.parent_external_node_id = tn.parent_external_node_id) :=
  sort_excludes_doc_unresolved ht hnodoc

/-- **C10, witness**: a node `B` whose parent key `("k", "X")` is absent from
the document but present in the store map is excluded from the output. -/
theorem sort_thing_nodes_ignores_store_parents_witness :
    mkTN 1 "R" none ∈ sort_thing_nodes
        [mkTN 1 "R" none, mkTN 2 "B" (some "X")]
        [(("k", "X"), mkTN 9 "X" none)] ∧
    decide (¬ ((mkTN 1 "R" none).stakeholder_key =
          (mkTN 2 "B" (some "X")).stakeholder_key ∧
        (mkTN 1 "R" none).parent_external_node_id =
          (mkTN 2 "B" (some "X")).parent_external_node_id)) = true :=
  ⟨by decide,
   decide_eq_true (sort_thing_nodes_ignores_store_parents
    [mkTN 1 "R" none, mkTN 2 "B" (some "X")]
    [(("k", "X"), mkTN 9 "X" none)]
    (mkTN 2 "B" (some "X")) (by decide) (by decide) (by decide)
    ⟨mkTN 9 "X" none, by decide⟩ (mkTN 1 "R" none) (by decide))⟩

/-- **C10, counterexample**: node `B`'s parent reference is the empty
string — non-null, matching no document node, and its key `("k", "")` is
even present in the store map — yet `B` is not excluded from the output:
the code tests Python truthiness (`if tn.parent_external_node_id`), so the
falsy empty string makes `B` a root and it is emitted.  The claim's
"non-null" hypothesis must be strengthened to "truthy". -/
theorem sort_thing_nodes_ignores_store_parents_cex :
    (mkTN 2 "B" (some "")).parent_external_node_id ≠ none ∧
    (∀ u ∈ [mkTN 1 "R" none, mkTN 2 "B" (some "")],
      ¬(u.stakeholder_key = (mkTN 2 "B" (some "")).stakeholder_key ∧
        some u.external_id = (mkTN 2 "B" (some "")).parent_external_node_id)) ∧
    dictLookup [((("k" : String), ("" : String)), mkTN 9 "E" none)]
      (("k" : String), ("" : String)) = some (mkTN 9 "E" none) ∧
    (∃ X ∈ sort_thing_nodes [mkTN 1 "R" none, mkTN 2 "B" (some "")]
        [((("k" : String), ("" : String)), mkTN 9 "E" none)],
      tnKey X = tnKey (mkTN 2 "B" (some ""))) := by
  decide

/-! ## Batched fetching (element_type_service.py, thing_node_service.py,
source_sink_service.py) -/

/-- `math.ceil(a / b)` on naturals (`b > 0` in every reachable call;
`ceilFrac a 0 = 0` is never used because Python would raise
`ZeroDivisionError` first). -/
def ceilFrac (a b : Nat) : Nat := (a + b - 1) / b

/-- `itertools.batched(l, n)` with explicit fuel (structural recursion on the
fuel, which is instantiated with `l.length`, enough for any `n ≥ 1`):
successive chunks of `n` elements, the last chunk possibly shorter. -/
def batchedGo (n : Nat) : Nat → List α → List (List α)
  | 0, _ => []
  | _, [] => []
  | fuel + 1, l => l.take n :: batchedGo n fuel (l.drop n)

/-- `itertools.batched(l, n)` (which rejects `n < 1`; the `n = 0` case is
unreachable in the embedding and yields `[]`). -/
def batchedList (l : List α) (n : Nat) : List (List α) :=
  if n = 0 then [] else batchedGo n l.length l

theorem batchedGo_flatten {n : Nat} (hn : n ≠ 0) :
    ∀ (fuel : Nat) (l : List α), l.length ≤ fuel →
      (batchedGo n fuel l).flatten = l := by
  intro fuel
  induction fuel with
  | zero =>
    intro l hl
    rw [List.eq_nil_of_length_eq_zero (Nat.le_zero.mp hl)]
    rfl
  | succ fuel ih =>
    intro l hl
    cases l with
    | nil => rfl
    | cons a l' =>
      rw [batchedGo]
      rw [List.flatten_cons, ih _ (by
        simp only [List.length_drop, List.length_cons]
        simp only [List.length_cons] at hl
        omega)]
      exact List.take_append_drop n (a :: l')
      simp

/-- The batches cover exactly the input list. -/
theorem batchedList_flatten {n : Nat} (hn : n ≠ 0) (l : List α) :
    (batchedList l n).flatten = l := by
  unfold batchedList
  rw [if_neg hn]
  exact batchedGo_flatten hn l.length l le_rfl

/-- Membership in some batch is membership in the input list. -/
theorem mem_batchedList {n : Nat} (hn : n ≠ 0) {l : List α} {a : α} :
    (∃ b ∈ batchedList l n, a ∈ b) ↔ a ∈ l := by
  rw [← List.mem_flatten, batchedList_flatten hn]

/-- The batches issued by the batching resolvers (`fetch_element_types`,
`fetch_thing_nodes`, `fetch_collection_of_*_from_db_by_id`): nothing for an
empty key set, otherwise `itertools.batched(keys, ceil(len(keys) /
batch_size))` — one store query is issued per batch. -/
def fetchBatches (keys : List κ) (batch_size : Nat) : List (List κ) :=
  if keys.isEmpty then [] else batchedList keys (ceilFrac keys.length batch_size)

/-- Shared shape of the batched fetches: one query per batch filtering the
rows whose key lies in the batch, each result row entered into the merged
mapping under its key. -/
def fetchByKeysBatched [DecidableEq κ] (rows : List ρ) (key : ρ → κ)
    (keys : List κ) (batch_size : Nat) : List (κ × ρ) :=
  ((fetchBatches keys batch_size).map
    (fun key_batch => (rows.filter (fun r => decide (key r ∈ key_batch))).map
      (fun r => (key r, r)))).flatten

/-- A positive batch size gives a positive batch length. -/
theorem ceilFrac_pos {a b : Nat} (ha : 0 < a) (hb : 0 < b) : 0 < ceilFrac a b := by
  unfold ceilFrac
  have : b ≤ a + b - 1 := by omega
  have := Nat.one_le_div_iff hb |>.mpr this
  omega

/-- Membership characterisation of a batched fetch result. -/
theorem mem_fetchByKeysBatched [DecidableEq κ] {rows : List ρ} {key : ρ → κ}
    {keys : List κ} {bs : Nat} (hbs : 0 < bs) {p : κ × ρ} :
    p ∈ fetchByKeysBatched rows key keys bs ↔
      ∃ r ∈ rows, key r ∈ keys ∧ p = (key r, r) := by
  unfold fetchByKeysBatched fetchBatches
  by_cases hk : keys.isEmpty
  · rw [if_pos hk]
    rw [List.isEmpty_iff] at hk
    subst hk
    simp
  · rw [if_neg hk]
    have hn : ceilFrac keys.length bs ≠ 0 := by
      have : 0 < keys.length := by
        cases keys with
        | nil => simp at hk
        | cons a l => simp
      exact Nat.pos_iff_ne_zero.mp (ceilFrac_pos this hbs)
    rw [List.mem_flatten]
    constructor
    · rintro ⟨entries, hent, hp⟩
      rw [List.mem_map] at hent
      obtain ⟨kb, hkb, rfl⟩ := hent
      rw [List.mem_map] at hp
      obtain ⟨r, hr, rfl⟩ := hp
      rw [List.mem_filter] at hr
      refine ⟨r, hr.1, ?_, rfl⟩
      exact (mem_batchedList hn).mp ⟨kb, hkb, of_decide_eq_true hr.2⟩
    · rintro ⟨r, hr, hkey, rfl⟩
      obtain ⟨kb, hkb, hkkb⟩ := (mem_batchedList hn).mpr hkey
      refine ⟨_, List.mem_map_of_mem _ hkb, ?_⟩
      apply List.mem_map_of_mem
      rw [List.mem_filter]
      exact ⟨hr, decide_eq_true hkkb⟩

/-- If a pair is in the list and every binding of its key carries the same
value, the dict lookup returns that value. -/
theorem dictLookup_eq_some_of_mem_unique [DecidableEq κ] {l : List (κ × α)}
    {k : κ} {v : α} (hmem : (k, v) ∈ l)
    (huniq : ∀ p ∈ l, p.1 = k → p.2 = v) : dictLookup l k = some v := by
  unfold dictLookup
  cases hf : l.reverse.find? (fun p => decide (p.1 = k)) with
  | none =>
    exfalso
    have := List.find?_eq_none.mp hf (k, v) (List.mem_reverse.mpr hmem)
    simp at this
  | some q =>
    have hk : q.1 = k := by simpa using List.find?_some hf
    have hq : q ∈ l := List.mem_reverse.mp (List.mem_of_find?_eq_some hf)
    simp [huniq q hq hk]

/-- Lookup characterisation of a batched fetch: the merged mapping is exactly
the restriction of the table to the requested keys (provided the table has no
duplicate keys). -/
theorem fetchByKeysBatched_lookup [DecidableEq κ] {rows : List ρ} {key : ρ → κ}
    {keys : List κ} {bs : Nat} (hbs : 0 < bs)
    (hnodup : (rows.map key).Nodup) (k : κ) :
    dictLookup (fetchByKeysBatched rows key keys bs) k =
      if k ∈ keys then rows.find? (fun r => decide (key r = k)) else none := by
  by_cases hk : k ∈ keys
  · rw [if_pos hk]
    cases hf : rows.find? (fun r => decide (key r = k)) with
    | none =>
      rw [dictLookup_eq_none_iff]
      rintro p hp
      obtain ⟨r, hr, -, rfl⟩ := (mem_fetchByKeysBatched hbs).mp hp
      have := List.find?_eq_none.mp hf r hr
      simpa using this
    | some r0 =>
      have hr0k : key r0 = k := by simpa using List.find?_some hf
      have hr0 : r0 ∈ rows := List.mem_of_find?_eq_some hf
      apply dictLookup_eq_some_of_mem_unique
      · exact (mem_fetchByKeysBatched hbs).mpr ⟨r0, hr0, hr0k ▸ hk, by rw [hr0k]⟩
      · rintro p hp hpk
        obtain ⟨r, hr, -, rfl⟩ := (mem_fetchByKeysBatched hbs).mp hp
        simp only at hpk ⊢
        exact List.inj_on_of_nodup_map hnodup hr hr0 (by rw [hpk, hr0k])
  · rw [if_neg hk, dictLookup_eq_none_iff]
    rintro p hp
    obtain ⟨r, -, hkr, rfl⟩ := (mem_fetchByKeysBatched hbs).mp hp
    simp only
    rintro rfl
    exact hk hkr

/-- `fetch_element_types`: short-circuit on an empty key set, then one query
per batch filtering rows whose natural key lies in the batch, merged into one
mapping keyed by natural key (the shared shape `fetchByKeysBatched`
instantiated at the element-type table). -/
def fetch_element_types (store : Store) (keys : List NatKey) (batch_size : Nat) :
    List (NatKey × StructureServiceElementType) :=
  fetchByKeysBatched store.element_types etKey keys batch_size

/-- `fetch_thing_nodes`: identical batching over the thing-node table. -/
def fetch_thing_nodes (store : Store) (keys : List NatKey) (batch_size : Nat) :
    List (NatKey × StructureServiceThingNode) :=
  fetchByKeysBatched store.thing_nodes tnKey keys batch_size

/-- `fetch_sources` (source_sink_service.py lines 172-208): a single
`tuple_(...).in_(keys)` query, no batching. -/
def fetch_sources (store : Store) (keys : List NatKey) :
    List (NatKey × StructureServiceSource) :=
  if keys.isEmpty then []
  else (store.sources.filter (fun s => decide (srcKey s ∈ keys))).map
    (fun s => (srcKey s, s))

/-- `fetch_sinks` (source_sink_service.py lines 211-245). -/
def fetch_sinks (store : Store) (keys : List NatKey) :
    List (NatKey × StructureServiceSink) :=
  if keys.isEmpty then []
  else (store.sinks.filter (fun s => decide (snkKey s ∈ keys))).map
    (fun s => (snkKey s, s))

theorem fetch_element_types_eq (store : Store) (keys : List NatKey) (bs : Nat) :
    fetch_element_types store keys bs =
      fetchByKeysBatched store.element_types etKey keys bs := rfl

theorem fetch_thing_nodes_eq (store : Store) (keys : List NatKey) (bs : Nat) :
    fetch_thing_nodes store keys bs =
      fetchByKeysBatched store.thing_nodes tnKey keys bs := rfl

/-- Lookup characterisation of the single-query fetches
(`fetch_sources`/`fetch_sinks` shape). -/
theorem fetchByKeys_single_lookup {ρ : Type} {rows : List ρ} {key : ρ → NatKey}
    {keys : List NatKey} (hnodup : (rows.map key).Nodup) (k : NatKey) :
    dictLookup ((if keys.isEmpty then ([] : List ρ)
        else rows.filter (fun r => decide (key r ∈ keys))).map
          (fun r => (key r, r))) k =
      if k ∈ keys then rows.find? (fun r => decide (key r = k)) else none := by
  by_cases hke : keys.isEmpty
  · rw [if_pos hke]
    rw [List.isEmpty_iff] at hke
    subst hke
    simp [dictLookup]
  · rw [if_neg hke]
    by_cases hk : k ∈ keys
    · rw [if_pos hk]
      cases hf : rows.find? (fun r => decide (key r = k)) with
      | none =>
        rw [dictLookup_eq_none_iff]
        rintro p hp
        rw [List.mem_map] at hp
        obtain ⟨r, hr, rfl⟩ := hp
        have := List.find?_eq_none.mp hf r (List.mem_filter.mp hr).1
        simpa using this
      | some r0 =>
        have hr0k : key r0 = k := by simpa using List.find?_some hf
        have hr0 : r0 ∈ rows := List.mem_of_find?_eq_some hf
        apply dictLookup_eq_some_of_mem_unique
        · rw [← hr0k]
          apply List.mem_map_of_mem
          rw [List.mem_filter]
          exact ⟨hr0, decide_eq_true (hr0k ▸ hk)⟩
        · rintro p hp hpk
          rw [List.mem_map] at hp
          obtain ⟨r, hr, rfl⟩ := hp
          simp only at hpk ⊢
          exact List.inj_on_of_nodup_map hnodup (List.mem_filter.mp hr).1 hr0
            (by rw [hpk, hr0k])
    · rw [if_neg hk, dictLookup_eq_none_iff]
      rintro p hp
      rw [List.mem_map] at hp
      obtain ⟨r, hr, rfl⟩ := hp
      simp only
      rintro rfl
      exact hk (of_decide_eq_true (List.mem_filter.mp hr).2)

theorem fetch_sources_lookup {store : Store} {keys : List NatKey}
    (hnodup : (store.sources.map srcKey).Nodup) (k : NatKey) :
    dictLookup (fetch_sources store keys) k =
      if k ∈ keys then store.sources.find? (fun s => decide (srcKey s = k))
      else none := by
  have : fetch_sources store keys =
      (if keys.isEmpty then ([] : List StructureServiceSource)
        else store.sources.filter (fun s => decide (srcKey s ∈ keys))).map
          (fun s => (srcKey s, s)) := by
    unfold fetch_sources
    by_cases hke : keys.isEmpty
    · rw [if_pos hke, if_pos hke]; rfl
    · rw [if_neg hke, if_neg hke]
  rw [this]
  exact fetchByKeys_single_lookup hnodup k

theorem fetch_sinks_lookup {store : Store} {keys : List NatKey}
    (hnodup : (store.sinks.map snkKey).Nodup) (k : NatKey) :
    dictLookup (fetch_sinks store keys) k =
      if k ∈ keys then store.sinks.find? (fun s => decide (snkKey s = k))
      else none := by
  have : fetch_sinks store keys =
      (if keys.isEmpty then ([] : List StructureServiceSink)
        else store.sinks.filter (fun s => decide (snkKey s ∈ keys))).map
          (fun s => (snkKey s, s)) := by
    unfold fetch_sinks
    by_cases hke : keys.isEmpty
    · rw [if_pos hke, if_pos hke]; rfl
    · rw [if_neg hke, if_neg hke]
  rw [this]
  exact fetchByKeys_single_lookup hnodup k

/-- Five keys used by the C4 evaluation. -/
def c4keys : List NatKey :=
  [("k", "a"), ("k", "b"), ("k", "c"), ("k", "d"), ("k", "e")]

/-- **C4 (code bug)**: the batching resolvers pass
`ceil(len(keys) / batch_size)` — the *number of batches* a correct chunking
would need — as the batch *length* to `itertools.batched`.  Evaluating the
embedded batching at a failing input: with 5 keys and configured batch size 2
the issued batches hold 3 and 2 keys (a batch of 3 > 2 keys, i.e. more bind
parameters than the configured ceiling allows, and 2 queries of size ~n/2
instead of 3 batches of ≤ 2); with the default batch size 500 and 250001
keys the first batch holds `ceil(250001/500) = 501 > 500` keys.  The empty
key set still yields no batches (no query). -/
theorem fetch_batching_oversized_batch :
    (fetchBatches c4keys 2).map List.length = [3, 2] ∧
    ceilFrac 250001 500 = 501 ∧
    fetchBatches ([] : List NatKey) 2 = [] := by
  refine ⟨by decide, by norm_num [ceilFrac], by decide⟩

/-! ## Batched fetch by id (source_sink_service.py lines 100-169) -/

/-- The error kinds of `hetdesrun.structure.db.exceptions` relevant to the
embedded functions. -/
inductive DBError where
  | notFound (msg : String)
  | integrity (msg : String)
  | updateError (msg : String)
  | connection (msg : String)
  | association (msg : String)
  | general (msg : String)
deriving Repr, DecidableEq

/-- Shared body of `fetch_collection_of_sources_from_db_by_id` and
`fetch_collection_of_sinks_from_db_by_id`: an empty id list short-circuits to
an empty map with no query; otherwise the ids are batched (same batching as
the natural-key resolvers), each batch queried with `.id.in_(id_batch)`, the
results merged into an id-keyed map, and `DBNotFoundError` is raised iff the
merged map is empty. -/
def fetchCollectionById (rows : List ρ) (rid : ρ → Nat) (ids : List Nat)
    (batch_size : Nat) (msg : String) : Except DBError (List (Nat × ρ)) :=
  if ids.isEmpty then .ok []
  else
    let found := fetchByKeysBatched rows rid ids batch_size
    if found.isEmpty then .error (.notFound msg) else .ok found

/-- `fetch_collection_of_sources_from_db_by_id`. -/
def fetch_collection_of_sources_from_db_by_id (store : Store)
    (src_ids : List Nat) (batch_size : Nat) :
    Except DBError (List (Nat × StructureServiceSource)) :=
  fetchCollectionById store.sources (fun s => s.id) src_ids batch_size
    "No StructureServiceSources found"

/-- `fetch_collection_of_sinks_from_db_by_id`. -/
def fetch_collection_of_sinks_from_db_by_id (store : Store)
    (sink_ids : List Nat) (batch_size : Nat) :
    Except DBError (List (Nat × StructureServiceSink)) :=
  fetchCollectionById store.sinks (fun s => s.id) sink_ids batch_size
    "No StructureServiceSinks found"

/-- Full behavioural characterisation of the shared by-id fetch body. -/
theorem fetchCollectionById_spec {ρ : Type} (rows : List ρ) (rid : ρ → Nat)
    (ids : List Nat) (bs : Nat) (msg : String) (hbs : 0 < bs)
    (hnodup : (rows.map rid).Nodup) :
    (ids = [] → fetchCollectionById rows rid ids bs msg = .ok []) ∧
    ((∃ e, fetchCollectionById rows rid ids bs msg = .error e) ↔
      ids ≠ [] ∧ ∀ r ∈ rows, rid r ∉ ids) ∧
    (∀ l, fetchCollectionById rows rid ids bs msg = .ok l →
      ∀ i : Nat, dictLookup l i =
        if i ∈ ids then rows.find? (fun r => decide (rid r = i)) else none) := by
  have hfound : ∀ p, p ∈ fetchByKeysBatched rows rid ids bs ↔
      ∃ r ∈ rows, rid r ∈ ids ∧ p = (rid r, r) :=
    fun p => mem_fetchByKeysBatched hbs
  unfold fetchCollectionById
  by_cases hids : ids.isEmpty
  · rw [if_pos hids]
    rw [List.isEmpty_iff] at hids
    subst hids
    refine ⟨fun _ => rfl, by simp, ?_⟩
    rintro l hl
    cases hl
    intro i
    simp [dictLookup]
  · rw [if_neg hids]
    have hne : ids ≠ [] := by
      intro h; subst h; simp at hids
    by_cases hemp : (fetchByKeysBatched rows rid ids bs).isEmpty
    · rw [if_pos hemp]
      refine ⟨fun h => absurd h hne, ⟨fun _ => ⟨hne, ?_⟩, fun _ => ⟨_, rfl⟩⟩, ?_⟩
      · intro r hr hrid
        rw [List.isEmpty_iff] at hemp
        have := (hfound (rid r, r)).mpr ⟨r, hr, hrid, rfl⟩
        rw [hemp] at this
        simp at this
      · rintro l hl
        cases hl
    · rw [if_neg hemp]
      refine ⟨fun h => absurd h hne, ⟨by simp, ?_⟩, ?_⟩
      · rintro ⟨-, hnone⟩
        exfalso
        rw [List.isEmpty_iff] at hemp
        cases hf : fetchByKeysBatched rows rid ids bs with
        | nil => exact hemp hf
        | cons p ps =>
          have hp : p ∈ fetchByKeysBatched rows rid ids bs := by
            rw [hf]; exact List.mem_cons_self _ _
          obtain ⟨r, hr, hrid, rfl⟩ := (hfound p).mp hp
          exact hnone r hr hrid
      · rintro l hl i
        cases hl
        rw [fetchByKeysBatched_lookup hbs hnodup]

/-- **C9**: the batched multi-id fetches
(`fetch_collection_of_sources_from_db_by_id`,
`fetch_collection_of_sinks_from_db_by_id`) return a map from id to record and
signal not-found iff the input id list is non-empty and zero records were
found; an empty input list yields an empty map without error; a partially
matched non-empty list yields the found subset without error. -/
theorem fetch_collection_by_id_spec (store : Store) (ids : List Nat) (bs : Nat)
    (hbs : 0 < bs)
    (hsrc : (store.sources.map (fun s => s.id)).Nodup)
    (hsnk : (store.sinks.map (fun s => s.id)).Nodup) :
    ((ids = [] →
        fetch_collection_of_sources_from_db_by_id store ids bs = .ok []) ∧
     ((∃ e, fetch_collection_of_sources_from_db_by_id store ids bs = .error e) ↔
        ids ≠ [] ∧ ∀ r ∈ store.sources, r.id ∉ ids) ∧
     (∀ l, fetch_collection_of_sources_from_db_by_id store ids bs = .ok l →
        ∀ i : Nat, dictLookup l i =
          if i ∈ ids then store.sources.find? (fun r => decide (r.id = i))
          else none)) ∧
    ((ids = [] →
        fetch_collection_of_sinks_from_db_by_id store ids bs = .ok []) ∧
     ((∃ e, fetch_collection_of_sinks_from_db_by_id store ids bs = .error e) ↔
        ids ≠ [] ∧ ∀ r ∈ store.sinks, r.id ∉ ids) ∧
     (∀ l, fetch_collection_of_sinks_from_db_by_id store ids bs = .ok l →
        ∀ i : Nat, dictLookup l i =
          if i ∈ ids then store.sinks.find? (fun r => decide (r.id = i))
          else none)) :=
  ⟨fetchCollectionById_spec store.sources (fun s => s.id) ids bs
      "No StructureServiceSources found" hbs hsrc,
   fetchCollectionById_spec store.sinks (fun s => s.id) ids bs
      "No StructureServiceSinks found" hbs hsnk⟩

/-- Source literal used by concrete inputs. -/
def mkSource (i : Nat) (ext : String) (tnids : List String) :
    StructureServiceSource :=
  { id := i, external_id := ext, stakeholder_key := "k", name := ext,
    type := "multitsframe", visible := true, display_path := "p",
    preset_filters := "{}", passthrough_filters := none,
    adapter_key := "demo", source_id := ext, ref_key := none, ref_id := ext,
    meta_data := none, thing_node_external_ids := tnids }

/-- Sink literal used by concrete inputs. -/
def mkSink (i : Nat) (ext : String) (tnids : List String) :
    StructureServiceSink :=
  { id := i, external_id := ext, stakeholder_key := "k", name := ext,
    type := "multitsframe", visible := true, display_path := "p",
    preset_filters := "{}", passthrough_filters := none,
    adapter_key := "demo", sink_id := ext, ref_key := none, ref_id := ext,
    meta_data := none, thing_node_external_ids := tnids }

/-- A store with one source (id 1) and one sink (id 2), used as concrete
input by the C9 witness. -/
def w9store : Store :=
  { element_types := [], thing_nodes := [],
    sources := [mkSource 1 "s1" []], sinks := [mkSink 2 "t1" []],
    thingnode_source_association := [], thingnode_sink_association := [] }

/-- **C9, witness**: concrete run on a partially matched id list `[5, 1]` —
the found subset (just the row with id 1) is returned as the map, without
error. -/
theorem fetch_collection_by_id_spec_witness :
    dictLookup ((fetch_collection_of_sources_from_db_by_id w9store
        [5, 1] 500).toOption.getD []) 5 = none ∧
    dictLookup ((fetch_collection_of_sources_from_db_by_id w9store
        [5, 1] 500).toOption.getD []) 1 = some (mkSource 1 "s1" []) := by
  have h := ((fetch_collection_by_id_spec w9store [5, 1] 500 (by decide)
    (by decide) (by decide)).1).2.2
  have hok : fetch_collection_of_sources_from_db_by_id w9store [5, 1] 500 =
      .ok ((fetch_collection_of_sources_from_db_by_id w9store
        [5, 1] 500).toOption.getD []) := rfl
  refine ⟨?_, ?_⟩
  · rw [h _ hok 5]; decide
  · rw [h _ hok 1]; decide

/-! ## Upserts (element_type_service.py, thing_node_service.py) -/

/-- `populate_element_type_ids` (structure_service.py lines 205-247): set
`element_type_id` on every node whose (truthy) element-type reference is
found in the map; leave the node alone otherwise. -/
def populate_element_type_ids (thing_nodes : List StructureServiceThingNode)
    (existing_element_types : List (NatKey × StructureServiceElementType)) :
    List StructureServiceThingNode :=
  thing_nodes.map fun tn =>
    if tn.element_type_external_id = "" then tn
    else
      match dictLookup existing_element_types
          (tn.stakeholder_key, tn.element_type_external_id) with
      | some db_et => { tn with element_type_id := some db_et.id }
      | none => tn

/-- One row of an `INSERT ... ON CONFLICT (external_id, stakeholder_key) DO
UPDATE` statement (the row-by-row semantics of the statement, as the SQLite
dialect executes it): on a natural-key conflict the update-set columns are
overwritten in place and the conflicting row keeps its surrogate id;
otherwise the row is inserted. -/
def upsertRowByKey [DecidableEq κ] (key : ρ → κ) (skey : σ → κ)
    (upd : ρ → σ → ρ) (ins : σ → ρ) (rows : List ρ) (e : σ) : List ρ :=
  if rows.any (fun r => decide (key r = skey e)) then
    rows.map (fun r => if key r = skey e then upd r e else r)
  else rows ++ [ins e]

/-- The update-set of the element-type upsert: every column of
`element_dicts[0]` except the primary key `id`.  The statement also assigns
`external_id` and `stakeholder_key` from the excluded row, but those are the
conflict-target columns, so the assigned values equal the conflicting row's
current values; these two provably no-op assignments are omitted here. -/
def updatedElementTypeRow (r el : StructureServiceElementType) :
    StructureServiceElementType :=
  { r with name := el.name, description := el.description }

/-- One row of the element-type upsert statement. -/
def upsertElementTypeRow :
    List StructureServiceElementType → StructureServiceElementType →
      List StructureServiceElementType :=
  upsertRowByKey etKey etKey updatedElementTypeRow id

/-- `upsert_element_types` (element_type_service.py lines 99-166): an empty
element list short-circuits with no store change; otherwise the batch upsert
statement writes every element. -/
def upsert_element_types (store : Store)
    (elements : List StructureServiceElementType) : Store :=
  if elements.isEmpty then store
  else { store with
    element_types := elements.foldl upsertElementTypeRow store.element_types }

/-- The element-type query performed per node inside `upsert_thing_nodes`
(`filter_by(external_id=node.element_type_external_id,
stakeholder_key=node.stakeholder_key).first()`). -/
def findElementType (ets : List StructureServiceElementType)
    (node : StructureServiceThingNode) : Option StructureServiceElementType :=
  ets.find? (fun et => decide (et.external_id = node.element_type_external_id ∧
    et.stakeholder_key = node.stakeholder_key))

/-- The field assignments performed on an existing row before
`session.merge(db_node)`: name, description, element-type id, metadata and
both parent references are overwritten from the node; the surrogate id and
the natural key stay. -/
def updatedThingNodeRow (r node : StructureServiceThingNode)
    (element_type : StructureServiceElementType) :
    StructureServiceThingNode :=
  { r with name := node.name, description := node.description,
           element_type_id := some element_type.id,
           meta_data := node.meta_data,
           parent_node_id := node.parent_node_id,
           parent_external_node_id := node.parent_external_node_id }

/-- The freshly constructed `StructureServiceThingNodeDBModel` added by
`session.add(new_node)`. -/
def newThingNodeRow (node : StructureServiceThingNode)
    (element_type : StructureServiceElementType) :
    StructureServiceThingNode :=
  { id := node.id, external_id := node.external_id,
    stakeholder_key := node.stakeholder_key, name := node.name,
    description := node.description, parent_node_id := node.parent_node_id,
    parent_external_node_id := node.parent_external_node_id,
    element_type_id := some element_type.id,
    element_type_external_id := node.element_type_external_id,
    meta_data := node.meta_data }

/-- One iteration of the `upsert_thing_nodes` loop: skip the node when its
element type is not found (logged warning); otherwise update the existing row
found in the passed map via `session.merge` (keyed by the primary key
`db_node.id`; `merge` inserts the updated object when no row carries that id)
or `session.add` a new row. -/
def upsertThingNodeStep (ets : List StructureServiceElementType)
    (existing : List (NatKey × StructureServiceThingNode))
    (rows : List StructureServiceThingNode)
    (node : StructureServiceThingNode) : List StructureServiceThingNode :=
  match findElementType ets node with
  | none => rows
  | some element_type =>
    match dictLookup existing (tnKey node) with
    | some db_node =>
      if rows.any (fun r => decide (r.id = db_node.id)) then
        rows.map (fun r => if r.id = db_node.id then
          updatedThingNodeRow r node element_type else r)
      else
        rows ++ [updatedThingNodeRow db_node node element_type]
    | none =>
      rows ++ [newThingNodeRow node element_type]

/-- `upsert_thing_nodes` (thing_node_service.py lines 147-249). -/
def upsert_thing_nodes (store : Store)
    (thing_nodes : List StructureServiceThingNode)
    (existing : List (NatKey × StructureServiceThingNode)) : Store :=
  { store with
    thing_nodes :=
      thing_nodes.foldl (upsertThingNodeStep store.element_types existing)
        store.thing_nodes }

/-! ## Behaviour of `upsert_thing_nodes` -/

/-- Filtering by a key commutes with a map that preserves keys and fixes the
rows carrying that key. -/
theorem filter_map_eq_of_fix {g : StructureServiceThingNode → StructureServiceThingNode}
    {k : NatKey} (hgkey : ∀ r, tnKey (g r) = tnKey r) :
    ∀ {rows : List StructureServiceThingNode},
      (∀ r ∈ rows, tnKey r = k → g r = r) →
      (rows.map g).filter (fun r => decide (tnKey r = k)) =
        rows.filter (fun r => decide (tnKey r = k)) := by
  intro rows
  induction rows with
  | nil => intro _; rfl
  | cons r rs ih =>
    intro hfix
    rw [List.map_cons]
    by_cases hrk : tnKey r = k
    · rw [hfix r (List.mem_cons_self r rs) hrk]
      rw [List.filter_cons_of_pos (by exact decide_eq_true hrk),
        List.filter_cons_of_pos (by exact decide_eq_true hrk)]
      rw [ih (fun r' hr' => hfix r' (List.mem_cons_of_mem r hr'))]
    · rw [List.filter_cons_of_neg (by
        rw [hgkey r]
        simpa using hrk),
        List.filter_cons_of_neg (by simpa using hrk)]
      exact ih (fun r' hr' => hfix r' (List.mem_cons_of_mem r hr'))

/-- One upsert step leaves the rows of any key different from the node's key
untouched (provided updating by primary key cannot hit them, i.e. the mapped
row's id does not occur among the rows of that key). -/
theorem upsertTN_step_filter_ne
    {ets : List StructureServiceElementType}
    {existing : List (NatKey × StructureServiceThingNode)}
    {rows : List StructureServiceThingNode}
    {n : StructureServiceThingNode} {k : NatKey}
    (hk : tnKey n ≠ k)
    (hexkey : ∀ v, dictLookup existing (tnKey n) = some v → tnKey v = tnKey n)
    (hexid : ∀ v, dictLookup existing (tnKey n) = some v →
      ∀ r ∈ rows, tnKey r = k → r.id ≠ v.id) :
    (upsertThingNodeStep ets existing rows n).filter
        (fun r => decide (tnKey r = k)) =
      rows.filter (fun r => decide (tnKey r = k)) := by
  unfold upsertThingNodeStep
  cases hET : findElementType ets n with
  | none => rfl
  | some et =>
    cases hdb : dictLookup existing (tnKey n) with
    | none =>
      dsimp only
      rw [List.filter_append]
      have hkey : (decide (tnKey (newThingNodeRow n et) = k)) = false :=
        decide_eq_false (fun h => hk h)
      simp [hkey]
    | some db_node =>
      dsimp only
      by_cases hany : rows.any (fun r => decide (r.id = db_node.id)) = true
      · rw [if_pos hany]
        apply filter_map_eq_of_fix
        · intro r
          by_cases h : r.id = db_node.id
          · rw [if_pos h]; rfl
          · rw [if_neg h]
        · intro r hr hrk
          rw [if_neg (hexid db_node hdb r hr hrk)]
      · rw [if_neg hany]
        rw [List.filter_append]
        have hkey : (decide (tnKey (updatedThingNodeRow db_node n et) = k))
            = false := by
          apply decide_eq_false
          intro h
          apply hk
          rw [← hexkey db_node hdb]
          exact h
        simp [hkey]

/-- Folding the upsert over a list of nodes whose keys all differ from `k`
leaves the rows of key `k` untouched, provided the ids of the rows of key `k`
stay inside a set `S` that no looked-up row's id can hit. -/
theorem upsertTN_fold_filter_ne
    {ets : List StructureServiceElementType}
    {existing : List (NatKey × StructureServiceThingNode)}
    {k : NatKey} {S : List Nat} :
    ∀ (L : List StructureServiceThingNode)
      (rows : List StructureServiceThingNode),
      (∀ n ∈ L, tnKey n ≠ k) →
      (∀ n ∈ L, ∀ v, dictLookup existing (tnKey n) = some v →
        tnKey v = tnKey n) →
      (∀ r ∈ rows, tnKey r = k → r.id ∈ S) →
      (∀ n ∈ L, ∀ v, dictLookup existing (tnKey n) = some v → v.id ∉ S) →
      (L.foldl (upsertThingNodeStep ets existing) rows).filter
          (fun r => decide (tnKey r = k)) =
        rows.filter (fun r => decide (tnKey r = k)) := by
  intro L
  induction L with
  | nil => intro rows _ _ _ _; rfl
  | cons n L ih =>
    intro rows hks hexkey hS hSid
    rw [List.foldl_cons]
    have hstep : (upsertThingNodeStep ets existing rows n).filter
        (fun r => decide (tnKey r = k)) =
        rows.filter (fun r => decide (tnKey r = k)) := by
      apply upsertTN_step_filter_ne (hks n (List.mem_cons_self n L))
        (hexkey n (List.mem_cons_self n L))
      intro v hv r hr hrk
      intro hid
      exact hSid n (List.mem_cons_self n L) v hv (hid ▸ hS r hr hrk)
    rw [← hstep]
    apply ih
    · exact fun m hm => hks m (List.mem_cons_of_mem n hm)
    · exact fun m hm => hexkey m (List.mem_cons_of_mem n hm)
    · intro r hr hrk
      have : r ∈ (upsertThingNodeStep ets existing rows n).filter
          (fun r => decide (tnKey r = k)) := by
        rw [List.mem_filter]
        exact ⟨hr, decide_eq_true hrk⟩
      rw [hstep, List.mem_filter] at this
      exact hS r this.1 hrk
    · exact fun m hm => hSid m (List.mem_cons_of_mem n hm)

theorem tnKey_updatedThingNodeRow (r node : StructureServiceThingNode)
    (et : StructureServiceElementType) :
    tnKey (updatedThingNodeRow r node et) = tnKey r := rfl

theorem id_updatedThingNodeRow (r node : StructureServiceThingNode)
    (et : StructureServiceElementType) :
    (updatedThingNodeRow r node et).id = r.id := rfl

theorem tnKey_newThingNodeRow (node : StructureServiceThingNode)
    (et : StructureServiceElementType) :
    tnKey (newThingNodeRow node et) = tnKey node := rfl

theorem upsertTN_step_eq_skip {ets existing rows}
    {n : StructureServiceThingNode}
    (hET : findElementType ets n = none) :
    upsertThingNodeStep ets existing rows n = rows := by
  unfold upsertThingNodeStep
  rw [hET]

theorem upsertTN_step_eq_update {ets existing rows}
    {n v : StructureServiceThingNode} {et : StructureServiceElementType}
    (hET : findElementType ets n = some et)
    (hdb : dictLookup existing (tnKey n) = some v)
    (hany : rows.any (fun r => decide (r.id = v.id)) = true) :
    upsertThingNodeStep ets existing rows n =
      rows.map (fun r => if r.id = v.id then updatedThingNodeRow r n et
        else r) := by
  unfold upsertThingNodeStep
  rw [hET]
  dsimp only
  rw [hdb]
  dsimp only
  rw [if_pos hany]

theorem upsertTN_step_eq_insert {ets existing rows}
    {n : StructureServiceThingNode} {et : StructureServiceElementType}
    (hET : findElementType ets n = some et)
    (hdb : dictLookup existing (tnKey n) = none) :
    upsertThingNodeStep ets existing rows n =
      rows ++ [newThingNodeRow n et] := by
  unfold upsertThingNodeStep
  rw [hET]
  dsimp only
  rw [hdb]

/-- The nodup-key facts obtained from splitting the node list at a member. -/
theorem nodup_keys_split {L1 L2 : List StructureServiceThingNode}
    {n : StructureServiceThingNode}
    (h : ((L1 ++ n :: L2).map tnKey).Nodup) :
    (∀ m ∈ L1, tnKey m ≠ tnKey n) ∧ (∀ m ∈ L2, tnKey m ≠ tnKey n) := by
  rw [List.map_append, List.map_cons, List.nodup_append] at h
  obtain ⟨-, h2, hdisj⟩ := h
  rw [List.nodup_cons] at h2
  constructor
  · intro m hm heq
    exact hdisj (heq ▸ List.mem_map_of_mem tnKey hm) (List.mem_cons_self _ _)
  · intro m hm heq
    exact h2.1 (heq ▸ List.mem_map_of_mem tnKey hm)

/-- Under the pipeline invariants (distinct store ids, existing-map agreeing
with the store, duplicate-free document keys, fresh ids for unmatched nodes),
every node whose element type resolves ends up written: after
`upsert_thing_nodes` some row carries the node's natural key and exactly the
node's mutable fields. -/
theorem upsert_thing_nodes_writes
    (store : Store) (L : List StructureServiceThingNode)
    (existing : List (NatKey × StructureServiceThingNode))
    (hids : (store.thing_nodes.map (fun r => r.id)).Nodup)
    (hex : ∀ n ∈ L, dictLookup existing (tnKey n) =
      store.thing_nodes.find? (fun r => decide (tnKey r = tnKey n)))
    (hkeys : (L.map tnKey).Nodup)
    (hfresh : ∀ n ∈ L,
      store.thing_nodes.find? (fun r => decide (tnKey r = tnKey n)) = none →
      n.id ∉ store.thing_nodes.map (fun r => r.id))
    (n : StructureServiceThingNode) (hn : n ∈ L)
    (et : StructureServiceElementType)
    (hET : findElementType store.element_types n = some et) :
    ∃ r ∈ (upsert_thing_nodes store L existing).thing_nodes,
      tnKey r = tnKey n ∧ r.name = n.name ∧ r.description = n.description ∧
      r.element_type_id = some et.id ∧ r.meta_data = n.meta_data ∧
      r.parent_node_id = n.parent_node_id ∧
      r.parent_external_node_id = n.parent_external_node_id := by
  obtain ⟨L1, L2, rfl⟩ := List.append_of_mem hn
  obtain ⟨d1, d2⟩ := nodup_keys_split hkeys
  unfold upsert_thing_nodes
  dsimp only
  set f := upsertThingNodeStep store.element_types existing with hf
  set rows0 := store.thing_nodes with hrows0
  set S := (rows0.filter (fun r => decide (tnKey r = tnKey n))).map
    (fun r => r.id) with hS
  have hSmem : ∀ r ∈ rows0, tnKey r = tnKey n → r.id ∈ S := by
    intro r hr hrk
    rw [hS]
    exact List.mem_map_of_mem _ (List.mem_filter.mpr ⟨hr, decide_eq_true hrk⟩)
  have hSno : ∀ v ∈ rows0, tnKey v ≠ tnKey n → v.id ∉ S := by
    intro v hv hvk hvS
    rw [hS, List.mem_map] at hvS
    obtain ⟨r, hrfil, hrid⟩ := hvS
    rw [List.mem_filter] at hrfil
    exact hvk (List.inj_on_of_nodup_map hids hv hrfil.1 hrid.symm ▸
      of_decide_eq_true hrfil.2)
  have hexkey : ∀ m, m ∈ L1 ++ n :: L2 → ∀ v,
      dictLookup existing (tnKey m) = some v → tnKey v = tnKey m := by
    intro m hm v hv
    rw [hex m hm] at hv
    simpa using List.find?_some hv
  have hexmem : ∀ m, m ∈ L1 ++ n :: L2 → ∀ v,
      dictLookup existing (tnKey m) = some v → v ∈ rows0 := by
    intro m hm v hv
    rw [hex m hm] at hv
    exact List.mem_of_find?_eq_some hv
  have hmemL1 : ∀ m ∈ L1, m ∈ L1 ++ n :: L2 := by
    intro m hm; exact List.mem_append_left _ hm
  have hmemL2 : ∀ m ∈ L2, m ∈ L1 ++ n :: L2 := by
    intro m hm
    exact List.mem_append_right _ (List.mem_cons_of_mem _ hm)
  have hSidL : ∀ m, m ∈ L1 ++ n :: L2 → tnKey m ≠ tnKey n → ∀ v,
      dictLookup existing (tnKey m) = some v → v.id ∉ S := by
    intro m hm hmk v hv
    exact hSno v (hexmem m hm v hv) (by rw [hexkey m hm v hv]; exact hmk)
  -- fold over the prefix leaves the rows of the node's key untouched
  have hfil1 : (L1.foldl f rows0).filter (fun r => decide (tnKey r = tnKey n))
      = rows0.filter (fun r => decide (tnKey r = tnKey n)) := by
    apply upsertTN_fold_filter_ne L1 rows0 d1
      (fun m hm => hexkey m (hmemL1 m hm)) hSmem
      (fun m hm => hSidL m (hmemL1 m hm) (d1 m hm))
  set rows1 := L1.foldl f rows0 with hrows1
  have hmemfil1 : ∀ r ∈ rows1, tnKey r = tnKey n → r.id ∈ S := by
    intro r hr hrk
    have : r ∈ rows1.filter (fun r => decide (tnKey r = tnKey n)) :=
      List.mem_filter.mpr ⟨hr, decide_eq_true hrk⟩
    rw [hfil1, List.mem_filter] at this
    exact hSmem r this.1 hrk
  rw [List.foldl_append, List.foldl_cons]
  cases hfind : rows0.find? (fun r => decide (tnKey r = tnKey n)) with
  | some v =>
    have hdb : dictLookup existing (tnKey n) = some v := by
      rw [hex n hn]; exact hfind
    have hvkey : tnKey v = tnKey n := by simpa using List.find?_some hfind
    have hvrows1 : v ∈ rows1 := by
      have : v ∈ rows0.filter (fun r => decide (tnKey r = tnKey n)) :=
        List.mem_filter.mpr ⟨List.mem_of_find?_eq_some hfind,
          decide_eq_true hvkey⟩
      rw [← hfil1, List.mem_filter] at this
      exact this.1
    have hany : rows1.any (fun r => decide (r.id = v.id)) = true :=
      List.any_eq_true.mpr ⟨v, hvrows1, by simp⟩
    have hstep : f rows1 n = rows1.map
        (fun r => if r.id = v.id then updatedThingNodeRow r n et else r) :=
      upsertTN_step_eq_update hET hdb hany
    set w := updatedThingNodeRow v n et with hw
    have hwmem : w ∈ f rows1 n := by
      rw [hstep]
      have hfv : (fun r => if r.id = v.id then updatedThingNodeRow r n et
          else r) v = w := by simp [hw]
      rw [← hfv]
      exact List.mem_map_of_mem _ hvrows1
    have hwkey : tnKey w = tnKey n := by
      rw [hw, tnKey_updatedThingNodeRow]; exact hvkey
    have hS2 : ∀ r ∈ f rows1 n, tnKey r = tnKey n → r.id ∈ S := by
      rw [hstep]
      intro r hr hrk
      rw [List.mem_map] at hr
      obtain ⟨r', hr', rfl⟩ := hr
      by_cases h : r'.id = v.id
      · rw [if_pos h] at hrk ⊢
        rw [id_updatedThingNodeRow]
        apply hmemfil1 r' hr'
        rw [← tnKey_updatedThingNodeRow r' n et]
        exact hrk
      · rw [if_neg h] at hrk ⊢
        exact hmemfil1 r' hr' hrk
    have hfil2 : (L2.foldl f (f rows1 n)).filter
        (fun r => decide (tnKey r = tnKey n)) =
        (f rows1 n).filter (fun r => decide (tnKey r = tnKey n)) := by
      apply upsertTN_fold_filter_ne L2 _ d2
        (fun m hm => hexkey m (hmemL2 m hm)) hS2
        (fun m hm => hSidL m (hmemL2 m hm) (d2 m hm))
    have : w ∈ (L2.foldl f (f rows1 n)).filter
        (fun r => decide (tnKey r = tnKey n)) := by
      rw [hfil2, List.mem_filter]
      exact ⟨hwmem, decide_eq_true hwkey⟩
    rw [List.mem_filter] at this
    exact ⟨w, this.1, hwkey, rfl, rfl, rfl, rfl, rfl, rfl⟩
  | none =>
    have hdb : dictLookup existing (tnKey n) = none := by
      rw [hex n hn]; exact hfind
    have hstep : f rows1 n = rows1 ++ [newThingNodeRow n et] :=
      upsertTN_step_eq_insert hET hdb
    set w := newThingNodeRow n et with hw
    have hwmem : w ∈ f rows1 n := by
      rw [hstep]
      exact List.mem_append_right _ (List.mem_singleton.mpr rfl)
    have hwkey : tnKey w = tnKey n := tnKey_newThingNodeRow n et
    have hfreshn : n.id ∉ rows0.map (fun r => r.id) := hfresh n hn hfind
    have hS2 : ∀ r ∈ f rows1 n, tnKey r = tnKey n → r.id ∈ S ++ [n.id] := by
      rw [hstep]
      intro r hr hrk
      rw [List.mem_append] at hr
      rcases hr with hr | hr
      · exact List.mem_append_left _ (hmemfil1 r hr hrk)
      · rw [List.mem_singleton] at hr
        subst hr
        exact List.mem_append_right _ (List.mem_singleton.mpr rfl)
    have hfil2 : (L2.foldl f (f rows1 n)).filter
        (fun r => decide (tnKey r = tnKey n)) =
        (f rows1 n).filter (fun r => decide (tnKey r = tnKey n)) := by
      apply upsertTN_fold_filter_ne L2 _ d2
        (fun m hm => hexkey m (hmemL2 m hm)) hS2
      intro m hm v hv
      rw [List.mem_append, List.mem_singleton]
      push_neg
      refine ⟨hSidL m (hmemL2 m hm) (d2 m hm) v hv, ?_⟩
      intro hvid
      apply hfreshn
      rw [← hvid]
      exact List.mem_map_of_mem _ (hexmem m (hmemL2 m hm) v hv)
    have : w ∈ (L2.foldl f (f rows1 n)).filter
        (fun r => decide (tnKey r = tnKey n)) := by
      rw [hfil2, List.mem_filter]
      exact ⟨hwmem, decide_eq_true hwkey⟩
    rw [List.mem_filter] at this
    exact ⟨w, this.1, hwkey, rfl, rfl, rfl, rfl, rfl, rfl⟩

/-- A node whose element type does not resolve is skipped: the rows of its
natural key are exactly as before the pass. -/
theorem upsert_thing_nodes_skips
    (store : Store) (L : List StructureServiceThingNode)
    (existing : List (NatKey × StructureServiceThingNode))
    (hids : (store.thing_nodes.map (fun r => r.id)).Nodup)
    (hex : ∀ n ∈ L, dictLookup existing (tnKey n) =
      store.thing_nodes.find? (fun r => decide (tnKey r = tnKey n)))
    (hkeys : (L.map tnKey).Nodup)
    (n : StructureServiceThingNode) (hn : n ∈ L)
    (hET : findElementType store.element_types n = none) :
    (upsert_thing_nodes store L existing).thing_nodes.filter
        (fun r => decide (tnKey r = tnKey n)) =
      store.thing_nodes.filter (fun r => decide (tnKey r = tnKey n)) := by
  obtain ⟨L1, L2, rfl⟩ := List.append_of_mem hn
  obtain ⟨d1, d2⟩ := nodup_keys_split hkeys
  unfold upsert_thing_nodes
  dsimp only
  set f := upsertThingNodeStep store.element_types existing with hf
  set rows0 := store.thing_nodes with hrows0
  set S := (rows0.filter (fun r => decide (tnKey r = tnKey n))).map
    (fun r => r.id) with hS
  have hSmem : ∀ r ∈ rows0, tnKey r = tnKey n → r.id ∈ S := by
    intro r hr hrk
    rw [hS]
    exact List.mem_map_of_mem _ (List.mem_filter.mpr ⟨hr, decide_eq_true hrk⟩)
  have hSno : ∀ v ∈ rows0, tnKey v ≠ tnKey n → v.id ∉ S := by
    intro v hv hvk hvS
    rw [hS, List.mem_map] at hvS
    obtain ⟨r, hrfil, hrid⟩ := hvS
    rw [List.mem_filter] at hrfil
    exact hvk (List.inj_on_of_nodup_map hids hv hrfil.1 hrid.symm ▸
      of_decide_eq_true hrfil.2)
  have hexkey : ∀ m, m ∈ L1 ++ n :: L2 → ∀ v,
      dictLookup existing (tnKey m) = some v → tnKey v = tnKey m := by
    intro m hm v hv
    rw [hex m hm] at hv
    simpa using List.find?_some hv
  have hexmem : ∀ m, m ∈ L1 ++ n :: L2 → ∀ v,
      dictLookup existing (tnKey m) = some v → v ∈ rows0 := by
    intro m hm v hv
    rw [hex m hm] at hv
    exact List.mem_of_find?_eq_some hv
  have hSidL : ∀ m, m ∈ L1 ++ n :: L2 → tnKey m ≠ tnKey n → ∀ v,
      dictLookup existing (tnKey m) = some v → v.id ∉ S := by
    intro m hm hmk v hv
    exact hSno v (hexmem m hm v hv) (by rw [hexkey m hm v hv]; exact hmk)
  have hmemL1 : ∀ m ∈ L1, m ∈ L1 ++ n :: L2 := by
    intro m hm; exact List.mem_append_left _ hm
  have hmemL2 : ∀ m ∈ L2, m ∈ L1 ++ n :: L2 := by
    intro m hm
    exact List.mem_append_right _ (List.mem_cons_of_mem _ hm)
  have hfil1 : (L1.foldl f rows0).filter (fun r => decide (tnKey r = tnKey n))
      = rows0.filter (fun r => decide (tnKey r = tnKey n)) := by
    apply upsertTN_fold_filter_ne L1 rows0 d1
      (fun m hm => hexkey m (hmemL1 m hm)) hSmem
      (fun m hm => hSidL m (hmemL1 m hm) (d1 m hm))
  set rows1 := L1.foldl f rows0 with hrows1
  rw [List.foldl_append, List.foldl_cons]
  have hstep : f rows1 n = rows1 := upsertTN_step_eq_skip hET
  rw [hstep]
  have hmemfil1 : ∀ r ∈ rows1, tnKey r = tnKey n → r.id ∈ S := by
    intro r hr hrk
    have : r ∈ rows1.filter (fun r => decide (tnKey r = tnKey n)) :=
      List.mem_filter.mpr ⟨hr, decide_eq_true hrk⟩
    rw [hfil1, List.mem_filter] at this
    exact hSmem r this.1 hrk
  have hfil2 : (L2.foldl f rows1).filter (fun r => decide (tnKey r = tnKey n))
      = rows1.filter (fun r => decide (tnKey r = tnKey n)) := by
    apply upsertTN_fold_filter_ne L2 rows1 d2
      (fun m hm => hexkey m (hmemL2 m hm)) hmemfil1
      (fun m hm => hSidL m (hmemL2 m hm) (d2 m hm))
  rw [hfil2, hfil1]

/-- **C8**: during thing-node upsert, a node whose element type cannot be
resolved to an existing ElementType record is skipped (the store rows of its
natural key are untouched by the pass), while every other node of the same
batch whose element type resolves is still written — the unresolved reference
does not abort the batch (the embedded `upsert_thing_nodes` is a total
function on the store; the source raises only for store-level failures).
Hypotheses are the pipeline invariants: duplicate-free store ids,
existing-map agreeing with the store, duplicate-free document keys, fresh
surrogate ids for unmatched nodes. -/
theorem upsert_thing_nodes_skip_with_warning
    (store : Store) (L : List StructureServiceThingNode)
    (existing : List (NatKey × StructureServiceThingNode))
    (hids : (store.thing_nodes.map (fun r => r.id)).Nodup)
    (hex : ∀ n ∈ L, dictLookup existing (tnKey n) =
      store.thing_nodes.find? (fun r => decide (tnKey r = tnKey n)))
    (hkeys : (L.map tnKey).Nodup)
    (hfresh : ∀ n ∈ L,
      store.thing_nodes.find? (fun r => decide (tnKey r = tnKey n)) = none →
      n.id ∉ store.thing_nodes.map (fun r => r.id)) :
    (∀ n ∈ L, findElementType store.element_types n = none →
      (upsert_thing_nodes store L existing).thing_nodes.filter
          (fun r => decide (tnKey r = tnKey n)) =
        store.thing_nodes.filter (fun r => decide (tnKey r = tnKey n))) ∧
    (∀ n ∈ L, ∀ et, findElementType store.element_types n = some et →
      ∃ r ∈ (upsert_thing_nodes store L existing).thing_nodes,
        tnKey r = tnKey n ∧ r.name = n.name ∧ r.description = n.description ∧
        r.element_type_id = some et.id ∧ r.meta_data = n.meta_data ∧
        r.parent_node_id = n.parent_node_id ∧
        r.parent_external_node_id = n.parent_external_node_id) :=
  ⟨fun n hn hET => upsert_thing_nodes_skips store L existing hids hex hkeys
      n hn hET,
   fun n hn et hET => upsert_thing_nodes_writes store L existing hids hex
      hkeys hfresh n hn et hET⟩

/-- Element-type literal used by concrete inputs. -/
def mkET (i : Nat) (ext : String) : StructureServiceElementType :=
  { id := i, external_id := ext, stakeholder_key := "k", name := ext,
    description := none }

/-- Store with a single element type, used by the C8 witness. -/
def w8store : Store :=
  { element_types := [mkET 10 "et1"], thing_nodes := [], sources := [],
    sinks := [], thingnode_source_association := [],
    thingnode_sink_association := [] }

/-- Batch with one resolvable node and one node whose element type is
missing, used by the C8 witness. -/
def w8batch : List StructureServiceThingNode :=
  [mkTN 1 "good" none,
   { mkTN 2 "bad" none with element_type_external_id := "missing" }]

/-- **C8, witness**: on a concrete batch the node with the unresolvable
element type leaves the store untouched at its key while its sibling is
written. -/
theorem upsert_thing_nodes_skip_with_warning_witness :
    (∀ n ∈ w8batch, findElementType w8store.element_types n = none →
      (upsert_thing_nodes w8store w8batch []).thing_nodes.filter
          (fun r => decide (tnKey r = tnKey n)) =
        w8store.thing_nodes.filter (fun r => decide (tnKey r = tnKey n))) ∧
    (∀ n ∈ w8batch, ∀ et, findElementType w8store.element_types n = some et →
      ∃ r ∈ (upsert_thing_nodes w8store w8batch []).thing_nodes,
        tnKey r = tnKey n ∧ r.name = n.name ∧ r.description = n.description ∧
        r.element_type_id = some et.id ∧ r.meta_data = n.meta_data ∧
        r.parent_node_id = n.parent_node_id ∧
        r.parent_external_node_id = n.parent_external_node_id) :=
  upsert_thing_nodes_skip_with_warning w8store w8batch [] (by decide)
    (by decide) (by decide) (by decide)

/-! ## Generic behaviour of the key-based batch upserts -/

section KeyUpsert

variable {κ ρ σ : Type} [DecidableEq κ]
variable {key : ρ → κ} {skey : σ → κ} {upd : ρ → σ → ρ} {ins : σ → ρ}

/-- Filtering by a key commutes with a key-preserving map. -/
theorem filter_key_map {g : ρ → ρ} (hg : ∀ r, key (g r) = key r)
    (rows : List ρ) (k : κ) :
    (rows.map g).filter (fun r => decide (key r = k)) =
      (rows.filter (fun r => decide (key r = k))).map g := by
  induction rows with
  | nil => rfl
  | cons r rs ih =>
    rw [List.map_cons]
    by_cases hrk : key r = k
    · rw [List.filter_cons_of_pos (by rw [hg r]; exact decide_eq_true hrk),
        List.filter_cons_of_pos (by exact decide_eq_true hrk),
        List.map_cons, ih]
    · rw [List.filter_cons_of_neg (by rw [hg r]; simpa using hrk),
        List.filter_cons_of_neg (by simpa using hrk), ih]

/-- A key-based upsert step leaves the rows of any other key untouched. -/
theorem upsertRowByKey_filter_ne
    (hupd : ∀ r e, key (upd r e) = key r)
    (hins : ∀ e, key (ins e) = skey e)
    {rows : List ρ} {e : σ} {k : κ} (hk : skey e ≠ k) :
    (upsertRowByKey key skey upd ins rows e).filter
        (fun r => decide (key r = k)) =
      rows.filter (fun r => decide (key r = k)) := by
  unfold upsertRowByKey
  by_cases hany : rows.any (fun r => decide (key r = skey e)) = true
  · rw [if_pos hany]
    have hg : ∀ r, key ((fun r => if key r = skey e then upd r e else r) r)
        = key r := by
      intro r
      dsimp only
      by_cases h : key r = skey e
      · rw [if_pos h, hupd]
      · rw [if_neg h]
    rw [filter_key_map hg]
    have hfix : ∀ r ∈ rows.filter (fun r => decide (key r = k)),
        (fun r => if key r = skey e then upd r e else r) r = id r := by
      intro r hr
      rw [List.mem_filter] at hr
      have : ¬(key r = skey e) := by
        intro h
        exact hk (h ▸ of_decide_eq_true hr.2)
      simp only [if_neg this, id]
    rw [List.map_congr_left hfix, List.map_id]
  · rw [if_neg hany, List.filter_append]
    have : (decide (key (ins e) = k)) = false := by
      rw [hins e]
      exact decide_eq_false hk
    simp [this]

/-- Folding a key-based upsert over entities of other keys leaves the rows of
key `k` untouched. -/
theorem upsertRowByKey_fold_filter_ne
    (hupd : ∀ r e, key (upd r e) = key r)
    (hins : ∀ e, key (ins e) = skey e)
    {k : κ} :
    ∀ (E : List σ) (rows : List ρ), (∀ e ∈ E, skey e ≠ k) →
      (E.foldl (upsertRowByKey key skey upd ins) rows).filter
          (fun r => decide (key r = k)) =
        rows.filter (fun r => decide (key r = k)) := by
  intro E
  induction E with
  | nil => intro rows _; rfl
  | cons e E ih =>
    intro rows hks
    rw [List.foldl_cons]
    rw [ih _ (fun e' he' => hks e' (List.mem_cons_of_mem e he'))]
    exact upsertRowByKey_filter_ne hupd hins (hks e (List.mem_cons_self e E))

/-- After folding a key-based upsert over a duplicate-free entity batch, the
rows of an entity's key are exactly the updated old row or the inserted new
row. -/
theorem upsertRowByKey_fold_writes
    (hupd : ∀ r e, key (upd r e) = key r)
    (hins : ∀ e, key (ins e) = skey e)
    {E : List σ} {rows : List ρ}
    (hrows : (rows.map key).Nodup) (hE : (E.map skey).Nodup)
    {e : σ} (he : e ∈ E) :
    (E.foldl (upsertRowByKey key skey upd ins) rows).filter
        (fun r => decide (key r = skey e)) =
      (match rows.find? (fun r => decide (key r = skey e)) with
        | some orig => [upd orig e]
        | none => [ins e]) := by
  obtain ⟨E1, E2, rfl⟩ := List.append_of_mem he
  have hsplit : (∀ m ∈ E1, skey m ≠ skey e) ∧ (∀ m ∈ E2, skey m ≠ skey e) := by
    rw [List.map_append, List.map_cons, List.nodup_append] at hE
    obtain ⟨-, h2, hdisj⟩ := hE
    rw [List.nodup_cons] at h2
    constructor
    · intro m hm heq
      exact hdisj (heq ▸ List.mem_map_of_mem skey hm) (List.mem_cons_self _ _)
    · intro m hm heq
      exact h2.1 (heq ▸ List.mem_map_of_mem skey hm)
  rw [List.foldl_append, List.foldl_cons]
  rw [upsertRowByKey_fold_filter_ne hupd hins E2 _ hsplit.2]
  have hfil1 : (E1.foldl (upsertRowByKey key skey upd ins) rows).filter
      (fun r => decide (key r = skey e)) =
      rows.filter (fun r => decide (key r = skey e)) :=
    upsertRowByKey_fold_filter_ne hupd hins E1 rows hsplit.1
  set rows1 := E1.foldl (upsertRowByKey key skey upd ins) rows with hrows1
  cases hf : rows.find? (fun r => decide (key r = skey e)) with
  | none =>
    have hfil0 : rows.filter (fun r => decide (key r = skey e)) = [] := by
      rw [List.filter_eq_nil_iff]
      intro r hr
      have := List.find?_eq_none.mp hf r hr
      simpa using this
    have hany : ¬(rows1.any (fun r => decide (key r = skey e)) = true) := by
      intro h
      rw [List.any_eq_true] at h
      obtain ⟨r, hr, hrk⟩ := h
      have : r ∈ rows1.filter (fun r => decide (key r = skey e)) :=
        List.mem_filter.mpr ⟨hr, hrk⟩
      rw [hfil1, hfil0] at this
      simp at this
    unfold upsertRowByKey
    rw [if_neg hany, List.filter_append, hfil1, hfil0]
    have : (decide (key (ins e) = skey e)) = true :=
      decide_eq_true (hins e)
    simp [this]
  | some orig =>
    have horig : orig ∈ rows := List.mem_of_find?_eq_some hf
    have hok : key orig = skey e := by simpa using List.find?_some hf
    have hall : ∀ r ∈ rows, key r = skey e → r = orig := fun r hr hrk =>
      List.inj_on_of_nodup_map hrows hr horig (by rw [hrk, hok])
    have hnd : (rows.filter (fun r => decide (key r = skey e))).Nodup :=
      (List.filter_sublist rows).nodup (List.Nodup.of_map key hrows)
    have hfil0 : rows.filter (fun r => decide (key r = skey e)) = [orig] := by
      cases hfil : rows.filter (fun r => decide (key r = skey e)) with
      | nil =>
        exfalso
        have : orig ∈ rows.filter (fun r => decide (key r = skey e)) :=
          List.mem_filter.mpr ⟨horig, decide_eq_true hok⟩
        rw [hfil] at this
        simp at this
      | cons a l =>
        have ha : a ∈ rows.filter (fun r => decide (key r = skey e)) := by
          rw [hfil]; exact List.mem_cons_self _ _
        rw [List.mem_filter] at ha
        have ha2 : a = orig := hall a ha.1 (of_decide_eq_true ha.2)
        have hlnil : l = [] := by
          cases l with
          | nil => rfl
          | cons b bs =>
            exfalso
            have hb : b ∈ rows.filter (fun r => decide (key r = skey e)) := by
              rw [hfil]
              exact List.mem_cons_of_mem _ (List.mem_cons_self _ _)
            rw [List.mem_filter] at hb
            have hbo : b = orig := hall b hb.1 (of_decide_eq_true hb.2)
            rw [hfil, List.nodup_cons] at hnd
            apply hnd.1
            rw [ha2, ← hbo]
            exact List.mem_cons_self b bs
        rw [ha2, hlnil]
    have horig1 : orig ∈ rows1 := by
      have : orig ∈ rows1.filter (fun r => decide (key r = skey e)) := by
        rw [hfil1, hfil0]
        exact List.mem_cons_self _ _
      exact (List.mem_filter.mp this).1
    have hany : rows1.any (fun r => decide (key r = skey e)) = true :=
      List.any_eq_true.mpr ⟨orig, horig1, decide_eq_true hok⟩
    unfold upsertRowByKey
    rw [if_pos hany]
    have hg : ∀ r, key ((fun r => if key r = skey e then upd r e else r) r)
        = key r := by
      intro r
      dsimp only
      by_cases h : key r = skey e
      · rw [if_pos h, hupd]
      · rw [if_neg h]
    rw [filter_key_map hg, hfil1, hfil0, List.map_cons, List.map_nil]
    dsimp only
    rw [if_pos hok]

/-- When every entity's key already has a row whose update is a fixpoint, the
fold changes nothing at all. -/
theorem upsertRowByKey_fold_noop
    {rows : List ρ} (hrows : (rows.map key).Nodup) {E : List σ}
    (h : ∀ e ∈ E, ∃ r, rows.find? (fun r => decide (key r = skey e)) = some r
      ∧ upd r e = r) :
    E.foldl (upsertRowByKey key skey upd ins) rows = rows := by
  induction E with
  | nil => rfl
  | cons e E ih =>
    rw [List.foldl_cons]
    have hstep : upsertRowByKey key skey upd ins rows e = rows := by
      obtain ⟨r0, hr0, hfix⟩ := h e (List.mem_cons_self e E)
      have hr0mem : r0 ∈ rows := List.mem_of_find?_eq_some hr0
      have hr0key : key r0 = skey e := by simpa using List.find?_some hr0
      unfold upsertRowByKey
      rw [if_pos (List.any_eq_true.mpr ⟨r0, hr0mem, decide_eq_true hr0key⟩)]
      have hfixall : ∀ r ∈ rows,
          (fun r => if key r = skey e then upd r e else r) r = id r := by
        intro r hr
        dsimp only [id]
        by_cases hk : key r = skey e
        · rw [if_pos hk]
          have hrr0 : r = r0 :=
            List.inj_on_of_nodup_map hrows hr hr0mem (by rw [hk, hr0key])
          rw [hrr0]
          exact hfix
        · rw [if_neg hk]
      rw [List.map_congr_left hfixall, List.map_id]
    rw [hstep]
    exact ih (fun e' he' => h e' (List.mem_cons_of_mem _ he'))

/-- Two lists with the same filtered sublist agree on `any`. -/
theorem any_eq_of_filter_eq {p : ρ → Bool} {l1 l2 : List ρ}
    (h : l1.filter p = l2.filter p) : l1.any p = l2.any p := by
  cases h1 : l1.any p with
  | true =>
    rw [List.any_eq_true] at h1
    obtain ⟨r, hr, hp⟩ := h1
    have : r ∈ l2.filter p := by
      rw [← h, List.mem_filter]
      exact ⟨hr, hp⟩
    rw [List.mem_filter] at this
    exact (List.any_eq_true.mpr ⟨r, this.1, this.2⟩).symm
  | false =>
    cases h2 : l2.any p with
    | false => rfl
    | true =>
      rw [List.any_eq_true] at h2
      obtain ⟨r, hr, hp⟩ := h2
      have : r ∈ l1.filter p := by
        rw [h, List.mem_filter]
        exact ⟨hr, hp⟩
      rw [List.mem_filter] at this
      rw [List.any_eq_false] at h1
      exact absurd this.2 (h1 r this.1)

/-- Projection of the entity fold: any projection invariant under the update
maps the final table to the old projections followed by the projections of
the inserted entities (entities whose key was absent from the original
table), provided the batch has duplicate-free keys. -/
theorem upsertRowByKey_fold_map_proj {τ : Type} (π : ρ → τ)
    (hπ : ∀ r e, π (upd r e) = π r)
    (hupd : ∀ r e, key (upd r e) = key r)
    (hins : ∀ e, key (ins e) = skey e) :
    ∀ (E : List σ) (rows : List ρ), (E.map skey).Nodup →
      (E.foldl (upsertRowByKey key skey upd ins) rows).map π =
        rows.map π ++
          (E.filter (fun e =>
            !(rows.any (fun r => decide (key r = skey e))))).map
            (fun e => π (ins e)) := by
  intro E
  induction E with
  | nil => intro rows _; simp
  | cons e E ih =>
    intro rows hE
    rw [List.map_cons, List.nodup_cons] at hE
    rw [List.foldl_cons]
    rw [ih _ hE.2]
    have hcongr : E.filter (fun e' =>
        !((upsertRowByKey key skey upd ins rows e).any
          (fun r => decide (key r = skey e')))) =
        E.filter (fun e' =>
          !(rows.any (fun r => decide (key r = skey e')))) := by
      apply List.filter_congr
      intro e' he'
      have hne : skey e' ≠ skey e := by
        intro h
        exact hE.1 (h ▸ List.mem_map_of_mem skey he')
      rw [any_eq_of_filter_eq
        (upsertRowByKey_filter_ne hupd hins (fun h => hne h.symm))]
    rw [hcongr]
    by_cases hany : rows.any (fun r => decide (key r = skey e)) = true
    · have hstepmap : (upsertRowByKey key skey upd ins rows e).map π =
          rows.map π := by
        unfold upsertRowByKey
        rw [if_pos hany, List.map_map]
        apply List.map_congr_left
        intro r _
        dsimp only [Function.comp]
        by_cases h : key r = skey e
        · rw [if_pos h, hπ]
        · rw [if_neg h]
      rw [hstepmap, List.filter_cons_of_neg (by simp [hany])]
    · have hstepmap : (upsertRowByKey key skey upd ins rows e).map π =
          rows.map π ++ [π (ins e)] := by
        unfold upsertRowByKey
        rw [if_neg hany, List.map_append]
        rfl
      rw [hstepmap, List.filter_cons_of_pos (by
        simp only [Bool.not_eq_true] at hany ⊢
        simp [hany]), List.map_cons]
      simp

end KeyUpsert

/-- Nested filters collapse when the inner condition is implied. -/
theorem filter_filter_of_imp {α : Type} {p q : α → Bool} {l : List α}
    (h : ∀ x ∈ l, p x = true → q x = true) :
    (l.filter q).filter p = l.filter p := by
  induction l with
  | nil => rfl
  | cons a l ih =>
    have ih' := ih (fun x hx => h x (List.mem_cons_of_mem a hx))
    by_cases hp : p a = true
    · rw [List.filter_cons_of_pos (h a (List.mem_cons_self a l) hp),
        List.filter_cons_of_pos hp, List.filter_cons_of_pos hp, ih']
    · by_cases hq : q a = true
      · rw [List.filter_cons_of_pos hq,
          List.filter_cons_of_neg (by simpa using hp),
          List.filter_cons_of_neg (by simpa using hp), ih']
      · rw [List.filter_cons_of_neg (by simpa using hq),
          List.filter_cons_of_neg (by simpa using hp), ih']

/-- Nested filters empty out when the conditions are incompatible. -/
theorem filter_filter_of_excl {α : Type} {p q : α → Bool} {l : List α}
    (h : ∀ x ∈ l, p x = true → q x = false) :
    (l.filter q).filter p = [] := by
  induction l with
  | nil => rfl
  | cons a l ih =>
    have ih' := ih (fun x hx => h x (List.mem_cons_of_mem a hx))
    by_cases hq : q a = true
    · rw [List.filter_cons_of_pos hq]
      have hp : p a = false := by
        cases hpa : p a with
        | false => rfl
        | true =>
          rw [h a (List.mem_cons_self a l) hpa] at hq
          exact absurd hq (by simp)
      rw [List.filter_cons_of_neg (by simp [hp]), ih']
    · rw [List.filter_cons_of_neg (by simpa using hq), ih']

/-- When every node is either skipped or maps to a store row that its update
leaves unchanged, the thing-node upsert fold changes nothing at all. -/
theorem upsertTN_fold_noop
    {ets : List StructureServiceElementType}
    {existing : List (NatKey × StructureServiceThingNode)}
    {rows : List StructureServiceThingNode}
    (hids : (rows.map (fun r => r.id)).Nodup)
    {L : List StructureServiceThingNode}
    (h : ∀ n ∈ L, findElementType ets n = none ∨
      ∃ et db, findElementType ets n = some et ∧
        dictLookup existing (tnKey n) = some db ∧ db ∈ rows ∧
        updatedThingNodeRow db n et = db) :
    L.foldl (upsertThingNodeStep ets existing) rows = rows := by
  induction L with
  | nil => rfl
  | cons n L ih =>
    rw [List.foldl_cons]
    have hstep : upsertThingNodeStep ets existing rows n = rows := by
      rcases h n (List.mem_cons_self n L) with hskip | ⟨et, db, hET, hdb,
        hdbmem, hfix⟩
      · exact upsertTN_step_eq_skip hskip
      · have hany : rows.any (fun r => decide (r.id = db.id)) = true :=
          List.any_eq_true.mpr ⟨db, hdbmem, by simp⟩
        rw [upsertTN_step_eq_update hET hdb hany]
        have hfixall : ∀ r ∈ rows,
            (fun r => if r.id = db.id then updatedThingNodeRow r n et else r) r
              = id r := by
          intro r hr
          dsimp only [id]
          by_cases hk : r.id = db.id
          · rw [if_pos hk]
            have hrdb : r = db :=
              List.inj_on_of_nodup_map hids hr hdbmem (by exact hk)
            rw [hrdb]
            exact hfix
          · rw [if_neg hk]
        rw [List.map_congr_left hfixall, List.map_id]
    rw [hstep]
    exact ih (fun n' hn' => h n' (List.mem_cons_of_mem _ hn'))

/-! ## `upsert_sources` / `upsert_sinks`
(source_sink_service.py lines 332-515 and 518-697) -/

/-- `dict.values()` of a dict built from an association list: one value per
distinct key, the last binding winning. -/
def dictValues [DecidableEq κ] (l : List (κ × α)) : List α :=
  ((l.map (fun p => p.1)).dedup).filterMap (dictLookup l)

theorem mem_dictValues [DecidableEq κ] {l : List (κ × α)} {v : α} :
    v ∈ dictValues l ↔ ∃ k, dictLookup l k = some v := by
  unfold dictValues
  rw [List.mem_filterMap]
  constructor
  · rintro ⟨k, -, hk⟩
    exact ⟨k, hk⟩
  · rintro ⟨k, hk⟩
    refine ⟨k, ?_, hk⟩
    rw [List.mem_dedup]
    exact List.mem_map_of_mem _ (dictLookup_mem hk)

/-- Batched association insert with `on_conflict_do_nothing` on the composite
primary key: pairs are appended in order, pairs already present (also from
earlier in the same batch) are skipped. -/
def insertPairsDedupe (base pairs : List (Nat × Nat)) : List (Nat × Nat) :=
  pairs.foldl (fun acc p => if p ∈ acc then acc else acc ++ [p]) base

/-- The update-set of the source upsert statement (all adapter and filter
columns; the natural key is the conflict target and the surrogate id is never
updated; `thing_node_external_ids` is not a column of the statement and is
carried along unchanged from the conflicting row). -/
def updatedSourceRow (r src : StructureServiceSource) :
    StructureServiceSource :=
  { r with name := src.name, type := src.type, visible := src.visible,
           display_path := src.display_path,
           preset_filters := src.preset_filters,
           passthrough_filters := src.passthrough_filters,
           adapter_key := src.adapter_key, source_id := src.source_id,
           ref_key := src.ref_key, ref_id := src.ref_id,
           meta_data := src.meta_data }

/-- One row of the source upsert statement. -/
def upsertSourceRow :
    List StructureServiceSource → StructureServiceSource →
      List StructureServiceSource :=
  upsertRowByKey srcKey srcKey updatedSourceRow id

/-- The update-set of the sink upsert statement (mirror of the source one
with `sink_id`). -/
def updatedSinkRow (r snk : StructureServiceSink) : StructureServiceSink :=
  { r with name := snk.name, type := snk.type, visible := snk.visible,
           display_path := snk.display_path,
           preset_filters := snk.preset_filters,
           passthrough_filters := snk.passthrough_filters,
           adapter_key := snk.adapter_key, sink_id := snk.sink_id,
           ref_key := snk.ref_key, ref_id := snk.ref_id,
           meta_data := snk.meta_data }

/-- One row of the sink upsert statement. -/
def upsertSinkRow :
    List StructureServiceSink → StructureServiceSink →
      List StructureServiceSink :=
  upsertRowByKey snkKey snkKey updatedSinkRow id

/-- A `source_thingnode_mappings` entry: `(source_external_id,
source_stakeholder_key, thing_node_external_id, thing_node_stakeholder_key)`
— the thing-node stakeholder key is assumed equal to the source's. -/
abbrev AssocMapping := String × String × String × String

/-- The `source_thingnode_mappings` list: one entry per declared hierarchy
node reference of each source with a non-empty reference list, in document
order. -/
def sourceTnMappings (sources_with_tn_ids : List StructureServiceSource) :
    List AssocMapping :=
  (sources_with_tn_ids.map (fun src => src.thing_node_external_ids.map
    (fun tn_external_id =>
      (src.external_id, src.stakeholder_key, tn_external_id,
        src.stakeholder_key)))).flatten

/-- The `sink_thingnode_mappings` list (mirror). -/
def sinkTnMappings (sinks_with_tn_ids : List StructureServiceSink) :
    List AssocMapping :=
  (sinks_with_tn_ids.map (fun snk => snk.thing_node_external_ids.map
    (fun tn_external_id =>
      (snk.external_id, snk.stakeholder_key, tn_external_id,
        snk.stakeholder_key)))).flatten

/-- `source_id_map`: `{(row.external_id, row.stakeholder_key): row.id}` over
the source rows matching a referenced source identifier pair. -/
def srcIdMapFor (rows : List StructureServiceSource)
    (mappings : List AssocMapping) : List ((String × String) × Nat) :=
  (rows.filter (fun r => mappings.any (fun m =>
    decide (r.external_id = m.1 ∧ r.stakeholder_key = m.2.1)))).map
    (fun r => ((r.external_id, r.stakeholder_key), r.id))

/-- `sink_id_map` (mirror). -/
def snkIdMapFor (rows : List StructureServiceSink)
    (mappings : List AssocMapping) : List ((String × String) × Nat) :=
  (rows.filter (fun r => mappings.any (fun m =>
    decide (r.external_id = m.1 ∧ r.stakeholder_key = m.2.1)))).map
    (fun r => ((r.external_id, r.stakeholder_key), r.id))

/-- `thingnode_id_map`: the same map over the thing-node rows matching a
referenced thing-node identifier pair. -/
def tnIdMapFor (rows : List StructureServiceThingNode)
    (mappings : List AssocMapping) : List ((String × String) × Nat) :=
  (rows.filter (fun r => mappings.any (fun m =>
    decide (r.external_id = m.2.2.1 ∧ r.stakeholder_key = m.2.2.2)))).map
    (fun r => ((r.external_id, r.stakeholder_key), r.id))

/-- `association_insert_data`: one `(entity_id, thingnode_id)` pair per
mapping whose entity id and thing-node id both resolve (a missing id is
logged and the mapping skipped). -/
def assocInsertData (entity_id_map thingnode_id_map :
    List ((String × String) × Nat)) (mappings : List AssocMapping) :
    List (Nat × Nat) :=
  mappings.filterMap (fun m =>
    match dictLookup entity_id_map (m.1, m.2.1),
        dictLookup thingnode_id_map (m.2.2.1, m.2.2.2) with
    | some entity_id, some thingnode_id => some (entity_id, thingnode_id)
    | _, _ => none)

/-- The delete-then-insert reconciliation of an association table: delete
every row whose entity id is in the resolved id set (when non-empty), then
insert the new pairs with `on_conflict_do_nothing` (when non-empty). -/
def reconcileAssocRows (assoc : List (Nat × Nat)) (ids_to_delete : List Nat)
    (insert_data : List (Nat × Nat)) : List (Nat × Nat) :=
  let assoc1 := if ids_to_delete.isEmpty then assoc
    else assoc.filter (fun p => decide (p.1 ∉ ids_to_delete))
  if insert_data.isEmpty then assoc1 else insertPairsDedupe assoc1 insert_data

/-- `upsert_sources`: first the batch entity upsert; then, only if at least
one source declares a non-empty `thing_node_external_ids` list, association
reconciliation — build the mappings, resolve source and thing-node surrogate
ids by querying the two tables for the referenced identifier pairs, delete
every association row of the resolved source ids, and insert one association
row per resolved mapping (skipping mappings whose source or thing-node id is
missing, and duplicate rows). -/
def upsert_sources (store : Store)
    (sources : List StructureServiceSource) : Store :=
  let store1 := { store with
    sources := sources.foldl upsertSourceRow store.sources }
  let sources_with_tn_ids := sources.filter
    (fun src => !src.thing_node_external_ids.isEmpty)
  if sources_with_tn_ids.isEmpty then store1
  else
    let source_thingnode_mappings := sourceTnMappings sources_with_tn_ids
    let source_id_map := srcIdMapFor store1.sources source_thingnode_mappings
    let thingnode_id_map :=
      tnIdMapFor store1.thing_nodes source_thingnode_mappings
    let assoc2 := reconcileAssocRows store1.thingnode_source_association
      (dictValues source_id_map)
      (assocInsertData source_id_map thingnode_id_map
        source_thingnode_mappings)
    { store1 with thingnode_source_association := assoc2 }

/-- `upsert_sinks`: mirror of `upsert_sources` over the sink table and the
sink association table. -/
def upsert_sinks (store : Store)
    (sinks : List StructureServiceSink) : Store :=
  let store1 := { store with
    sinks := sinks.foldl upsertSinkRow store.sinks }
  let sinks_with_tn_ids := sinks.filter
    (fun snk => !snk.thing_node_external_ids.isEmpty)
  if sinks_with_tn_ids.isEmpty then store1
  else
    let sink_thingnode_mappings := sinkTnMappings sinks_with_tn_ids
    let sink_id_map := snkIdMapFor store1.sinks sink_thingnode_mappings
    let thingnode_id_map :=
      tnIdMapFor store1.thing_nodes sink_thingnode_mappings
    let assoc2 := reconcileAssocRows store1.thingnode_sink_association
      (dictValues sink_id_map)
      (assocInsertData sink_id_map thingnode_id_map
        sink_thingnode_mappings)
    { store1 with thingnode_sink_association := assoc2 }

/-! ## Association reconciliation lemmas -/

theorem find?_congr_pred {α : Type} {p q : α → Bool} {l : List α}
    (h : ∀ a ∈ l, p a = q a) : l.find? p = l.find? q := by
  induction l with
  | nil => rfl
  | cons a l ih =>
    rw [List.find?_cons, List.find?_cons, h a (List.mem_cons_self a l)]
    cases q a with
    | true => rfl
    | false => exact ih (fun a' ha' => h a' (List.mem_cons_of_mem a ha'))

theorem nodup_map_split {α β : Type} {f : α → β} {L1 L2 : List α} {a : α}
    (h : ((L1 ++ a :: L2).map f).Nodup) :
    (∀ m ∈ L1, f m ≠ f a) ∧ (∀ m ∈ L2, f m ≠ f a) := by
  rw [List.map_append, List.map_cons, List.nodup_append] at h
  obtain ⟨-, h2, hdisj⟩ := h
  rw [List.nodup_cons] at h2
  constructor
  · intro m hm heq
    exact hdisj (heq ▸ List.mem_map_of_mem f hm) (List.mem_cons_self _ _)
  · intro m hm heq
    exact h2.1 (heq ▸ List.mem_map_of_mem f hm)

theorem filter_filterMap_eq_nil {α β : Type} {g : α → Option β} {p : β → Bool}
    {l : List α} (h : ∀ x ∈ l, ∀ y, g x = some y → p y = false) :
    (l.filterMap g).filter p = [] := by
  rw [List.filter_eq_nil_iff]
  intro b hb
  rw [List.mem_filterMap] at hb
  obtain ⟨a, ha, hg⟩ := hb
  simp [h a ha b hg]

/-- Filtering by a pair predicate commutes with the deduplicating insert. -/
theorem filter_insertPairsDedupe (p : Nat × Nat → Bool) :
    ∀ (pairs base : List (Nat × Nat)),
      (insertPairsDedupe base pairs).filter p =
        insertPairsDedupe (base.filter p) (pairs.filter p) := by
  intro pairs
  induction pairs with
  | nil => intro base; rfl
  | cons q pairs ih =>
    intro base
    have hL : insertPairsDedupe base (q :: pairs) =
        insertPairsDedupe (if q ∈ base then base else base ++ [q]) pairs := rfl
    rw [hL, ih]
    by_cases hpq : p q = true
    · rw [List.filter_cons_of_pos hpq]
      have hR : insertPairsDedupe (base.filter p) (q :: pairs.filter p) =
          insertPairsDedupe (if q ∈ base.filter p then base.filter p
            else base.filter p ++ [q]) (pairs.filter p) := rfl
      rw [hR]
      congr 1
      by_cases hq : q ∈ base
      · rw [if_pos hq, if_pos (List.mem_filter.mpr ⟨hq, hpq⟩)]
      · rw [if_neg hq, if_neg (fun h => hq (List.mem_filter.mp h).1),
          List.filter_append]
        simp [hpq]
    · rw [List.filter_cons_of_neg (by simpa using hpq)]
      congr 1
      by_cases hq : q ∈ base
      · rw [if_pos hq]
      · rw [if_neg hq, List.filter_append]
        simp [hpq]

/-- Lookup in an id map built as `{(row.external_id, row.stakeholder_key):
row.id}` over the store rows passing a reference filter: for any referenced
key it returns the id of the (unique) row carrying that key. -/
theorem refMapLookup {ρ : Type} (rows : List ρ) (pred : ρ → Bool)
    (ext sk : ρ → String) (ι : ρ → Nat)
    (hnodup : (rows.map (fun r => (ext r, sk r))).Nodup)
    (a b : String)
    (hq : ∀ r ∈ rows, ext r = a ∧ sk r = b → pred r = true) :
    dictLookup ((rows.filter pred).map (fun r => ((ext r, sk r), ι r)))
        ((a, b) : String × String) =
      (rows.find? (fun r => decide (ext r = a ∧ sk r = b))).map ι := by
  cases hf : rows.find? (fun r => decide (ext r = a ∧ sk r = b)) with
  | none =>
    rw [show Option.map ι none = (none : Option Nat) from rfl,
      dictLookup_eq_none_iff]
    intro p hp
    rw [List.mem_map] at hp
    obtain ⟨r, hr, rfl⟩ := hp
    have hr' : r ∈ rows := (List.mem_filter.mp hr).1
    have := List.find?_eq_none.mp hf r hr'
    simp only [decide_eq_true_eq] at this
    intro hk
    apply this
    exact ⟨congrArg Prod.fst hk, congrArg Prod.snd hk⟩
  | some w =>
    have hw : w ∈ rows := List.mem_of_find?_eq_some hf
    have hwk : ext w = a ∧ sk w = b := by simpa using List.find?_some hf
    rw [show Option.map ι (some w) = some (ι w) from rfl]
    apply dictLookup_eq_some_of_mem_unique
    · have hwf : w ∈ rows.filter pred :=
        List.mem_filter.mpr ⟨hw, hq w hw hwk⟩
      rw [← hwk.1, ← hwk.2]
      exact List.mem_map_of_mem _ hwf
    · rintro p hp hk
      rw [List.mem_map] at hp
      obtain ⟨r, hr, rfl⟩ := hp
      simp only at hk ⊢
      have hr' : r ∈ rows := (List.mem_filter.mp hr).1
      have : r = w := by
        apply List.inj_on_of_nodup_map hnodup hr' hw
        rw [hk, hwk.1, hwk.2]
      rw [this]

theorem nodup_swap_pairs {ρ : Type} {rows : List ρ} {sk ext : ρ → String}
    (h : (rows.map (fun r => (sk r, ext r))).Nodup) :
    (rows.map (fun r => (ext r, sk r))).Nodup := by
  have heq : rows.map (fun r => (ext r, sk r)) =
      (rows.map (fun r => (sk r, ext r))).map Prod.swap := by
    rw [List.map_map]; rfl
  rw [heq]
  exact h.map Prod.swap_injective

/-- An entity is absent from a table exactly when `any` over its key fails. -/
theorem not_mem_keys_of_any_false {κ ρ : Type} [DecidableEq κ] {key : ρ → κ}
    {rows : List ρ} {k : κ}
    (h : rows.any (fun r => decide (key r = k)) = false) :
    k ∉ rows.map key := by
  intro hk
  rw [List.mem_map] at hk
  obtain ⟨r, hr, rfl⟩ := hk
  rw [List.any_eq_false] at h
  exact absurd (by simp) (h r hr)

theorem insertPairsDedupe_nil (base : List (Nat × Nat)) :
    insertPairsDedupe base [] = base := rfl

/-- An association slice at an entity id that is neither deleted nor the
first component of any inserted pair passes through reconciliation
unchanged. -/
theorem reconcileAssocRows_filter_untouched {assoc : List (Nat × Nat)}
    {dels : List Nat} {data : List (Nat × Nat)} {sid : Nat}
    (hdel : sid ∉ dels) (hdata : ∀ p ∈ data, p.1 ≠ sid) :
    (reconcileAssocRows assoc dels data).filter
        (fun p => decide (p.1 = sid)) =
      assoc.filter (fun p => decide (p.1 = sid)) := by
  unfold reconcileAssocRows
  dsimp only
  have h1 : (if dels.isEmpty then assoc
      else assoc.filter (fun p => decide (p.1 ∉ dels))).filter
        (fun p => decide (p.1 = sid)) =
      assoc.filter (fun p => decide (p.1 = sid)) := by
    by_cases hd : dels.isEmpty
    · rw [if_pos hd]
    · rw [if_neg hd]
      apply filter_filter_of_imp
      intro p _ hpsid
      have hps : p.1 = sid := of_decide_eq_true hpsid
      exact decide_eq_true (by rw [hps]; exact hdel)
  by_cases hdat : data.isEmpty
  · rw [if_pos hdat]
    exact h1
  · rw [if_neg hdat, filter_insertPairsDedupe]
    have hfil : data.filter (fun p => decide (p.1 = sid)) = [] := by
      rw [List.filter_eq_nil_iff]
      intro p hp
      simp [hdata p hp]
    rw [hfil, insertPairsDedupe_nil]
    exact h1

/-- An association slice at a deleted entity id is, after reconciliation,
exactly the deduplicated insert-data slice at that id. -/
theorem reconcileAssocRows_filter_deleted {assoc : List (Nat × Nat)}
    {dels : List Nat} {data : List (Nat × Nat)} {sid : Nat}
    (hdel : sid ∈ dels) :
    (reconcileAssocRows assoc dels data).filter
        (fun p => decide (p.1 = sid)) =
      insertPairsDedupe [] (data.filter (fun p => decide (p.1 = sid))) := by
  unfold reconcileAssocRows
  dsimp only
  have hdne : ¬ dels.isEmpty = true := by
    cases dels with
    | nil => cases hdel
    | cons a l => simp
  rw [if_neg hdne]
  have hbase : (assoc.filter (fun p => decide (p.1 ∉ dels))).filter
      (fun p => decide (p.1 = sid)) = [] := by
    apply filter_filter_of_excl
    intro p _ hpsid
    have hps : p.1 = sid := of_decide_eq_true hpsid
    exact decide_eq_false (by rw [hps]; exact fun hc => hc hdel)
  by_cases hdat : data.isEmpty
  · rw [if_pos hdat]
    have hd0 : data = [] := by
      cases data with
      | nil => rfl
      | cons a l => cases hdat
    rw [hbase, hd0]
    rfl
  · rw [if_neg hdat, filter_insertPairsDedupe, hbase]

/-- `find?` returns the unique element satisfying the predicate. -/
theorem find?_eq_some_of_mem_unique {α : Type} {p : α → Bool} {l : List α}
    {a : α} (ha : a ∈ l) (hp : p a = true)
    (huniq : ∀ b ∈ l, p b = true → b = a) : l.find? p = some a := by
  induction l with
  | nil => cases ha
  | cons b l ih =>
    rw [List.find?_cons]
    cases hpb : p b with
    | true =>
      rw [huniq b (List.mem_cons_self b l) hpb]
    | false =>
      have hab : a ∈ l := by
        rcases List.mem_cons.mp ha with rfl | h
        · rw [hp] at hpb; cases hpb
        · exact h
      exact ih hab (fun c hc hpc => huniq c (List.mem_cons_of_mem b hc) hpc)

theorem filterMap_congr_mem {α β : Type} {f g : α → Option β} {l : List α}
    (h : ∀ a ∈ l, f a = g a) : l.filterMap f = l.filterMap g := by
  induction l with
  | nil => rfl
  | cons a l ih =>
    rw [List.filterMap_cons, List.filterMap_cons,
      h a (List.mem_cons_self a l),
      ih (fun b hb => h b (List.mem_cons_of_mem a hb))]

/-- Membership in the source mappings list. -/
theorem mem_sourceTnMappings {W : List StructureServiceSource}
    {m : AssocMapping} (hm : m ∈ sourceTnMappings W) :
    ∃ s ∈ W, ∃ t ∈ s.thing_node_external_ids,
      m = (s.external_id, s.stakeholder_key, t, s.stakeholder_key) := by
  unfold sourceTnMappings at hm
  rw [List.mem_flatten] at hm
  obtain ⟨L, hL, hmL⟩ := hm
  rw [List.mem_map] at hL
  obtain ⟨s, hs, rfl⟩ := hL
  rw [List.mem_map] at hmL
  obtain ⟨t, ht, rfl⟩ := hmL
  exact ⟨s, hs, t, ht, rfl⟩

/-- Membership in the sink mappings list. -/
theorem mem_sinkTnMappings {W : List StructureServiceSink}
    {m : AssocMapping} (hm : m ∈ sinkTnMappings W) :
    ∃ s ∈ W, ∃ t ∈ s.thing_node_external_ids,
      m = (s.external_id, s.stakeholder_key, t, s.stakeholder_key) := by
  unfold sinkTnMappings at hm
  rw [List.mem_flatten] at hm
  obtain ⟨L, hL, hmL⟩ := hm
  rw [List.mem_map] at hL
  obtain ⟨s, hs, rfl⟩ := hL
  rw [List.mem_map] at hmL
  obtain ⟨t, ht, rfl⟩ := hmL
  exact ⟨s, hs, t, ht, rfl⟩

section KeyUpsertNodup

variable {κ ρ σ : Type} [DecidableEq κ]
variable {key : ρ → κ} {skey : σ → κ} {upd : ρ → σ → ρ} {ins : σ → ρ}

/-- The batch upsert preserves natural-key uniqueness of the table. -/
theorem upsertRowByKey_fold_keys_nodup
    (hupd : ∀ r e, key (upd r e) = key r)
    (hins : ∀ e, key (ins e) = skey e)
    {E : List σ} {rows : List ρ}
    (hrows : (rows.map key).Nodup) (hE : (E.map skey).Nodup) :
    ((E.foldl (upsertRowByKey key skey upd ins) rows).map key).Nodup := by
  rw [upsertRowByKey_fold_map_proj key hupd hupd hins E rows hE]
  rw [List.nodup_append]
  refine ⟨hrows, ?_, ?_⟩
  · have heq : (E.filter (fun e =>
        !(rows.any (fun r => decide (key r = skey e))))).map
          (fun e => key (ins e)) =
        (E.filter (fun e =>
          !(rows.any (fun r => decide (key r = skey e))))).map skey := by
      apply List.map_congr_left
      intro e _
      exact hins e
    rw [heq]
    exact List.Nodup.sublist
      (List.Sublist.map skey (List.filter_sublist E)) hE
  · intro k hk1 hk2
    rw [List.mem_map] at hk2
    obtain ⟨e, he, rfl⟩ := hk2
    rw [List.mem_filter] at he
    have hany : rows.any (fun r => decide (key r = skey e)) = false := by
      have := he.2
      rwa [Bool.not_eq_true'] at this
    rw [hins e] at hk1
    exact not_mem_keys_of_any_false hany hk1

/-- The batch upsert preserves uniqueness of any update-invariant projection
(such as the surrogate id) provided the inserted values are fresh and
pairwise distinct. -/
theorem upsertRowByKey_fold_proj_nodup {τ : Type} (π : ρ → τ)
    (hπ : ∀ r e, π (upd r e) = π r)
    (hupd : ∀ r e, key (upd r e) = key r)
    (hins : ∀ e, key (ins e) = skey e)
    {E : List σ} {rows : List ρ}
    (hrows : (rows.map π).Nodup) (hE : (E.map skey).Nodup)
    (hEpi : (E.map (fun e => π (ins e))).Nodup)
    (hfresh : ∀ e ∈ E, π (ins e) ∉ rows.map π) :
    ((E.foldl (upsertRowByKey key skey upd ins) rows).map π).Nodup := by
  rw [upsertRowByKey_fold_map_proj π hπ hupd hins E rows hE]
  rw [List.nodup_append]
  refine ⟨hrows, ?_, ?_⟩
  · exact List.Nodup.sublist
      (List.Sublist.map (fun e => π (ins e)) (List.filter_sublist E)) hEpi
  · intro t ht1 ht2
    rw [List.mem_map] at ht2
    obtain ⟨e, he, rfl⟩ := ht2
    exact hfresh e (List.mem_of_mem_filter he) ht1

end KeyUpsertNodup

/-! ## Structural facts about `upsert_sources` / `upsert_sinks` -/

theorem upsert_sources_sources_eq (store : Store)
    (srcs : List StructureServiceSource) :
    (upsert_sources store srcs).sources =
      srcs.foldl upsertSourceRow store.sources := by
  unfold upsert_sources
  dsimp only
  by_cases h : (srcs.filter
      (fun src => !src.thing_node_external_ids.isEmpty)).isEmpty
  · rw [if_pos h]
  · rw [if_neg h]

theorem upsert_sources_thing_nodes_eq (store : Store)
    (srcs : List StructureServiceSource) :
    (upsert_sources store srcs).thing_nodes = store.thing_nodes := by
  unfold upsert_sources
  dsimp only
  by_cases h : (srcs.filter
      (fun src => !src.thing_node_external_ids.isEmpty)).isEmpty
  · rw [if_pos h]
  · rw [if_neg h]

theorem upsert_sources_assoc_eq_of_empty (store : Store)
    (srcs : List StructureServiceSource)
    (h : (srcs.filter
      (fun src => !src.thing_node_external_ids.isEmpty)).isEmpty = true) :
    (upsert_sources store srcs).thingnode_source_association =
      store.thingnode_source_association := by
  unfold upsert_sources
  dsimp only
  rw [if_pos h]

theorem upsert_sources_assoc_eq_of_nonempty (store : Store)
    (srcs : List StructureServiceSource)
    (h : ¬ (srcs.filter
      (fun src => !src.thing_node_external_ids.isEmpty)).isEmpty = true) :
    (upsert_sources store srcs).thingnode_source_association =
      reconcileAssocRows store.thingnode_source_association
        (dictValues (srcIdMapFor (srcs.foldl upsertSourceRow store.sources)
          (sourceTnMappings (srcs.filter
            (fun src => !src.thing_node_external_ids.isEmpty)))))
        (assocInsertData
          (srcIdMapFor (srcs.foldl upsertSourceRow store.sources)
            (sourceTnMappings (srcs.filter
              (fun src => !src.thing_node_external_ids.isEmpty))))
          (tnIdMapFor store.thing_nodes
            (sourceTnMappings (srcs.filter
              (fun src => !src.thing_node_external_ids.isEmpty))))
          (sourceTnMappings (srcs.filter
            (fun src => !src.thing_node_external_ids.isEmpty)))) := by
  unfold upsert_sources
  dsimp only
  rw [if_neg h]

theorem upsert_sinks_sinks_eq (store : Store)
    (snks : List StructureServiceSink) :
    (upsert_sinks store snks).sinks =
      snks.foldl upsertSinkRow store.sinks := by
  unfold upsert_sinks
  dsimp only
  by_cases h : (snks.filter
      (fun snk => !snk.thing_node_external_ids.isEmpty)).isEmpty
  · rw [if_pos h]
  · rw [if_neg h]

theorem upsert_sinks_thing_nodes_eq (store : Store)
    (snks : List StructureServiceSink) :
    (upsert_sinks store snks).thing_nodes = store.thing_nodes := by
  unfold upsert_sinks
  dsimp only
  by_cases h : (snks.filter
      (fun snk => !snk.thing_node_external_ids.isEmpty)).isEmpty
  · rw [if_pos h]
  · rw [if_neg h]

theorem upsert_sinks_assoc_eq_of_empty (store : Store)
    (snks : List StructureServiceSink)
    (h : (snks.filter
      (fun snk => !snk.thing_node_external_ids.isEmpty)).isEmpty = true) :
    (upsert_sinks store snks).thingnode_sink_association =
      store.thingnode_sink_association := by
  unfold upsert_sinks
  dsimp only
  rw [if_pos h]

theorem upsert_sinks_assoc_eq_of_nonempty (store : Store)
    (snks : List StructureServiceSink)
    (h : ¬ (snks.filter
      (fun snk => !snk.thing_node_external_ids.isEmpty)).isEmpty = true) :
    (upsert_sinks store snks).thingnode_sink_association =
      reconcileAssocRows store.thingnode_sink_association
        (dictValues (snkIdMapFor (snks.foldl upsertSinkRow store.sinks)
          (sinkTnMappings (snks.filter
            (fun snk => !snk.thing_node_external_ids.isEmpty)))))
        (assocInsertData
          (snkIdMapFor (snks.foldl upsertSinkRow store.sinks)
            (sinkTnMappings (snks.filter
              (fun snk => !snk.thing_node_external_ids.isEmpty))))
          (tnIdMapFor store.thing_nodes
            (sinkTnMappings (snks.filter
              (fun snk => !snk.thing_node_external_ids.isEmpty))))
          (sinkTnMappings (snks.filter
            (fun snk => !snk.thing_node_external_ids.isEmpty)))) := by
  unfold upsert_sinks
  dsimp only
  rw [if_neg h]

theorem sourceFold_keys_nodup {rows E : List StructureServiceSource}
    (h1 : (rows.map srcKey).Nodup) (h2 : (E.map srcKey).Nodup) :
    ((E.foldl upsertSourceRow rows).map srcKey).Nodup :=
  @upsertRowByKey_fold_keys_nodup NatKey _ _ _ srcKey srcKey
    updatedSourceRow id (fun _ _ => rfl) (fun _ => rfl) E rows h1 h2

theorem sourceFold_ids_nodup {rows E : List StructureServiceSource}
    (h1 : (rows.map (fun r => r.id)).Nodup) (h2 : (E.map srcKey).Nodup)
    (h3 : (E.map (fun s => s.id)).Nodup)
    (h4 : ∀ e ∈ E, e.id ∉ rows.map (fun r => r.id)) :
    ((E.foldl upsertSourceRow rows).map (fun r => r.id)).Nodup :=
  @upsertRowByKey_fold_proj_nodup NatKey _ _ _ srcKey srcKey
    updatedSourceRow id Nat (fun r => r.id) (fun _ _ => rfl) (fun _ _ => rfl)
    (fun _ => rfl) E rows h1 h2 h3 h4

theorem sinkFold_keys_nodup {rows E : List StructureServiceSink}
    (h1 : (rows.map snkKey).Nodup) (h2 : (E.map snkKey).Nodup) :
    ((E.foldl upsertSinkRow rows).map snkKey).Nodup :=
  @upsertRowByKey_fold_keys_nodup NatKey _ _ _ snkKey snkKey
    updatedSinkRow id (fun _ _ => rfl) (fun _ => rfl) E rows h1 h2

theorem sinkFold_ids_nodup {rows E : List StructureServiceSink}
    (h1 : (rows.map (fun r => r.id)).Nodup) (h2 : (E.map snkKey).Nodup)
    (h3 : (E.map (fun s => s.id)).Nodup)
    (h4 : ∀ e ∈ E, e.id ∉ rows.map (fun r => r.id)) :
    ((E.foldl upsertSinkRow rows).map (fun r => r.id)).Nodup :=
  @upsertRowByKey_fold_proj_nodup NatKey _ _ _ snkKey snkKey
    updatedSinkRow id Nat (fun r => r.id) (fun _ _ => rfl) (fun _ _ => rfl)
    (fun _ => rfl) E rows h1 h2 h3 h4

/-- A document source with an empty reference list keeps its association
slice unchanged (the part of C3 that fails the claim's conclusion). -/
theorem upsert_sources_untouched_aux
    (store : Store) (srcs : List StructureServiceSource)
    (Hsi : (store.sources.map (fun r => r.id)).Nodup)
    (Hdk : (srcs.map srcKey).Nodup)
    (Hdi : (srcs.map (fun s => s.id)).Nodup)
    (Hdf : ∀ s ∈ srcs, s.id ∉ store.sources.map (fun r => r.id))
    (src : StructureServiceSource) (hsrc : src ∈ srcs)
    (hempty : src.thing_node_external_ids.isEmpty = true)
    (r : StructureServiceSource)
    (hr : r ∈ (upsert_sources store srcs).sources)
    (hkey : srcKey r = srcKey src) :
    (upsert_sources store srcs).thingnode_source_association.filter
        (fun p => decide (p.1 = r.id)) =
      store.thingnode_source_association.filter
        (fun p => decide (p.1 = r.id)) := by
  by_cases hW : (srcs.filter
      (fun s => !s.thing_node_external_ids.isEmpty)).isEmpty
  · rw [upsert_sources_assoc_eq_of_empty store srcs hW]
  · rw [upsert_sources_assoc_eq_of_nonempty store srcs hW]
    rw [upsert_sources_sources_eq store srcs] at hr
    set R1 := srcs.foldl upsertSourceRow store.sources with hR1
    set M := sourceTnMappings (srcs.filter
      (fun s => !s.thing_node_external_ids.isEmpty)) with hM
    have ids1 : (R1.map (fun r => r.id)).Nodup := by
      rw [hR1]
      exact sourceFold_ids_nodup Hsi Hdk Hdi Hdf
    have hnotin : r.id ∉ dictValues (srcIdMapFor R1 M) := by
      intro hmem
      rw [mem_dictValues] at hmem
      obtain ⟨k, hk⟩ := hmem
      have hkmem := dictLookup_mem hk
      unfold srcIdMapFor at hkmem
      rw [List.mem_map] at hkmem
      obtain ⟨r', hr', hpair⟩ := hkmem
      have hid : r'.id = r.id := congrArg Prod.snd hpair
      have hr'mem : r' ∈ R1 := (List.mem_filter.mp hr').1
      have hrr : r' = r := List.inj_on_of_nodup_map ids1 hr'mem hr hid
      have hpred := (List.mem_filter.mp hr').2
      rw [List.any_eq_true] at hpred
      obtain ⟨m, hmM, hm⟩ := hpred
      obtain ⟨s', hs'W, t, ht, rfl⟩ := mem_sourceTnMappings hmM
      simp only [decide_eq_true_eq] at hm
      have hs'srcs : s' ∈ srcs := List.mem_of_mem_filter hs'W
      have h1 : srcKey r' = srcKey s' := by
        unfold srcKey
        rw [hm.1, hm.2]
      rw [hrr] at h1
      have hkeq : srcKey s' = srcKey src := by
        rw [← h1, hkey]
      have hs'src : s' = src := List.inj_on_of_nodup_map Hdk hs'srcs hsrc hkeq
      rw [hs'src] at hs'W
      have hne := (List.mem_filter.mp hs'W).2
      rw [hempty] at hne
      simp at hne
    apply reconcileAssocRows_filter_untouched hnotin
    intro p hp
    unfold assocInsertData at hp
    rw [List.mem_filterMap] at hp
    obtain ⟨m, hmM, hg⟩ := hp
    cases h1 : dictLookup (srcIdMapFor R1 M) (m.1, m.2.1) with
    | none =>
      rw [h1] at hg
      cases h2 : dictLookup (tnIdMapFor store.thing_nodes M)
          (m.2.2.1, m.2.2.2) with
      | none => rw [h2] at hg; cases hg
      | some j => rw [h2] at hg; cases hg
    | some i =>
      rw [h1] at hg
      cases h2 : dictLookup (tnIdMapFor store.thing_nodes M)
          (m.2.2.1, m.2.2.2) with
      | none => rw [h2] at hg; cases hg
      | some j =>
        rw [h2] at hg
        cases hg
        intro hpi
        apply hnotin
        rw [← hpi]
        exact mem_dictValues.mpr ⟨(m.1, m.2.1), h1⟩

theorem append3_eq {α : Type} {A1 A2 A3 R : List α}
    (h1 : A1 = []) (h2 : A2 = R) (h3 : A3 = []) : A1 ++ (A2 ++ A3) = R := by
  rw [h1, h2, h3, List.nil_append, List.append_nil]

theorem filter_filterMap_all {α β : Type} {g f : α → Option β} {p : β → Bool}
    {l : List α} (h : ∀ a ∈ l, g a = f a)
    (hp : ∀ a ∈ l, ∀ y, f a = some y → p y = true) :
    (l.filterMap g).filter p = l.filterMap f := by
  rw [filterMap_congr_mem h]
  apply List.filter_eq_self.mpr
  intro y hy
  rw [List.mem_filterMap] at hy
  obtain ⟨a, ha, hfa⟩ := hy
  exact hp a ha y hfa

/-- An id-map lookup at an identifier pair that is not `r`'s cannot return
`r`'s surrogate id, given id uniqueness of the source table. -/
theorem srcIdMap_lookup_ne {R1 : List StructureServiceSource}
    {Md : List AssocMapping}
    (ids1 : (R1.map (fun r => r.id)).Nodup)
    {r : StructureServiceSource} (hr : r ∈ R1) {a b : String}
    (hab : ¬ (a = r.external_id ∧ b = r.stakeholder_key)) {i : Nat}
    (hl : dictLookup (srcIdMapFor R1 Md) ((a, b) : String × String) = some i) :
    ¬ i = r.id := by
  intro hir
  have hkmem := dictLookup_mem hl
  unfold srcIdMapFor at hkmem
  rw [List.mem_map] at hkmem
  obtain ⟨row, hrow, hpair⟩ := hkmem
  have hrowmem : row ∈ R1 := (List.mem_filter.mp hrow).1
  have hid : row.id = i := congrArg Prod.snd hpair
  have hrowr : row = r :=
    List.inj_on_of_nodup_map ids1 hrowmem hr (by rw [hid, hir])
  have hk1 : (Prod.mk row.external_id row.stakeholder_key) = Prod.mk a b :=
    congrArg Prod.fst hpair
  apply hab
  rw [← hrowr]
  exact ⟨(congrArg Prod.fst hk1).symm, (congrArg Prod.snd hk1).symm⟩

/-- Mirror of `srcIdMap_lookup_ne` for the sink table. -/
theorem snkIdMap_lookup_ne {R1 : List StructureServiceSink}
    {Md : List AssocMapping}
    (ids1 : (R1.map (fun r => r.id)).Nodup)
    {r : StructureServiceSink} (hr : r ∈ R1) {a b : String}
    (hab : ¬ (a = r.external_id ∧ b = r.stakeholder_key)) {i : Nat}
    (hl : dictLookup (snkIdMapFor R1 Md) ((a, b) : String × String) = some i) :
    ¬ i = r.id := by
  intro hir
  have hkmem := dictLookup_mem hl
  unfold snkIdMapFor at hkmem
  rw [List.mem_map] at hkmem
  obtain ⟨row, hrow, hpair⟩ := hkmem
  have hrowmem : row ∈ R1 := (List.mem_filter.mp hrow).1
  have hid : row.id = i := congrArg Prod.snd hpair
  have hrowr : row = r :=
    List.inj_on_of_nodup_map ids1 hrowmem hr (by rw [hid, hir])
  have hk1 : (Prod.mk row.external_id row.stakeholder_key) = Prod.mk a b :=
    congrArg Prod.fst hpair
  apply hab
  rw [← hrowr]
  exact ⟨(congrArg Prod.fst hk1).symm, (congrArg Prod.snd hk1).symm⟩

/-- A document source with a non-empty reference list gets its association
slice fully recomputed: old rows deleted, one row per declared reference
that resolves to a thing node, deduplicated. -/
theorem upsert_sources_recomputed_aux
    (store : Store) (srcs : List StructureServiceSource)
    (Hsk : (store.sources.map srcKey).Nodup)
    (Hsi : (store.sources.map (fun r => r.id)).Nodup)
    (Htk : (store.thing_nodes.map tnKey).Nodup)
    (Hdk : (srcs.map srcKey).Nodup)
    (Hdi : (srcs.map (fun s => s.id)).Nodup)
    (Hdf : ∀ s ∈ srcs, s.id ∉ store.sources.map (fun r => r.id))
    (src : StructureServiceSource) (hsrc : src ∈ srcs)
    (hne : src.thing_node_external_ids.isEmpty = false)
    (r : StructureServiceSource)
    (hr : r ∈ (upsert_sources store srcs).sources)
    (hkey : srcKey r = srcKey src) :
    (upsert_sources store srcs).thingnode_source_association.filter
        (fun p => decide (p.1 = r.id)) =
      insertPairsDedupe []
        (src.thing_node_external_ids.filterMap (fun t =>
          (store.thing_nodes.find? (fun n =>
            decide (n.external_id = t ∧
              n.stakeholder_key = src.stakeholder_key))).map
            (fun n => (r.id, n.id)))) := by
  have hsrcW : src ∈ srcs.filter (fun s => !s.thing_node_external_ids.isEmpty) :=
    List.mem_filter.mpr ⟨hsrc, by rw [hne]; rfl⟩
  have hW : ¬ (srcs.filter
      (fun s => !s.thing_node_external_ids.isEmpty)).isEmpty = true := by
    intro h
    cases hfe : srcs.filter (fun s => !s.thing_node_external_ids.isEmpty) with
    | nil => rw [hfe] at hsrcW; cases hsrcW
    | cons a l => rw [hfe] at h; cases h
  obtain ⟨W1, W2, hWsplit⟩ := List.append_of_mem hsrcW
  rw [upsert_sources_assoc_eq_of_nonempty store srcs hW]
  rw [upsert_sources_sources_eq store srcs] at hr
  rw [hWsplit]
  unfold sourceTnMappings
  rw [List.map_append, List.flatten_append, List.map_cons, List.flatten_cons]
  set R1 := srcs.foldl upsertSourceRow store.sources with hR1
  set B1 := (W1.map (fun s => s.thing_node_external_ids.map
    (fun t => (s.external_id, s.stakeholder_key, t,
      s.stakeholder_key)))).flatten with hB1
  set Bm := src.thing_node_external_ids.map
    (fun t => (src.external_id, src.stakeholder_key, t,
      src.stakeholder_key)) with hBm
  set B3 := (W2.map (fun s => s.thing_node_external_ids.map
    (fun t => (s.external_id, s.stakeholder_key, t,
      s.stakeholder_key)))).flatten with hB3
  have keys1 : (R1.map srcKey).Nodup := by
    rw [hR1]
    exact sourceFold_keys_nodup Hsk Hdk
  have ids1 : (R1.map (fun r => r.id)).Nodup := by
    rw [hR1]
    exact sourceFold_ids_nodup Hsi Hdk Hdi Hdf
  have hrext : r.external_id = src.external_id := congrArg Prod.snd hkey
  have hrsk : r.stakeholder_key = src.stakeholder_key := congrArg Prod.fst hkey
  have hWk : ((W1 ++ src :: W2).map srcKey).Nodup := by
    rw [← hWsplit]
    exact List.Nodup.sublist
      (List.Sublist.map srcKey (List.filter_sublist srcs)) Hdk
  have hothers := nodup_map_split hWk
  obtain ⟨t0, ht0⟩ : ∃ t, t ∈ src.thing_node_external_ids := by
    cases hL : src.thing_node_external_ids with
    | nil => rw [hL] at hne; simp at hne
    | cons a l => exact ⟨a, List.mem_cons_self a l⟩
  have hm0 : (src.external_id, src.stakeholder_key, t0, src.stakeholder_key)
      ∈ B1 ++ (Bm ++ B3) := by
    apply List.mem_append.mpr
    right
    apply List.mem_append.mpr
    left
    rw [hBm]
    exact List.mem_map_of_mem _ ht0
  have hfindr : R1.find? (fun q => decide (q.external_id = src.external_id ∧
      q.stakeholder_key = src.stakeholder_key)) = some r := by
    apply find?_eq_some_of_mem_unique hr (decide_eq_true ⟨hrext, hrsk⟩)
    intro b hb hpb
    simp only [decide_eq_true_eq] at hpb
    apply List.inj_on_of_nodup_map keys1 hb hr
    unfold srcKey
    rw [hpb.1, hpb.2, hrext, hrsk]
  have hq : ∀ q ∈ R1, q.external_id = src.external_id ∧
      q.stakeholder_key = src.stakeholder_key →
      (B1 ++ (Bm ++ B3)).any (fun m =>
        decide (q.external_id = m.1 ∧ q.stakeholder_key = m.2.1)) = true := by
    intro q _ hqk
    apply List.any_eq_true.mpr
    exact ⟨(src.external_id, src.stakeholder_key, t0, src.stakeholder_key),
      hm0, decide_eq_true ⟨hqk.1, hqk.2⟩⟩
  have hsid : dictLookup (srcIdMapFor R1 (B1 ++ (Bm ++ B3)))
      ((src.external_id, src.stakeholder_key) : String × String) =
        some r.id := by
    unfold srcIdMapFor
    rw [refMapLookup R1
      (fun q => (B1 ++ (Bm ++ B3)).any (fun m =>
        decide (q.external_id = m.1 ∧ q.stakeholder_key = m.2.1)))
      (fun q => q.external_id) (fun q => q.stakeholder_key) (fun q => q.id)
      (nodup_swap_pairs keys1) src.external_id src.stakeholder_key hq,
      hfindr]
    rfl
  have htid : ∀ t ∈ src.thing_node_external_ids,
      dictLookup (tnIdMapFor store.thing_nodes (B1 ++ (Bm ++ B3)))
        ((t, src.stakeholder_key) : String × String) =
      (store.thing_nodes.find? (fun n => decide (n.external_id = t ∧
        n.stakeholder_key = src.stakeholder_key))).map (fun n => n.id) := by
    intro t ht
    have hmt : (src.external_id, src.stakeholder_key, t, src.stakeholder_key)
        ∈ B1 ++ (Bm ++ B3) := by
      apply List.mem_append.mpr
      right
      apply List.mem_append.mpr
      left
      rw [hBm]
      exact List.mem_map_of_mem _ ht
    have hqT : ∀ n ∈ store.thing_nodes, n.external_id = t ∧
        n.stakeholder_key = src.stakeholder_key →
        (B1 ++ (Bm ++ B3)).any (fun m =>
          decide (n.external_id = m.2.2.1 ∧
            n.stakeholder_key = m.2.2.2)) = true := by
      intro n _ hnk
      apply List.any_eq_true.mpr
      exact ⟨_, hmt, decide_eq_true ⟨hnk.1, hnk.2⟩⟩
    unfold tnIdMapFor
    rw [refMapLookup store.thing_nodes
      (fun n => (B1 ++ (Bm ++ B3)).any (fun m =>
        decide (n.external_id = m.2.2.1 ∧ n.stakeholder_key = m.2.2.2)))
      (fun n => n.external_id) (fun n => n.stakeholder_key) (fun n => n.id)
      (nodup_swap_pairs Htk) t src.stakeholder_key hqT]
  have hdel : r.id ∈ dictValues (srcIdMapFor R1 (B1 ++ (Bm ++ B3))) :=
    mem_dictValues.mpr
      ⟨((src.external_id, src.stakeholder_key) : String × String), hsid⟩
  rw [reconcileAssocRows_filter_deleted hdel]
  congr 1
  unfold assocInsertData
  rw [List.filterMap_append, List.filterMap_append, List.filter_append,
    List.filter_append]
  refine append3_eq ?_ ?_ ?_
  · apply filter_filterMap_eq_nil
    intro m hm y hg
    rw [hB1] at hm
    rw [List.mem_flatten] at hm
    obtain ⟨L, hL, hmL⟩ := hm
    rw [List.mem_map] at hL
    obtain ⟨s', hs', rfl⟩ := hL
    rw [List.mem_map] at hmL
    obtain ⟨t, ht, rfl⟩ := hmL
    dsimp only at hg
    cases hl1 : dictLookup (srcIdMapFor R1 (B1 ++ (Bm ++ B3)))
        ((s'.external_id, s'.stakeholder_key) : String × String) with
    | none =>
      rw [hl1] at hg
      cases hl2 : dictLookup (tnIdMapFor store.thing_nodes (B1 ++ (Bm ++ B3)))
          ((t, s'.stakeholder_key) : String × String) with
      | none => rw [hl2] at hg; cases hg
      | some j => rw [hl2] at hg; cases hg
    | some i =>
      rw [hl1] at hg
      cases hl2 : dictLookup (tnIdMapFor store.thing_nodes (B1 ++ (Bm ++ B3)))
          ((t, s'.stakeholder_key) : String × String) with
      | none => rw [hl2] at hg; cases hg
      | some j =>
        rw [hl2] at hg
        cases hg
        apply decide_eq_false
        have hab : ¬ (s'.external_id = r.external_id ∧
            s'.stakeholder_key = r.stakeholder_key) := by
          intro hcontra
          have hks' : srcKey s' = srcKey src := by
            unfold srcKey
            rw [hcontra.1, hcontra.2, hrext, hrsk]
          exact hothers.1 s' hs' hks'
        exact srcIdMap_lookup_ne ids1 hr hab hl1
  · rw [hBm, List.filterMap_map]
    apply filter_filterMap_all
    · intro t ht
      dsimp only [Function.comp]
      rw [hsid, htid t ht]
      cases hfd : store.thing_nodes.find? (fun n =>
          decide (n.external_id = t ∧
            n.stakeholder_key = src.stakeholder_key)) with
      | none => rfl
      | some n => rfl
    · intro t ht y hy
      cases hfd : store.thing_nodes.find? (fun n =>
          decide (n.external_id = t ∧
            n.stakeholder_key = src.stakeholder_key)) with
      | none => rw [hfd] at hy; cases hy
      | some n =>
        rw [hfd] at hy
        cases hy
        exact decide_eq_true rfl
  · apply filter_filterMap_eq_nil
    intro m hm y hg
    rw [hB3] at hm
    rw [List.mem_flatten] at hm
    obtain ⟨L, hL, hmL⟩ := hm
    rw [List.mem_map] at hL
    obtain ⟨s', hs', rfl⟩ := hL
    rw [List.mem_map] at hmL
    obtain ⟨t, ht, rfl⟩ := hmL
    dsimp only at hg
    cases hl1 : dictLookup (srcIdMapFor R1 (B1 ++ (Bm ++ B3)))
        ((s'.external_id, s'.stakeholder_key) : String × String) with
    | none =>
      rw [hl1] at hg
      cases hl2 : dictLookup (tnIdMapFor store.thing_nodes (B1 ++ (Bm ++ B3)))
          ((t, s'.stakeholder_key) : String × String) with
      | none => rw [hl2] at hg; cases hg
      | some j => rw [hl2] at hg; cases hg
    | some i =>
      rw [hl1] at hg
      cases hl2 : dictLookup (tnIdMapFor store.thing_nodes (B1 ++ (Bm ++ B3)))
          ((t, s'.stakeholder_key) : String × String) with
      | none => rw [hl2] at hg; cases hg
      | some j =>
        rw [hl2] at hg
        cases hg
        apply decide_eq_false
        have hab : ¬ (s'.external_id = r.external_id ∧
            s'.stakeholder_key = r.stakeholder_key) := by
          intro hcontra
          have hks' : srcKey s' = srcKey src := by
            unfold srcKey
            rw [hcontra.1, hcontra.2, hrext, hrsk]
          exact hothers.2 s' hs' hks'
        exact srcIdMap_lookup_ne ids1 hr hab hl1

/-- A document sink with an empty reference list keeps its association
slice unchanged (the part of C3 that fails the claim's conclusion). -/
theorem upsert_sinks_untouched_aux
    (store : Store) (snks : List StructureServiceSink)
    (Hsi : (store.sinks.map (fun r => r.id)).Nodup)
    (Hdk : (snks.map snkKey).Nodup)
    (Hdi : (snks.map (fun s => s.id)).Nodup)
    (Hdf : ∀ s ∈ snks, s.id ∉ store.sinks.map (fun r => r.id))
    (src : StructureServiceSink) (hsrc : src ∈ snks)
    (hempty : src.thing_node_external_ids.isEmpty = true)
    (r : StructureServiceSink)
    (hr : r ∈ (upsert_sinks store snks).sinks)
    (hkey : snkKey r = snkKey src) :
    (upsert_sinks store snks).thingnode_sink_association.filter
        (fun p => decide (p.1 = r.id)) =
      store.thingnode_sink_association.filter
        (fun p => decide (p.1 = r.id)) := by
  by_cases hW : (snks.filter
      (fun s => !s.thing_node_external_ids.isEmpty)).isEmpty
  · rw [upsert_sinks_assoc_eq_of_empty store snks hW]
  · rw [upsert_sinks_assoc_eq_of_nonempty store snks hW]
    rw [upsert_sinks_sinks_eq store snks] at hr
    set R1 := snks.foldl upsertSinkRow store.sinks with hR1
    set M := sinkTnMappings (snks.filter
      (fun s => !s.thing_node_external_ids.isEmpty)) with hM
    have ids1 : (R1.map (fun r => r.id)).Nodup := by
      rw [hR1]
      exact sinkFold_ids_nodup Hsi Hdk Hdi Hdf
    have hnotin : r.id ∉ dictValues (snkIdMapFor R1 M) := by
      intro hmem
      rw [mem_dictValues] at hmem
      obtain ⟨k, hk⟩ := hmem
      have hkmem := dictLookup_mem hk
      unfold snkIdMapFor at hkmem
      rw [List.mem_map] at hkmem
      obtain ⟨r', hr', hpair⟩ := hkmem
      have hid : r'.id = r.id := congrArg Prod.snd hpair
      have hr'mem : r' ∈ R1 := (List.mem_filter.mp hr').1
      have hrr : r' = r := List.inj_on_of_nodup_map ids1 hr'mem hr hid
      have hpred := (List.mem_filter.mp hr').2
      rw [List.any_eq_true] at hpred
      obtain ⟨m, hmM, hm⟩ := hpred
      obtain ⟨s', hs'W, t, ht, rfl⟩ := mem_sinkTnMappings hmM
      simp only [decide_eq_true_eq] at hm
      have hs'snks : s' ∈ snks := List.mem_of_mem_filter hs'W
      have h1 : snkKey r' = snkKey s' := by
        unfold snkKey
        rw [hm.1, hm.2]
      rw [hrr] at h1
      have hkeq : snkKey s' = snkKey src := by
        rw [← h1, hkey]
      have hs'src : s' = src := List.inj_on_of_nodup_map Hdk hs'snks hsrc hkeq
      rw [hs'src] at hs'W
      have hne := (List.mem_filter.mp hs'W).2
      rw [hempty] at hne
      simp at hne
    apply reconcileAssocRows_filter_untouched hnotin
    intro p hp
    unfold assocInsertData at hp
    rw [List.mem_filterMap] at hp
    obtain ⟨m, hmM, hg⟩ := hp
    cases h1 : dictLookup (snkIdMapFor R1 M) (m.1, m.2.1) with
    | none =>
      rw [h1] at hg
      cases h2 : dictLookup (tnIdMapFor store.thing_nodes M)
          (m.2.2.1, m.2.2.2) with
      | none => rw [h2] at hg; cases hg
      | some j => rw [h2] at hg; cases hg
    | some i =>
      rw [h1] at hg
      cases h2 : dictLookup (tnIdMapFor store.thing_nodes M)
          (m.2.2.1, m.2.2.2) with
      | none => rw [h2] at hg; cases hg
      | some j =>
        rw [h2] at hg
        cases hg
        intro hpi
        apply hnotin
        rw [← hpi]
        exact mem_dictValues.mpr ⟨(m.1, m.2.1), h1⟩

/-- A document sink with a non-empty reference list gets its association
slice fully recomputed: old rows deleted, one row per declared reference
that resolves to a thing node, deduplicated. -/
theorem upsert_sinks_recomputed_aux
    (store : Store) (snks : List StructureServiceSink)
    (Hsk : (store.sinks.map snkKey).Nodup)
    (Hsi : (store.sinks.map (fun r => r.id)).Nodup)
    (Htk : (store.thing_nodes.map tnKey).Nodup)
    (Hdk : (snks.map snkKey).Nodup)
    (Hdi : (snks.map (fun s => s.id)).Nodup)
    (Hdf : ∀ s ∈ snks, s.id ∉ store.sinks.map (fun r => r.id))
    (src : StructureServiceSink) (hsrc : src ∈ snks)
    (hne : src.thing_node_external_ids.isEmpty = false)
    (r : StructureServiceSink)
    (hr : r ∈ (upsert_sinks store snks).sinks)
    (hkey : snkKey r = snkKey src) :
    (upsert_sinks store snks).thingnode_sink_association.filter
        (fun p => decide (p.1 = r.id)) =
      insertPairsDedupe []
        (src.thing_node_external_ids.filterMap (fun t =>
          (store.thing_nodes.find? (fun n =>
            decide (n.external_id = t ∧
              n.stakeholder_key = src.stakeholder_key))).map
            (fun n => (r.id, n.id)))) := by
  have hsrcW : src ∈ snks.filter (fun s => !s.thing_node_external_ids.isEmpty) :=
    List.mem_filter.mpr ⟨hsrc, by rw [hne]; rfl⟩
  have hW : ¬ (snks.filter
      (fun s => !s.thing_node_external_ids.isEmpty)).isEmpty = true := by
    intro h
    cases hfe : snks.filter (fun s => !s.thing_node_external_ids.isEmpty) with
    | nil => rw [hfe] at hsrcW; cases hsrcW
    | cons a l => rw [hfe] at h; cases h
  obtain ⟨W1, W2, hWsplit⟩ := List.append_of_mem hsrcW
  rw [upsert_sinks_assoc_eq_of_nonempty store snks hW]
  rw [upsert_sinks_sinks_eq store snks] at hr
  rw [hWsplit]
  unfold sinkTnMappings
  rw [List.map_append, List.flatten_append, List.map_cons, List.flatten_cons]
  set R1 := snks.foldl upsertSinkRow store.sinks with hR1
  set B1 := (W1.map (fun s => s.thing_node_external_ids.map
    (fun t => (s.external_id, s.stakeholder_key, t,
      s.stakeholder_key)))).flatten with hB1
  set Bm := src.thing_node_external_ids.map
    (fun t => (src.external_id, src.stakeholder_key, t,
      src.stakeholder_key)) with hBm
  set B3 := (W2.map (fun s => s.thing_node_external_ids.map
    (fun t => (s.external_id, s.stakeholder_key, t,
      s.stakeholder_key)))).flatten with hB3
  have keys1 : (R1.map snkKey).Nodup := by
    rw [hR1]
    exact sinkFold_keys_nodup Hsk Hdk
  have ids1 : (R1.map (fun r => r.id)).Nodup := by
    rw [hR1]
    exact sinkFold_ids_nodup Hsi Hdk Hdi Hdf
  have hrext : r.external_id = src.external_id := congrArg Prod.snd hkey
  have hrsk : r.stakeholder_key = src.stakeholder_key := congrArg Prod.fst hkey
  have hWk : ((W1 ++ src :: W2).map snkKey).Nodup := by
    rw [← hWsplit]
    exact List.Nodup.sublist
      (List.Sublist.map snkKey (List.filter_sublist snks)) Hdk
  have hothers := nodup_map_split hWk
  obtain ⟨t0, ht0⟩ : ∃ t, t ∈ src.thing_node_external_ids := by
    cases hL : src.thing_node_external_ids with
    | nil => rw [hL] at hne; simp at hne
    | cons a l => exact ⟨a, List.mem_cons_self a l⟩
  have hm0 : (src.external_id, src.stakeholder_key, t0, src.stakeholder_key)
      ∈ B1 ++ (Bm ++ B3) := by
    apply List.mem_append.mpr
    right
    apply List.mem_append.mpr
    left
    rw [hBm]
    exact List.mem_map_of_mem _ ht0
  have hfindr : R1.find? (fun q => decide (q.external_id = src.external_id ∧
      q.stakeholder_key = src.stakeholder_key)) = some r := by
    apply find?_eq_some_of_mem_unique hr (decide_eq_true ⟨hrext, hrsk⟩)
    intro b hb hpb
    simp only [decide_eq_true_eq] at hpb
    apply List.inj_on_of_nodup_map keys1 hb hr
    unfold snkKey
    rw [hpb.1, hpb.2, hrext, hrsk]
  have hq : ∀ q ∈ R1, q.external_id = src.external_id ∧
      q.stakeholder_key = src.stakeholder_key →
      (B1 ++ (Bm ++ B3)).any (fun m =>
        decide (q.external_id = m.1 ∧ q.stakeholder_key = m.2.1)) = true := by
    intro q _ hqk
    apply List.any_eq_true.mpr
    exact ⟨(src.external_id, src.stakeholder_key, t0, src.stakeholder_key),
      hm0, decide_eq_true ⟨hqk.1, hqk.2⟩⟩
  have hsid : dictLookup (snkIdMapFor R1 (B1 ++ (Bm ++ B3)))
      ((src.external_id, src.stakeholder_key) : String × String) =
        some r.id := by
    unfold snkIdMapFor
    rw [refMapLookup R1
      (fun q => (B1 ++ (Bm ++ B3)).any (fun m =>
        decide (q.external_id = m.1 ∧ q.stakeholder_key = m.2.1)))
      (fun q => q.external_id) (fun q => q.stakeholder_key) (fun q => q.id)
      (nodup_swap_pairs keys1) src.external_id src.stakeholder_key hq,
      hfindr]
    rfl
  have htid : ∀ t ∈ src.thing_node_external_ids,
      dictLookup (tnIdMapFor store.thing_nodes (B1 ++ (Bm ++ B3)))
        ((t, src.stakeholder_key) : String × String) =
      (store.thing_nodes.find? (fun n => decide (n.external_id = t ∧
        n.stakeholder_key = src.stakeholder_key))).map (fun n => n.id) := by
    intro t ht
    have hmt : (src.external_id, src.stakeholder_key, t, src.stakeholder_key)
        ∈ B1 ++ (Bm ++ B3) := by
      apply List.mem_append.mpr
      right
      apply List.mem_append.mpr
      left
      rw [hBm]
      exact List.mem_map_of_mem _ ht
    have hqT : ∀ n ∈ store.thing_nodes, n.external_id = t ∧
        n.stakeholder_key = src.stakeholder_key →
        (B1 ++ (Bm ++ B3)).any (fun m =>
          decide (n.external_id = m.2.2.1 ∧
            n.stakeholder_key = m.2.2.2)) = true := by
      intro n _ hnk
      apply List.any_eq_true.mpr
      exact ⟨_, hmt, decide_eq_true ⟨hnk.1, hnk.2⟩⟩
    unfold tnIdMapFor
    rw [refMapLookup store.thing_nodes
      (fun n => (B1 ++ (Bm ++ B3)).any (fun m =>
        decide (n.external_id = m.2.2.1 ∧ n.stakeholder_key = m.2.2.2)))
      (fun n => n.external_id) (fun n => n.stakeholder_key) (fun n => n.id)
      (nodup_swap_pairs Htk) t src.stakeholder_key hqT]
  have hdel : r.id ∈ dictValues (snkIdMapFor R1 (B1 ++ (Bm ++ B3))) :=
    mem_dictValues.mpr
      ⟨((src.external_id, src.stakeholder_key) : String × String), hsid⟩
  rw [reconcileAssocRows_filter_deleted hdel]
  congr 1
  unfold assocInsertData
  rw [List.filterMap_append, List.filterMap_append, List.filter_append,
    List.filter_append]
  refine append3_eq ?_ ?_ ?_
  · apply filter_filterMap_eq_nil
    intro m hm y hg
    rw [hB1] at hm
    rw [List.mem_flatten] at hm
    obtain ⟨L, hL, hmL⟩ := hm
    rw [List.mem_map] at hL
    obtain ⟨s', hs', rfl⟩ := hL
    rw [List.mem_map] at hmL
    obtain ⟨t, ht, rfl⟩ := hmL
    dsimp only at hg
    cases hl1 : dictLookup (snkIdMapFor R1 (B1 ++ (Bm ++ B3)))
        ((s'.external_id, s'.stakeholder_key) : String × String) with
    | none =>
      rw [hl1] at hg
      cases hl2 : dictLookup (tnIdMapFor store.thing_nodes (B1 ++ (Bm ++ B3)))
          ((t, s'.stakeholder_key) : String × String) with
      | none => rw [hl2] at hg; cases hg
      | some j => rw [hl2] at hg; cases hg
    | some i =>
      rw [hl1] at hg
      cases hl2 : dictLookup (tnIdMapFor store.thing_nodes (B1 ++ (Bm ++ B3)))
          ((t, s'.stakeholder_key) : String × String) with
      | none => rw [hl2] at hg; cases hg
      | some j =>
        rw [hl2] at hg
        cases hg
        apply decide_eq_false
        have hab : ¬ (s'.external_id = r.external_id ∧
            s'.stakeholder_key = r.stakeholder_key) := by
          intro hcontra
          have hks' : snkKey s' = snkKey src := by
            unfold snkKey
            rw [hcontra.1, hcontra.2, hrext, hrsk]
          exact hothers.1 s' hs' hks'
        exact snkIdMap_lookup_ne ids1 hr hab hl1
  · rw [hBm, List.filterMap_map]
    apply filter_filterMap_all
    · intro t ht
      dsimp only [Function.comp]
      rw [hsid, htid t ht]
      cases hfd : store.thing_nodes.find? (fun n =>
          decide (n.external_id = t ∧
            n.stakeholder_key = src.stakeholder_key)) with
      | none => rfl
      | some n => rfl
    · intro t ht y hy
      cases hfd : store.thing_nodes.find? (fun n =>
          decide (n.external_id = t ∧
            n.stakeholder_key = src.stakeholder_key)) with
      | none => rw [hfd] at hy; cases hy
      | some n =>
        rw [hfd] at hy
        cases hy
        exact decide_eq_true rfl
  · apply filter_filterMap_eq_nil
    intro m hm y hg
    rw [hB3] at hm
    rw [List.mem_flatten] at hm
    obtain ⟨L, hL, hmL⟩ := hm
    rw [List.mem_map] at hL
    obtain ⟨s', hs', rfl⟩ := hL
    rw [List.mem_map] at hmL
    obtain ⟨t, ht, rfl⟩ := hmL
    dsimp only at hg
    cases hl1 : dictLookup (snkIdMapFor R1 (B1 ++ (Bm ++ B3)))
        ((s'.external_id, s'.stakeholder_key) : String × String) with
    | none =>
      rw [hl1] at hg
      cases hl2 : dictLookup (tnIdMapFor store.thing_nodes (B1 ++ (Bm ++ B3)))
          ((t, s'.stakeholder_key) : String × String) with
      | none => rw [hl2] at hg; cases hg
      | some j => rw [hl2] at hg; cases hg
    | some i =>
      rw [hl1] at hg
      cases hl2 : dictLookup (tnIdMapFor store.thing_nodes (B1 ++ (Bm ++ B3)))
          ((t, s'.stakeholder_key) : String × String) with
      | none => rw [hl2] at hg; cases hg
      | some j =>
        rw [hl2] at hg
        cases hg
        apply decide_eq_false
        have hab : ¬ (s'.external_id = r.external_id ∧
            s'.stakeholder_key = r.stakeholder_key) := by
          intro hcontra
          have hks' : snkKey s' = snkKey src := by
            unfold snkKey
            rw [hcontra.1, hcontra.2, hrext, hrsk]
          exact hothers.2 s' hs' hks'
        exact snkIdMap_lookup_ne ids1 hr hab hl1

/-- C3 store: one source row (id 1), one sink row (id 2), one thing node
(id 3), and one association row in each association table. -/
def c3store : Store :=
  { element_types := [], thing_nodes := [mkTN 3 "n1" none],
    sources := [mkSource 1 "s1" []], sinks := [mkSink 2 "t1" []],
    thingnode_source_association := [(1, 3)],
    thingnode_sink_association := [(2, 3)] }

/-- C3 counterexample document: source `s1` appears with an empty
hierarchy-node reference list (and a fresh candidate id 4). -/
def c3doc : List StructureServiceSource := [mkSource 4 "s1" []]

/-- C3 counterexample: source `s1` appears in the document with an empty
reference list, so by the claim it should end up with zero association
rows; but `upsert_sources` returns before the association reconciliation
when no document source has a non-empty reference list, so the pre-existing
association row `(1, 3)` of the upserted row (id 1) survives. -/
theorem upsert_assoc_recompute_cex :
    (mkSource 4 "s1" []).thing_node_external_ids.isEmpty = true ∧
    (upsert_sources c3store c3doc).sources.find?
        (fun q => decide (srcKey q = srcKey (mkSource 4 "s1" []))) =
      some { mkSource 4 "s1" [] with id := 1 } ∧
    ¬ ((upsert_sources c3store c3doc).thingnode_source_association.filter
        (fun p => decide (p.1 = 1)) = []) := by
  refine ⟨rfl, by decide, by decide⟩

/-- **C3.** For every source and sink in the incoming document, the upsert
routine recomputes that entity's association set — with two amendments to
the claim.  Writing `r` for the table row carrying the entity's natural key
after the entity upsert: (i) if the entity declares a *non-empty*
`thing_node_external_ids` list, every existing association row of `r.id` is
deleted and exactly one row `(r.id, n.id)` is inserted per declared
reference that resolves to a thing node `n` (unresolvable references are
skipped with an error log, duplicates collapse); (ii) if the entity's
reference list is *empty*, its association rows are left unchanged — not
deleted as the claim's 'in particular' clause states.  Hypotheses: the
store tables have unique natural keys and unique surrogate ids, and the
document has unique natural keys and fresh, distinct candidate ids. -/
theorem upsert_assoc_recompute
    (store : Store)
    (srcs : List StructureServiceSource) (snks : List StructureServiceSink)
    (Hsk : (store.sources.map srcKey).Nodup)
    (Hsi : (store.sources.map (fun r => r.id)).Nodup)
    (Hkk : (store.sinks.map snkKey).Nodup)
    (Hki : (store.sinks.map (fun r => r.id)).Nodup)
    (Htk : (store.thing_nodes.map tnKey).Nodup)
    (Hdk : (srcs.map srcKey).Nodup)
    (Hdi : (srcs.map (fun s => s.id)).Nodup)
    (Hdf : ∀ s ∈ srcs, s.id ∉ store.sources.map (fun r => r.id))
    (Hek : (snks.map snkKey).Nodup)
    (Hei : (snks.map (fun s => s.id)).Nodup)
    (Hef : ∀ s ∈ snks, s.id ∉ store.sinks.map (fun r => r.id)) :
    (∀ src ∈ srcs, ∀ r ∈ (upsert_sources store srcs).sources,
      srcKey r = srcKey src →
      (src.thing_node_external_ids.isEmpty = false →
        (upsert_sources store srcs).thingnode_source_association.filter
            (fun p => decide (p.1 = r.id)) =
          insertPairsDedupe []
            (src.thing_node_external_ids.filterMap (fun t =>
              (store.thing_nodes.find? (fun n =>
                decide (n.external_id = t ∧
                  n.stakeholder_key = src.stakeholder_key))).map
                (fun n => (r.id, n.id))))) ∧
      (src.thing_node_external_ids.isEmpty = true →
        (upsert_sources store srcs).thingnode_source_association.filter
            (fun p => decide (p.1 = r.id)) =
          store.thingnode_source_association.filter
            (fun p => decide (p.1 = r.id)))) ∧
    (∀ snk ∈ snks, ∀ r ∈ (upsert_sinks store snks).sinks,
      snkKey r = snkKey snk →
      (snk.thing_node_external_ids.isEmpty = false →
        (upsert_sinks store snks).thingnode_sink_association.filter
            (fun p => decide (p.1 = r.id)) =
          insertPairsDedupe []
            (snk.thing_node_external_ids.filterMap (fun t =>
              (store.thing_nodes.find? (fun n =>
                decide (n.external_id = t ∧
                  n.stakeholder_key = snk.stakeholder_key))).map
                (fun n => (r.id, n.id))))) ∧
      (snk.thing_node_external_ids.isEmpty = true →
        (upsert_sinks store snks).thingnode_sink_association.filter
            (fun p => decide (p.1 = r.id)) =
          store.thingnode_sink_association.filter
            (fun p => decide (p.1 = r.id)))) := by
  constructor
  · intro src hsrc r hr hkey
    constructor
    · intro hne
      exact upsert_sources_recomputed_aux store srcs Hsk Hsi Htk Hdk Hdi Hdf
        src hsrc hne r hr hkey
    · intro hemp
      exact upsert_sources_untouched_aux store srcs Hsi Hdk Hdi Hdf
        src hsrc hemp r hr hkey
  · intro snk hsnk r hr hkey
    constructor
    · intro hne
      exact upsert_sinks_recomputed_aux store snks Hkk Hki Htk Hek Hei Hef
        snk hsnk hne r hr hkey
    · intro hemp
      exact upsert_sinks_untouched_aux store snks Hki Hek Hei Hef
        snk hsnk hemp r hr hkey

/-- C3 witness documents: source `s1` re-declared with one resolvable and
one unresolvable reference; sink `t1` re-declared with one resolvable
reference. -/
def c3wsrcs : List StructureServiceSource := [mkSource 4 "s1" ["n1", "zz"]]

def c3wsnks : List StructureServiceSink := [mkSink 5 "t1" ["n1"]]

/-- C3 witness: the amended theorem applied to the concrete store and
documents, with every hypothesis discharged by computation. -/
theorem upsert_assoc_recompute_witness :
    (∀ src ∈ c3wsrcs, ∀ r ∈ (upsert_sources c3store c3wsrcs).sources,
      srcKey r = srcKey src →
      (src.thing_node_external_ids.isEmpty = false →
        (upsert_sources c3store c3wsrcs).thingnode_source_association.filter
            (fun p => decide (p.1 = r.id)) =
          insertPairsDedupe []
            (src.thing_node_external_ids.filterMap (fun t =>
              (c3store.thing_nodes.find? (fun n =>
                decide (n.external_id = t ∧
                  n.stakeholder_key = src.stakeholder_key))).map
                (fun n => (r.id, n.id))))) ∧
      (src.thing_node_external_ids.isEmpty = true →
        (upsert_sources c3store c3wsrcs).thingnode_source_association.filter
            (fun p => decide (p.1 = r.id)) =
          c3store.thingnode_source_association.filter
            (fun p => decide (p.1 = r.id)))) ∧
    (∀ snk ∈ c3wsnks, ∀ r ∈ (upsert_sinks c3store c3wsnks).sinks,
      snkKey r = snkKey snk →
      (snk.thing_node_external_ids.isEmpty = false →
        (upsert_sinks c3store c3wsnks).thingnode_sink_association.filter
            (fun p => decide (p.1 = r.id)) =
          insertPairsDedupe []
            (snk.thing_node_external_ids.filterMap (fun t =>
              (c3store.thing_nodes.find? (fun n =>
                decide (n.external_id = t ∧
                  n.stakeholder_key = snk.stakeholder_key))).map
                (fun n => (r.id, n.id))))) ∧
      (snk.thing_node_external_ids.isEmpty = true →
        (upsert_sinks c3store c3wsnks).thingnode_sink_association.filter
            (fun p => decide (p.1 = r.id)) =
          c3store.thingnode_sink_association.filter
            (fun p => decide (p.1 = r.id)))) :=
  upsert_assoc_recompute c3store c3wsrcs c3wsnks
    (by decide) (by decide) (by decide) (by decide) (by decide) (by decide)
    (by decide) (by decide) (by decide) (by decide) (by decide)

/-! ## `update_structure` (structure_service.py lines 249-329) -/

/-- `update_structure`: one transaction that computes the document's key
sets, fetches the existing records, upserts element types, re-fetches them
(with the default batch size 500), sorts the document's thing nodes against
the pre-upsert thing-node fetch, populates their element-type ids, upserts
them, and finally upserts sources and sinks (which reconcile the
association tables).  The trailing re-fetches are reads and do not change
the store, so they are omitted; the initial source/sink fetches are passed
to upsert calls that do not use them. -/
def update_structure (store : Store) (cs : CompleteStructure)
    (batch_size : Nat) : Store :=
  let element_type_keys := (cs.element_types.map etKey).dedup
  let thing_node_keys := (cs.thing_nodes.map tnKey).dedup
  let existing_thing_nodes := fetch_thing_nodes store thing_node_keys batch_size
  let store1 := upsert_element_types store cs.element_types
  let existing_element_types := fetch_element_types store1 element_type_keys 500
  let sorted_thing_nodes := sort_thing_nodes cs.thing_nodes existing_thing_nodes
  let populated :=
    populate_element_type_ids sorted_thing_nodes existing_element_types
  let store2 := upsert_thing_nodes store1 populated existing_thing_nodes
  let store3 := upsert_sources store2 cs.sources
  upsert_sinks store3 cs.sinks

theorem upsert_element_types_thing_nodes_eq (store : Store)
    (e : List StructureServiceElementType) :
    (upsert_element_types store e).thing_nodes = store.thing_nodes := by
  unfold upsert_element_types
  by_cases h : e.isEmpty
  · rw [if_pos h]
  · rw [if_neg h]

theorem upsert_element_types_sources_eq (store : Store)
    (e : List StructureServiceElementType) :
    (upsert_element_types store e).sources = store.sources := by
  unfold upsert_element_types
  by_cases h : e.isEmpty
  · rw [if_pos h]
  · rw [if_neg h]

theorem upsert_element_types_sinks_eq (store : Store)
    (e : List StructureServiceElementType) :
    (upsert_element_types store e).sinks = store.sinks := by
  unfold upsert_element_types
  by_cases h : e.isEmpty
  · rw [if_pos h]
  · rw [if_neg h]

theorem upsert_element_types_src_assoc_eq (store : Store)
    (e : List StructureServiceElementType) :
    (upsert_element_types store e).thingnode_source_association =
      store.thingnode_source_association := by
  unfold upsert_element_types
  by_cases h : e.isEmpty
  · rw [if_pos h]
  · rw [if_neg h]

theorem upsert_element_types_snk_assoc_eq (store : Store)
    (e : List StructureServiceElementType) :
    (upsert_element_types store e).thingnode_sink_association =
      store.thingnode_sink_association := by
  unfold upsert_element_types
  by_cases h : e.isEmpty
  · rw [if_pos h]
  · rw [if_neg h]

theorem upsert_sources_et_eq (store : Store)
    (srcs : List StructureServiceSource) :
    (upsert_sources store srcs).element_types = store.element_types := by
  unfold upsert_sources
  dsimp only
  by_cases h : (srcs.filter
      (fun src => !src.thing_node_external_ids.isEmpty)).isEmpty
  · rw [if_pos h]
  · rw [if_neg h]

theorem upsert_sources_sinks_eq (store : Store)
    (srcs : List StructureServiceSource) :
    (upsert_sources store srcs).sinks = store.sinks := by
  unfold upsert_sources
  dsimp only
  by_cases h : (srcs.filter
      (fun src => !src.thing_node_external_ids.isEmpty)).isEmpty
  · rw [if_pos h]
  · rw [if_neg h]

theorem upsert_sources_snk_assoc_eq (store : Store)
    (srcs : List StructureServiceSource) :
    (upsert_sources store srcs).thingnode_sink_association =
      store.thingnode_sink_association := by
  unfold upsert_sources
  dsimp only
  by_cases h : (srcs.filter
      (fun src => !src.thing_node_external_ids.isEmpty)).isEmpty
  · rw [if_pos h]
  · rw [if_neg h]

theorem upsert_sinks_et_eq (store : Store)
    (snks : List StructureServiceSink) :
    (upsert_sinks store snks).element_types = store.element_types := by
  unfold upsert_sinks
  dsimp only
  by_cases h : (snks.filter
      (fun snk => !snk.thing_node_external_ids.isEmpty)).isEmpty
  · rw [if_pos h]
  · rw [if_neg h]

theorem upsert_sinks_sources_eq (store : Store)
    (snks : List StructureServiceSink) :
    (upsert_sinks store snks).sources = store.sources := by
  unfold upsert_sinks
  dsimp only
  by_cases h : (snks.filter
      (fun snk => !snk.thing_node_external_ids.isEmpty)).isEmpty
  · rw [if_pos h]
  · rw [if_neg h]

theorem upsert_sinks_src_assoc_eq (store : Store)
    (snks : List StructureServiceSink) :
    (upsert_sinks store snks).thingnode_source_association =
      store.thingnode_source_association := by
  unfold upsert_sinks
  dsimp only
  by_cases h : (snks.filter
      (fun snk => !snk.thing_node_external_ids.isEmpty)).isEmpty
  · rw [if_pos h]
  · rw [if_neg h]

/-- The thing-node table of the synchronized store is the one produced by
the thing-node upsert (the later source/sink upserts never touch it). -/
theorem update_structure_thing_nodes_eq (store : Store)
    (cs : CompleteStructure) (bs : Nat) :
    (update_structure store cs bs).thing_nodes =
      (upsert_thing_nodes (upsert_element_types store cs.element_types)
        (populate_element_type_ids
          (sort_thing_nodes cs.thing_nodes
            (fetch_thing_nodes store ((cs.thing_nodes.map tnKey).dedup) bs))
          (fetch_element_types (upsert_element_types store cs.element_types)
            ((cs.element_types.map etKey).dedup) 500))
        (fetch_thing_nodes store
          ((cs.thing_nodes.map tnKey).dedup) bs)).thing_nodes := by
  unfold update_structure
  dsimp only
  rw [upsert_sinks_thing_nodes_eq, upsert_sources_thing_nodes_eq]

/-- Populating element-type ids changes no natural key. -/
theorem populate_map_tnKey (tns : List StructureServiceThingNode)
    (m : List (NatKey × StructureServiceElementType)) :
    (populate_element_type_ids tns m).map tnKey = tns.map tnKey := by
  unfold populate_element_type_ids
  rw [List.map_map]
  apply List.map_congr_left
  intro tn _
  dsimp only [Function.comp]
  by_cases h : tn.element_type_external_id = ""
  · rw [if_pos h]
  · rw [if_neg h]
    cases dictLookup m (tn.stakeholder_key, tn.element_type_external_id) with
    | none => rfl
    | some et => rfl

/-- Every node in the sorted output carries the external id, stakeholder
key and parent reference of some input document node. -/
theorem sort_output_fields {tns : List StructureServiceThingNode}
    {ex : List (NatKey × StructureServiceThingNode)}
    {X : StructureServiceThingNode} (hX : X ∈ sort_thing_nodes tns ex) :
    ∃ u ∈ tns, X.external_id = u.external_id ∧
      X.stakeholder_key = u.stakeholder_key ∧
      X.parent_external_node_id = u.parent_external_node_id := by
  unfold sort_thing_nodes at hX
  have hlinked : X ∈ setParentIds (thingNodeMap (assignIds tns ex))
      (assignIds tns ex) := by
    rcases mem_bfsLevels hX with h | ⟨pid, h⟩
    · exact (mem_rootNodes.mp h).1
    · exact (mem_childrenOf.mp h).1
  rw [setParentIds_eq_map, List.mem_map] at hlinked
  obtain ⟨a, ha, rfl⟩ := hlinked
  obtain ⟨u, hu, h1, h2, h3⟩ := assignIds_fields ha
  obtain ⟨-, he, hs, hp⟩ :=
    linkFun_preserves (thingNodeMap (assignIds tns ex)) a
  exact ⟨u, hu, by rw [he, h1], by rw [hs, h2], by rw [hp, h3]⟩

/-- If no batch node carries the key `k`, the thing-node upsert leaves the
table's `k`-rows untouched (given id uniqueness and an `existing` map whose
entries are consistent rows of the table). -/
theorem upsert_thing_nodes_untouched_key
    (store : Store) (L : List StructureServiceThingNode)
    (existing : List (NatKey × StructureServiceThingNode))
    (hids : (store.thing_nodes.map (fun r => r.id)).Nodup)
    (hexk : ∀ n ∈ L, ∀ v, dictLookup existing (tnKey n) = some v →
      tnKey v = tnKey n ∧ v ∈ store.thing_nodes)
    (k : NatKey) (hnok : ∀ n ∈ L, tnKey n ≠ k) :
    (upsert_thing_nodes store L existing).thing_nodes.filter
        (fun r => decide (tnKey r = k)) =
      store.thing_nodes.filter (fun r => decide (tnKey r = k)) := by
  unfold upsert_thing_nodes
  refine @upsertTN_fold_filter_ne store.element_types existing k
    ((store.thing_nodes.filter (fun r => decide (tnKey r = k))).map
      (fun r => r.id)) L store.thing_nodes hnok ?_ ?_ ?_
  · intro n hn v hv
    exact (hexk n hn v hv).1
  · intro r hr hrk
    exact List.mem_map_of_mem _ (List.mem_filter.mpr ⟨hr, decide_eq_true hrk⟩)
  · intro n hn v hv hvS
    rw [List.mem_map] at hvS
    obtain ⟨r, hrf, hrid⟩ := hvS
    have hrmem : r ∈ store.thing_nodes := (List.mem_filter.mp hrf).1
    have hrk : tnKey r = k := of_decide_eq_true (List.mem_filter.mp hrf).2
    obtain ⟨hvk, hvmem⟩ := hexk n hn v hv
    have hrv : r = v := List.inj_on_of_nodup_map hids hrmem hvmem hrid
    rw [hrv, hvk] at hrk
    exact hnok n hn hrk

/-- **C5** (amended): for every thing node N of the document whose
`parent_external_node_id` is *truthy* (non-null AND non-empty — the code
tests Python truthiness, so the claim's 'non-null' is too weak: a node whose
parent reference is the empty string is treated as a root, kept in the
output and written) and resolves to no document node, N is absent from the
flattened output of `sort_thing_nodes` (no output node carries N's natural
key) and the synchronization leaves the thing-node table's rows at N's key
unchanged.  The 'does not resolve in the store' hypothesis is kept from the
claim but is not even needed: parent resolution only consults the document
(C10). -/
theorem unresolved_parent_excluded
    (store : Store) (cs : CompleteStructure) (bs : Nat) (hbs : 0 < bs)
    (Hti : (store.thing_nodes.map (fun r => r.id)).Nodup)
    (Hdk : (cs.thing_nodes.map tnKey).Nodup)
    (N : StructureServiceThingNode) (hN : N ∈ cs.thing_nodes)
    (ht : truthyStr N.parent_external_node_id = true)
    (hnodoc : ∀ u ∈ cs.thing_nodes, ¬(u.stakeholder_key = N.stakeholder_key ∧
      some u.external_id = N.parent_external_node_id))
    (_hnostore : ∀ u ∈ store.thing_nodes,
      ¬(u.stakeholder_key = N.stakeholder_key ∧
        some u.external_id = N.parent_external_node_id)) :
    (∀ X ∈ sort_thing_nodes cs.thing_nodes
        (fetch_thing_nodes store ((cs.thing_nodes.map tnKey).dedup) bs),
      ¬ tnKey X = tnKey N) ∧
    (update_structure store cs bs).thing_nodes.filter
        (fun r => decide (tnKey r = tnKey N)) =
      store.thing_nodes.filter (fun r => decide (tnKey r = tnKey N)) := by
  have hpartA : ∀ X ∈ sort_thing_nodes cs.thing_nodes
      (fetch_thing_nodes store ((cs.thing_nodes.map tnKey).dedup) bs),
      ¬ tnKey X = tnKey N := by
    intro X hX hk
    obtain ⟨u, hu, h1, h2, h3⟩ := sort_output_fields hX
    have hXu : tnKey X = tnKey u := by
      unfold tnKey
      rw [h1, h2]
    have hku : tnKey u = tnKey N := by
      rw [← hXu]
      exact hk
    have huN : u = N := List.inj_on_of_nodup_map Hdk hu hN hku
    refine sort_excludes_doc_unresolved ht hnodoc X hX ⟨?_, ?_⟩
    · rw [h2, huN]
    · rw [h3, huN]
  refine ⟨hpartA, ?_⟩
  rw [update_structure_thing_nodes_eq]
  have hbase := upsert_element_types_thing_nodes_eq store cs.element_types
  rw [← hbase]
  apply upsert_thing_nodes_untouched_key
  · rw [hbase]
    exact Hti
  · intro n hn v hv
    rw [show fetch_thing_nodes store ((cs.thing_nodes.map tnKey).dedup) bs =
      fetchByKeysBatched store.thing_nodes tnKey
        ((cs.thing_nodes.map tnKey).dedup) bs from rfl] at hv
    have hmem := dictLookup_mem hv
    rw [mem_fetchByKeysBatched hbs] at hmem
    obtain ⟨r, hr, hkr, heq⟩ := hmem
    have hveq : v = r := congrArg Prod.snd heq
    have hkeq : tnKey n = tnKey r := congrArg Prod.fst heq
    constructor
    · rw [hveq, ← hkeq]
    · rw [hveq, hbase]
      exact hr
  · intro n hn hk
    have hmap : tnKey n ∈ (populate_element_type_ids
        (sort_thing_nodes cs.thing_nodes
          (fetch_thing_nodes store ((cs.thing_nodes.map tnKey).dedup) bs))
        (fetch_element_types (upsert_element_types store cs.element_types)
          ((cs.element_types.map etKey).dedup) 500)).map tnKey :=
      List.mem_map_of_mem tnKey hn
    rw [populate_map_tnKey, List.mem_map] at hmap
    obtain ⟨X, hX, hXk⟩ := hmap
    exact hpartA X hX (by rw [hXk, hk])

/-- C5 counterexample document: one node `A` whose parent reference is the
empty string (non-null!), plus the element type it references. -/
def c5cs : CompleteStructure :=
  { element_types := [mkET 10 "et1"],
    thing_nodes := [mkTN 1 "A" (some "")], sources := [], sinks := [] }

/-- C5 counterexample store: empty. -/
def c5store : Store :=
  { element_types := [], thing_nodes := [], sources := [], sinks := [],
    thingnode_source_association := [], thingnode_sink_association := [] }

/-- The C5 counterexample node. -/
def c5tn : StructureServiceThingNode := mkTN 1 "A" (some "")

/-- C5 counterexample: node `A` has a NON-NULL parent reference (the empty
string) that resolves to no node of the document or the store, yet it is
present in the sorted output and a row for it is written: Python truthiness
treats the empty-string reference like `null`, so the node is handled as a
root.  This refutes the claim's 'non-null' hypothesis being sufficient. -/
theorem unresolved_parent_excluded_cex :
    c5tn ∈ c5cs.thing_nodes ∧
    ¬ c5tn.parent_external_node_id = none ∧
    (∀ u ∈ c5cs.thing_nodes, ¬(u.stakeholder_key = c5tn.stakeholder_key ∧
      some u.external_id = c5tn.parent_external_node_id)) ∧
    (∀ u ∈ c5store.thing_nodes, ¬(u.stakeholder_key = c5tn.stakeholder_key ∧
      some u.external_id = c5tn.parent_external_node_id)) ∧
    (∃ X ∈ sort_thing_nodes c5cs.thing_nodes
        (fetch_thing_nodes c5store ((c5cs.thing_nodes.map tnKey).dedup) 500),
      tnKey X = tnKey c5tn) ∧
    ¬ ((update_structure c5store c5cs 500).thing_nodes.filter
        (fun r => decide (tnKey r = tnKey c5tn)) = []) := by
  refine ⟨by decide, by decide, by decide, by decide, by decide, by decide⟩

/-- C5 witness store: one unrelated node `Z` and the element type. -/
def w5store : Store :=
  { element_types := [mkET 10 "et1"], thing_nodes := [mkTN 3 "Z" none],
    sources := [], sinks := [], thingnode_source_association := [],
    thingnode_sink_association := [] }

/-- C5 witness document: node `A` references the nonexistent parent `Q`,
node `B` is a proper root. -/
def w5cs : CompleteStructure :=
  { element_types := [mkET 10 "et1"],
    thing_nodes := [mkTN 1 "A" (some "Q"), mkTN 2 "B" none],
    sources := [], sinks := [] }

/-- The C5 witness node. -/
def w5N : StructureServiceThingNode := mkTN 1 "A" (some "Q")

/-- C5 witness: the amended theorem applied at a concrete store and
document, every hypothesis discharged by computation. -/
theorem unresolved_parent_excluded_witness :
    (∀ X ∈ sort_thing_nodes w5cs.thing_nodes
        (fetch_thing_nodes w5store ((w5cs.thing_nodes.map tnKey).dedup) 500),
      ¬ tnKey X = tnKey w5N) ∧
    (update_structure w5store w5cs 500).thing_nodes.filter
        (fun r => decide (tnKey r = tnKey w5N)) =
      w5store.thing_nodes.filter (fun r => decide (tnKey r = tnKey w5N)) :=
  unresolved_parent_excluded w5store w5cs 500 (by decide) (by decide)
    (by decide) w5N (by decide) (by decide) (by decide) (by decide)

/-! ## Idempotence machinery (C1) -/

theorem eq_singleton_of_mem_nodup {α : Type} {l : List α} {v : α}
    (hnodup : l.Nodup) (hv : v ∈ l) (hall : ∀ x ∈ l, x = v) : l = [v] := by
  cases l with
  | nil => cases hv
  | cons a t =>
    have ha : a = v := hall a (List.mem_cons_self a t)
    subst ha
    cases t with
    | nil => rfl
    | cons b t' =>
      have hb : b = a := hall b (List.mem_cons_of_mem a (List.mem_cons_self b t'))
      rw [List.nodup_cons] at hnodup
      exact absurd (hb ▸ List.mem_cons_self b t') hnodup.1

theorem find?_eq_of_filter_singleton {α : Type} {p : α → Bool} {l : List α}
    {w : α} (h : l.filter p = [w]) : l.find? p = some w := by
  induction l with
  | nil => cases h
  | cons a t ih =>
    rw [List.find?_cons]
    cases hpa : p a with
    | true =>
      rw [List.filter_cons_of_pos hpa, List.cons.injEq] at h
      rw [h.1]
    | false =>
      rw [List.filter_cons_of_neg (by simp [hpa])] at h
      exact ih h

section KeyUpsertIdem

variable {κ ρ σ : Type} [DecidableEq κ]
variable {key : ρ → κ} {skey : σ → κ} {upd : ρ → σ → ρ} {ins : σ → ρ}

/-- Rows of a given key in a key-unique table form at most a singleton. -/
theorem filter_key_singleton {l : List ρ} (hnodup : (l.map key).Nodup)
    {k : κ} {v : ρ} (hv : l.find? (fun r => decide (key r = k)) = some v) :
    l.filter (fun r => decide (key r = k)) = [v] := by
  apply eq_singleton_of_mem_nodup
    (List.Nodup.filter _ (List.Nodup.of_map key hnodup))
  · exact List.mem_filter.mpr ⟨List.mem_of_find?_eq_some hv,
      decide_eq_true (by simpa using List.find?_some hv)⟩
  · intro x hx
    rw [List.mem_filter] at hx
    apply List.inj_on_of_nodup_map hnodup hx.1 (List.mem_of_find?_eq_some hv)
    have h1 : key x = k := of_decide_eq_true hx.2
    have h2 : key v = k := by simpa using List.find?_some hv
    rw [h1, h2]

/-- Running the batch upsert a second time on its own output is a no-op:
each document entity finds the row it wrote, and updating it again changes
nothing. -/
theorem upsertRowByKey_fold_idem
    (hupd : ∀ r e, key (upd r e) = key r)
    (hins : ∀ e, key (ins e) = skey e)
    (hupd2 : ∀ r e, upd (upd r e) e = upd r e)
    (hinsfix : ∀ e, upd (ins e) e = ins e)
    {rows : List ρ} (hrows : (rows.map key).Nodup)
    {E : List σ} (hE : (E.map skey).Nodup) :
    E.foldl (upsertRowByKey key skey upd ins)
        (E.foldl (upsertRowByKey key skey upd ins) rows) =
      E.foldl (upsertRowByKey key skey upd ins) rows := by
  apply upsertRowByKey_fold_noop
    (upsertRowByKey_fold_keys_nodup hupd hins hrows hE)
  intro e he
  have hw := upsertRowByKey_fold_writes hupd hins hrows hE he
  cases hf : rows.find? (fun r => decide (key r = skey e)) with
  | some orig =>
    rw [hf] at hw
    exact ⟨upd orig e, find?_eq_of_filter_singleton hw, hupd2 orig e⟩
  | none =>
    rw [hf] at hw
    exact ⟨ins e, find?_eq_of_filter_singleton hw, hinsfix e⟩

end KeyUpsertIdem

theorem etFold_idem {rows E : List StructureServiceElementType}
    (h1 : (rows.map etKey).Nodup) (h2 : (E.map etKey).Nodup) :
    E.foldl upsertElementTypeRow (E.foldl upsertElementTypeRow rows) =
      E.foldl upsertElementTypeRow rows :=
  @upsertRowByKey_fold_idem NatKey _ _ _ etKey etKey
    updatedElementTypeRow id (fun _ _ => rfl) (fun _ => rfl)
    (fun _ _ => rfl) (fun _ => rfl) rows h1 E h2

theorem srcFold_idem {rows E : List StructureServiceSource}
    (h1 : (rows.map srcKey).Nodup) (h2 : (E.map srcKey).Nodup) :
    E.foldl upsertSourceRow (E.foldl upsertSourceRow rows) =
      E.foldl upsertSourceRow rows :=
  @upsertRowByKey_fold_idem NatKey _ _ _ srcKey srcKey
    updatedSourceRow id (fun _ _ => rfl) (fun _ => rfl)
    (fun _ _ => rfl) (fun _ => rfl) rows h1 E h2

theorem snkFold_idem {rows E : List StructureServiceSink}
    (h1 : (rows.map snkKey).Nodup) (h2 : (E.map snkKey).Nodup) :
    E.foldl upsertSinkRow (E.foldl upsertSinkRow rows) =
      E.foldl upsertSinkRow rows :=
  @upsertRowByKey_fold_idem NatKey _ _ _ snkKey snkKey
    updatedSinkRow id (fun _ _ => rfl) (fun _ => rfl)
    (fun _ _ => rfl) (fun _ => rfl) rows h1 E h2

/-- When the table holds exactly one row of key `k`, the multi-key fetch
dictionary binds `k` to that row. -/
theorem fetch_lookup_of_slice_singleton {κ ρ : Type} [DecidableEq κ]
    {rows : List ρ} {key : ρ → κ} {keys : List κ} {bs : Nat} (hbs : 0 < bs)
    {k : κ} (hk : k ∈ keys) {w : ρ}
    (hslice : rows.filter (fun r => decide (key r = k)) = [w]) :
    dictLookup (fetchByKeysBatched rows key keys bs) k = some w := by
  have hwmem : w ∈ rows.filter (fun r => decide (key r = k)) := by
    rw [hslice]
    exact List.mem_cons_self w []
  rw [List.mem_filter] at hwmem
  have hwk : key w = k := of_decide_eq_true hwmem.2
  apply dictLookup_eq_some_of_mem_unique
  · rw [mem_fetchByKeysBatched hbs]
    exact ⟨w, hwmem.1, by rw [hwk]; exact hk, by rw [hwk]⟩
  · intro p hp hpk
    rw [mem_fetchByKeysBatched hbs] at hp
    obtain ⟨r, hr, -, rfl⟩ := hp
    have hrk : key r = k := hpk
    have : r ∈ rows.filter (fun r => decide (key r = k)) :=
      List.mem_filter.mpr ⟨hr, decide_eq_true hrk⟩
    rw [hslice, List.mem_singleton] at this
    exact this

/-- When the table holds no row of key `k`, the fetch dictionary has no
binding for `k`. -/
theorem fetch_lookup_of_slice_nil {κ ρ : Type} [DecidableEq κ]
    {rows : List ρ} {key : ρ → κ} {keys : List κ} {bs : Nat} (hbs : 0 < bs)
    {k : κ} (hslice : rows.filter (fun r => decide (key r = k)) = []) :
    dictLookup (fetchByKeysBatched rows key keys bs) k = none := by
  rw [dictLookup_eq_none_iff]
  intro p hp
  rw [mem_fetchByKeysBatched hbs] at hp
  obtain ⟨r, hr, -, rfl⟩ := hp
  intro hrk
  have : r ∈ rows.filter (fun r => decide (key r = k)) :=
    List.mem_filter.mpr ⟨hr, decide_eq_true hrk⟩
  rw [hslice] at this
  cases this

/-- The thing-node upsert writes exactly one row at a written node's key:
the merged update of the unique pre-existing row, or the freshly added row.
-/
theorem upsert_thing_nodes_slice
    (store : Store) (L : List StructureServiceThingNode)
    (existing : List (NatKey × StructureServiceThingNode))
    (hids : (store.thing_nodes.map (fun r => r.id)).Nodup)
    (hkeys0 : (store.thing_nodes.map tnKey).Nodup)
    (hex : ∀ n ∈ L, dictLookup existing (tnKey n) =
      store.thing_nodes.find? (fun r => decide (tnKey r = tnKey n)))
    (hkeys : (L.map tnKey).Nodup)
    (hfresh : ∀ n ∈ L,
      store.thing_nodes.find? (fun r => decide (tnKey r = tnKey n)) = none →
      n.id ∉ store.thing_nodes.map (fun r => r.id))
    (n : StructureServiceThingNode) (hn : n ∈ L)
    (et : StructureServiceElementType)
    (hET : findElementType store.element_types n = some et) :
    (upsert_thing_nodes store L existing).thing_nodes.filter
        (fun r => decide (tnKey r = tnKey n)) =
      [(match store.thing_nodes.find?
          (fun r => decide (tnKey r = tnKey n)) with
        | some orig => updatedThingNodeRow orig n et
        | none => newThingNodeRow n et)] := by
  obtain ⟨L1, L2, rfl⟩ := List.append_of_mem hn
  obtain ⟨d1, d2⟩ := nodup_keys_split hkeys
  unfold upsert_thing_nodes
  dsimp only
  set f := upsertThingNodeStep store.element_types existing with hf
  set rows0 := store.thing_nodes with hrows0
  set S := (rows0.filter (fun r => decide (tnKey r = tnKey n))).map
    (fun r => r.id) with hS
  have hSmem : ∀ r ∈ rows0, tnKey r = tnKey n → r.id ∈ S := by
    intro r hr hrk
    rw [hS]
    exact List.mem_map_of_mem _ (List.mem_filter.mpr ⟨hr, decide_eq_true hrk⟩)
  have hSno : ∀ v ∈ rows0, tnKey v ≠ tnKey n → v.id ∉ S := by
    intro v hv hvk hvS
    rw [hS, List.mem_map] at hvS
    obtain ⟨r, hrfil, hrid⟩ := hvS
    rw [List.mem_filter] at hrfil
    exact hvk (List.inj_on_of_nodup_map hids hv hrfil.1 hrid.symm ▸
      of_decide_eq_true hrfil.2)
  have hexkey : ∀ m, m ∈ L1 ++ n :: L2 → ∀ v,
      dictLookup existing (tnKey m) = some v → tnKey v = tnKey m := by
    intro m hm v hv
    rw [hex m hm] at hv
    simpa using List.find?_some hv
  have hexmem : ∀ m, m ∈ L1 ++ n :: L2 → ∀ v,
      dictLookup existing (tnKey m) = some v → v ∈ rows0 := by
    intro m hm v hv
    rw [hex m hm] at hv
    exact List.mem_of_find?_eq_some hv
  have hmemL1 : ∀ m ∈ L1, m ∈ L1 ++ n :: L2 := by
    intro m hm; exact List.mem_append_left _ hm
  have hmemL2 : ∀ m ∈ L2, m ∈ L1 ++ n :: L2 := by
    intro m hm
    exact List.mem_append_right _ (List.mem_cons_of_mem _ hm)
  have hSidL : ∀ m, m ∈ L1 ++ n :: L2 → tnKey m ≠ tnKey n → ∀ v,
      dictLookup existing (tnKey m) = some v → v.id ∉ S := by
    intro m hm hmk v hv
    exact hSno v (hexmem m hm v hv) (by rw [hexkey m hm v hv]; exact hmk)
  have hfil1 : (L1.foldl f rows0).filter (fun r => decide (tnKey r = tnKey n))
      = rows0.filter (fun r => decide (tnKey r = tnKey n)) := by
    apply upsertTN_fold_filter_ne L1 rows0 d1
      (fun m hm => hexkey m (hmemL1 m hm)) hSmem
      (fun m hm => hSidL m (hmemL1 m hm) (d1 m hm))
  set rows1 := L1.foldl f rows0 with hrows1
  have hmemfil1 : ∀ r ∈ rows1, tnKey r = tnKey n → r.id ∈ S := by
    intro r hr hrk
    have : r ∈ rows1.filter (fun r => decide (tnKey r = tnKey n)) :=
      List.mem_filter.mpr ⟨hr, decide_eq_true hrk⟩
    rw [hfil1, List.mem_filter] at this
    exact hSmem r this.1 hrk
  rw [List.foldl_append, List.foldl_cons]
  cases hfind : rows0.find? (fun r => decide (tnKey r = tnKey n)) with
  | some v =>
    have hdb : dictLookup existing (tnKey n) = some v := by
      rw [hex n hn]; exact hfind
    have hvkey : tnKey v = tnKey n := by simpa using List.find?_some hfind
    have hvrows1 : v ∈ rows1 := by
      have : v ∈ rows0.filter (fun r => decide (tnKey r = tnKey n)) :=
        List.mem_filter.mpr ⟨List.mem_of_find?_eq_some hfind,
          decide_eq_true hvkey⟩
      rw [← hfil1, List.mem_filter] at this
      exact this.1
    have hany : rows1.any (fun r => decide (r.id = v.id)) = true :=
      List.any_eq_true.mpr ⟨v, hvrows1, by simp⟩
    have hstep : f rows1 n = rows1.map
        (fun r => if r.id = v.id then updatedThingNodeRow r n et else r) :=
      upsertTN_step_eq_update hET hdb hany
    have hS2 : ∀ r ∈ f rows1 n, tnKey r = tnKey n → r.id ∈ S := by
      rw [hstep]
      intro r hr hrk
      rw [List.mem_map] at hr
      obtain ⟨x, hx, rfl⟩ := hr
      by_cases h : x.id = v.id
      · rw [if_pos h] at hrk ⊢
        rw [id_updatedThingNodeRow]
        apply hmemfil1 x hx
        rw [← tnKey_updatedThingNodeRow x n et]
        exact hrk
      · rw [if_neg h] at hrk ⊢
        exact hmemfil1 x hx hrk
    have hfil2 : (L2.foldl f (f rows1 n)).filter
        (fun r => decide (tnKey r = tnKey n)) =
        (f rows1 n).filter (fun r => decide (tnKey r = tnKey n)) := by
      apply upsertTN_fold_filter_ne L2 _ d2
        (fun m hm => hexkey m (hmemL2 m hm)) hS2
        (fun m hm => hSidL m (hmemL2 m hm) (d2 m hm))
    rw [hfil2, hstep]
    have hgkey : ∀ r : StructureServiceThingNode,
        tnKey (if r.id = v.id then updatedThingNodeRow r n et else r)
          = tnKey r := by
      intro r
      by_cases h : r.id = v.id
      · rw [if_pos h, tnKey_updatedThingNodeRow]
      · rw [if_neg h]
    rw [filter_key_map hgkey rows1 (tnKey n)]
    have hsing : rows1.filter (fun r => decide (tnKey r = tnKey n)) = [v] := by
      rw [hfil1]
      exact filter_key_singleton hkeys0 hfind
    rw [hsing, List.map_cons, List.map_nil, if_pos rfl]
  | none =>
    have hdb : dictLookup existing (tnKey n) = none := by
      rw [hex n hn]; exact hfind
    have hstep : f rows1 n = rows1 ++ [newThingNodeRow n et] :=
      upsertTN_step_eq_insert hET hdb
    have hwkey : tnKey (newThingNodeRow n et) = tnKey n :=
      tnKey_newThingNodeRow n et
    have hfreshn : n.id ∉ rows0.map (fun r => r.id) := hfresh n hn hfind
    have hS2 : ∀ r ∈ f rows1 n, tnKey r = tnKey n → r.id ∈ S ++ [n.id] := by
      rw [hstep]
      intro r hr hrk
      rw [List.mem_append] at hr
      rcases hr with hr | hr
      · exact List.mem_append_left _ (hmemfil1 r hr hrk)
      · rw [List.mem_singleton] at hr
        subst hr
        exact List.mem_append_right _ (List.mem_singleton.mpr rfl)
    have hfil2 : (L2.foldl f (f rows1 n)).filter
        (fun r => decide (tnKey r = tnKey n)) =
        (f rows1 n).filter (fun r => decide (tnKey r = tnKey n)) := by
      apply upsertTN_fold_filter_ne L2 _ d2
        (fun m hm => hexkey m (hmemL2 m hm)) hS2
      intro m hm v hv
      rw [List.mem_append, List.mem_singleton]
      push_neg
      refine ⟨hSidL m (hmemL2 m hm) (d2 m hm) v hv, ?_⟩
      intro hvid
      apply hfreshn
      rw [← hvid]
      exact List.mem_map_of_mem _ (hexmem m (hmemL2 m hm) v hv)
    rw [hfil2, hstep, List.filter_append]
    have hnil : rows1.filter (fun r => decide (tnKey r = tnKey n)) = [] := by
      rw [hfil1, List.filter_eq_nil_iff]
      intro r hr
      have := List.find?_eq_none.mp hfind r hr
      simpa using this
    rw [hnil, List.nil_append,
      List.filter_cons_of_pos (by exact decide_eq_true hwkey),
      List.filter_nil]

/-- The id column of the thing-node upsert fold: skips and updates keep the
id list, and each inserted node appends its own id. -/
theorem upsertTN_fold_map_id
    {ets : List StructureServiceElementType}
    {existing : List (NatKey × StructureServiceThingNode)}
    {rows0 : List StructureServiceThingNode} :
    ∀ (L : List StructureServiceThingNode)
      (rows : List StructureServiceThingNode),
      (∀ i ∈ rows0.map (fun r => r.id), i ∈ rows.map (fun r => r.id)) →
      (∀ n ∈ L, ∀ db, dictLookup existing (tnKey n) = some db →
        db.id ∈ rows0.map (fun r => r.id)) →
      (L.foldl (upsertThingNodeStep ets existing) rows).map (fun r => r.id) =
        rows.map (fun r => r.id) ++
          (L.filter (fun n => (findElementType ets n).isSome &&
            (dictLookup existing (tnKey n)).isNone)).map (fun n => n.id) := by
  intro L
  induction L with
  | nil => intro rows _ _; simp
  | cons n L ih =>
    intro rows hsub hdb
    rw [List.foldl_cons]
    cases hET : findElementType ets n with
    | none =>
      have hstep : upsertThingNodeStep ets existing rows n = rows :=
        upsertTN_step_eq_skip hET
      rw [hstep]
      rw [List.filter_cons_of_neg (by simp [hET])]
      exact ih rows hsub (fun m hm => hdb m (List.mem_cons_of_mem n hm))
    | some et =>
      cases hdbn : dictLookup existing (tnKey n) with
      | some db =>
        have hdbid : db.id ∈ rows.map (fun r => r.id) :=
          hsub _ (hdb n (List.mem_cons_self n L) db hdbn)
        have hany : rows.any (fun r => decide (r.id = db.id)) = true := by
          rw [List.mem_map] at hdbid
          obtain ⟨r, hr, hrid⟩ := hdbid
          exact List.any_eq_true.mpr ⟨r, hr, decide_eq_true hrid⟩
        have hstep := upsertTN_step_eq_update hET hdbn hany
        rw [hstep]
        have hidseq : (rows.map (fun r => if r.id = db.id then
            updatedThingNodeRow r n et else r)).map (fun r => r.id) =
            rows.map (fun r => r.id) := by
          rw [List.map_map]
          apply List.map_congr_left
          intro r _
          dsimp only [Function.comp]
          by_cases h : r.id = db.id
          · rw [if_pos h, id_updatedThingNodeRow]
          · rw [if_neg h]
        have hsub2 : ∀ i ∈ rows0.map (fun r => r.id),
            i ∈ (rows.map (fun r => if r.id = db.id then
              updatedThingNodeRow r n et else r)).map (fun r => r.id) := by
          intro i hi
          rw [hidseq]
          exact hsub i hi
        rw [List.filter_cons_of_neg (by simp [hdbn])]
        rw [ih _ hsub2 (fun m hm => hdb m (List.mem_cons_of_mem n hm)),
          hidseq]
      | none =>
        have hstep : upsertThingNodeStep ets existing rows n =
            rows ++ [newThingNodeRow n et] := upsertTN_step_eq_insert hET hdbn
        rw [hstep]
        have hsub3 : ∀ i ∈ rows0.map (fun r => r.id),
            i ∈ (rows ++ [newThingNodeRow n et]).map (fun r => r.id) := by
          intro i hi
          rw [List.map_append]
          exact List.mem_append_left _ (hsub i hi)
        rw [List.filter_cons_of_pos (by simp [hET, hdbn])]
        rw [ih _ hsub3 (fun m hm => hdb m (List.mem_cons_of_mem n hm))]
        rw [List.map_append, List.append_assoc]
        rfl

theorem linkFun_et_ext (m : List (NatKey × StructureServiceThingNode))
    (tn : StructureServiceThingNode) :
    ((match resolveParent m tn with
      | some p => { tn with parent_node_id := some p.id }
      | none => tn) :
        StructureServiceThingNode).element_type_external_id
      = tn.element_type_external_id := by
  cases resolveParent m tn <;> rfl

/-- Every node of the sorted output carries a document node's identifying
fields, with its id resolved through the id-assignment step. -/
theorem sort_output_node {tns : List StructureServiceThingNode}
    {ex : List (NatKey × StructureServiceThingNode)}
    {X : StructureServiceThingNode} (hX : X ∈ sort_thing_nodes tns ex) :
    ∃ u ∈ tns, X.external_id = u.external_id ∧
      X.stakeholder_key = u.stakeholder_key ∧
      X.element_type_external_id = u.element_type_external_id ∧
      X.id = (match dictLookup ex (tnKey u) with
        | some row => row.id
        | none => u.id) := by
  unfold sort_thing_nodes at hX
  have hlinked : X ∈ setParentIds (thingNodeMap (assignIds tns ex))
      (assignIds tns ex) := by
    rcases mem_bfsLevels hX with h | ⟨pid, h⟩
    · exact (mem_rootNodes.mp h).1
    · exact (mem_childrenOf.mp h).1
  rw [setParentIds_eq_map, List.mem_map] at hlinked
  obtain ⟨a, ha, rfl⟩ := hlinked
  unfold assignIds at ha
  rw [List.mem_map] at ha
  obtain ⟨u, hu, rfl⟩ := ha
  obtain ⟨hid, he, hs, -⟩ :=
    linkFun_preserves (thingNodeMap (assignIds tns ex))
      (match dictLookup ex (tnKey u) with
        | some row => { u with id := row.id }
        | none => u)
  refine ⟨u, hu, ?_, ?_, ?_, ?_⟩
  · rw [he]
    cases dictLookup ex (tnKey u) <;> rfl
  · rw [hs]
    cases dictLookup ex (tnKey u) <;> rfl
  · rw [linkFun_et_ext]
    cases dictLookup ex (tnKey u) <;> rfl
  · rw [hid]
    cases dictLookup ex (tnKey u) <;> rfl

/-- Every populated node carries a sorted node's identifying fields
(populating only sets `element_type_id`). -/
theorem populate_mem {tns : List StructureServiceThingNode}
    {m : List (NatKey × StructureServiceElementType)}
    {n : StructureServiceThingNode}
    (hn : n ∈ populate_element_type_ids tns m) :
    ∃ X ∈ tns, n.id = X.id ∧ n.external_id = X.external_id ∧
      n.stakeholder_key = X.stakeholder_key ∧
      n.element_type_external_id = X.element_type_external_id := by
  unfold populate_element_type_ids at hn
  rw [List.mem_map] at hn
  obtain ⟨X, hX, rfl⟩ := hn
  refine ⟨X, hX, ?_, ?_, ?_, ?_⟩
  all_goals {
    by_cases h : X.element_type_external_id = ""
    · rw [if_pos h]
    · rw [if_neg h]
      cases dictLookup m (X.stakeholder_key, X.element_type_external_id) <;>
        rfl }

/-- Every resolved association pair's entity id is one of the deleted ids. -/
theorem assocInsertData_fst_mem {em tm : List ((String × String) × Nat)}
    {M : List AssocMapping} {p : Nat × Nat}
    (hp : p ∈ assocInsertData em tm M) : p.1 ∈ dictValues em := by
  unfold assocInsertData at hp
  rw [List.mem_filterMap] at hp
  obtain ⟨m, hm, hg⟩ := hp
  cases h1 : dictLookup em (m.1, m.2.1) with
  | none =>
    rw [h1] at hg
    cases h2 : dictLookup tm (m.2.2.1, m.2.2.2) with
    | none => rw [h2] at hg; cases hg
    | some j => rw [h2] at hg; cases hg
  | some i =>
    rw [h1] at hg
    cases h2 : dictLookup tm (m.2.2.1, m.2.2.2) with
    | none => rw [h2] at hg; cases hg
    | some j =>
      rw [h2] at hg
      cases hg
      exact mem_dictValues.mpr ⟨(m.1, m.2.1), h1⟩

/-- Re-running the delete-then-insert reconciliation with the same delete
set and insert data changes nothing, provided every inserted pair's entity
id belongs to the delete set (which is the case for the resolved pairs). -/
theorem reconcileAssocRows_idem {A : List (Nat × Nat)} {dels : List Nat}
    {data : List (Nat × Nat)} (hdata : ∀ p ∈ data, p.1 ∈ dels) :
    reconcileAssocRows (reconcileAssocRows A dels data) dels data =
      reconcileAssocRows A dels data := by
  by_cases hd : dels.isEmpty
  · have hdnil : dels = [] := by
      cases dels with
      | nil => rfl
      | cons a t => cases hd
    have hdata0 : data = [] := by
      cases data with
      | nil => rfl
      | cons p t =>
        have := hdata p (List.mem_cons_self p t)
        rw [hdnil] at this
        cases this
    subst hdnil
    subst hdata0
    rfl
  · by_cases hdat : data.isEmpty
    · have hdata0 : data = [] := by
        cases data with
        | nil => rfl
        | cons p t => cases hdat
      subst hdata0
      have hR : reconcileAssocRows A dels [] =
          A.filter (fun p => decide (p.1 ∉ dels)) := by
        unfold reconcileAssocRows
        dsimp only
        rw [if_neg hd, if_pos hdat]
      rw [hR]
      have hR2 : reconcileAssocRows
          (A.filter (fun p => decide (p.1 ∉ dels))) dels [] =
          (A.filter (fun p => decide (p.1 ∉ dels))).filter
            (fun p => decide (p.1 ∉ dels)) := by
        unfold reconcileAssocRows
        dsimp only
        rw [if_neg hd, if_pos hdat]
      rw [hR2]
      exact filter_filter_of_imp (fun x _ h => h)
    · have hR : reconcileAssocRows A dels data =
          insertPairsDedupe (A.filter (fun p => decide (p.1 ∉ dels)))
            data := by
        unfold reconcileAssocRows
        dsimp only
        rw [if_neg hdat, if_neg hd]
      rw [hR]
      have hR2 : reconcileAssocRows
          (insertPairsDedupe (A.filter (fun p => decide (p.1 ∉ dels))) data)
          dels data =
          insertPairsDedupe
            ((insertPairsDedupe (A.filter (fun p => decide (p.1 ∉ dels)))
              data).filter (fun p => decide (p.1 ∉ dels))) data := by
        unfold reconcileAssocRows
        dsimp only
        rw [if_neg hdat, if_neg hd]
      rw [hR2, filter_insertPairsDedupe]
      have h1 : (A.filter (fun p => decide (p.1 ∉ dels))).filter
          (fun p => decide (p.1 ∉ dels)) =
          A.filter (fun p => decide (p.1 ∉ dels)) :=
        filter_filter_of_imp (fun x _ h => h)
      have h2 : data.filter (fun p => decide (p.1 ∉ dels)) = [] := by
        rw [List.filter_eq_nil_iff]
        intro p hp
        intro hc
        exact absurd (hdata p hp) (of_decide_eq_true hc)
      rw [h1, h2, insertPairsDedupe_nil]

/-- Stage 1 of `update_structure`: the element-type upsert. -/
def usStage1 (store : Store) (cs : CompleteStructure) : Store :=
  upsert_element_types store cs.element_types

/-- The pre-upsert thing-node fetch of `update_structure`. -/
def usEx1 (store : Store) (cs : CompleteStructure) (bs : Nat) :
    List (NatKey × StructureServiceThingNode) :=
  fetch_thing_nodes store ((cs.thing_nodes.map tnKey).dedup) bs

/-- The sorted, element-type-populated thing-node batch of
`update_structure`. -/
def usBatch (store : Store) (cs : CompleteStructure) (bs : Nat) :
    List StructureServiceThingNode :=
  populate_element_type_ids
    (sort_thing_nodes cs.thing_nodes (usEx1 store cs bs))
    (fetch_element_types (usStage1 store cs)
      ((cs.element_types.map etKey).dedup) 500)

/-- Stage 2 of `update_structure`: the thing-node upsert. -/
def usStage2 (store : Store) (cs : CompleteStructure) (bs : Nat) : Store :=
  upsert_thing_nodes (usStage1 store cs) (usBatch store cs bs)
    (usEx1 store cs bs)

theorem update_structure_eq (store : Store) (cs : CompleteStructure)
    (bs : Nat) :
    update_structure store cs bs =
      upsert_sinks (upsert_sources (usStage2 store cs bs) cs.sources)
        cs.sinks := rfl

theorem upsert_thing_nodes_et (s : Store) (L : List StructureServiceThingNode)
    (ex : List (NatKey × StructureServiceThingNode)) :
    (upsert_thing_nodes s L ex).element_types = s.element_types := rfl

theorem upsert_thing_nodes_sources (s : Store)
    (L : List StructureServiceThingNode)
    (ex : List (NatKey × StructureServiceThingNode)) :
    (upsert_thing_nodes s L ex).sources = s.sources := rfl

theorem upsert_thing_nodes_sinks (s : Store)
    (L : List StructureServiceThingNode)
    (ex : List (NatKey × StructureServiceThingNode)) :
    (upsert_thing_nodes s L ex).sinks = s.sinks := rfl

theorem upsert_thing_nodes_src_assoc (s : Store)
    (L : List StructureServiceThingNode)
    (ex : List (NatKey × StructureServiceThingNode)) :
    (upsert_thing_nodes s L ex).thingnode_source_association =
      s.thingnode_source_association := rfl

theorem upsert_thing_nodes_snk_assoc (s : Store)
    (L : List StructureServiceThingNode)
    (ex : List (NatKey × StructureServiceThingNode)) :
    (upsert_thing_nodes s L ex).thingnode_sink_association =
      s.thingnode_sink_association := rfl

theorem upsert_element_types_et_eq (store : Store)
    (e : List StructureServiceElementType) :
    (upsert_element_types store e).element_types =
      e.foldl upsertElementTypeRow store.element_types := by
  unfold upsert_element_types
  by_cases h : e.isEmpty
  · rw [if_pos h]
    have he : e = [] := by
      cases e with
      | nil => rfl
      | cons a t => cases h
    rw [he, List.foldl_nil]
  · rw [if_neg h]

theorem usStage2_et (store : Store) (cs : CompleteStructure) (bs : Nat) :
    (usStage2 store cs bs).element_types =
      cs.element_types.foldl upsertElementTypeRow store.element_types := by
  unfold usStage2
  rw [upsert_thing_nodes_et]
  unfold usStage1
  exact upsert_element_types_et_eq store cs.element_types

theorem usStage2_sources (store : Store) (cs : CompleteStructure) (bs : Nat) :
    (usStage2 store cs bs).sources = store.sources := by
  unfold usStage2
  rw [upsert_thing_nodes_sources]
  unfold usStage1
  exact upsert_element_types_sources_eq store cs.element_types

theorem usStage2_sinks (store : Store) (cs : CompleteStructure) (bs : Nat) :
    (usStage2 store cs bs).sinks = store.sinks := by
  unfold usStage2
  rw [upsert_thing_nodes_sinks]
  unfold usStage1
  exact upsert_element_types_sinks_eq store cs.element_types

theorem usStage2_src_assoc (store : Store) (cs : CompleteStructure)
    (bs : Nat) :
    (usStage2 store cs bs).thingnode_source_association =
      store.thingnode_source_association := by
  unfold usStage2
  rw [upsert_thing_nodes_src_assoc]
  unfold usStage1
  exact upsert_element_types_src_assoc_eq store cs.element_types

theorem usStage2_snk_assoc (store : Store) (cs : CompleteStructure)
    (bs : Nat) :
    (usStage2 store cs bs).thingnode_sink_association =
      store.thingnode_sink_association := by
  unfold usStage2
  rw [upsert_thing_nodes_snk_assoc]
  unfold usStage1
  exact upsert_element_types_snk_assoc_eq store cs.element_types

theorem update_structure_et_proj (store : Store) (cs : CompleteStructure)
    (bs : Nat) :
    (update_structure store cs bs).element_types =
      cs.element_types.foldl upsertElementTypeRow store.element_types := by
  rw [update_structure_eq, upsert_sinks_et_eq, upsert_sources_et_eq]
  exact usStage2_et store cs bs

theorem update_structure_sources_proj (store : Store)
    (cs : CompleteStructure) (bs : Nat) :
    (update_structure store cs bs).sources =
      cs.sources.foldl upsertSourceRow store.sources := by
  rw [update_structure_eq, upsert_sinks_sources_eq,
    upsert_sources_sources_eq, usStage2_sources]

theorem update_structure_sinks_proj (store : Store)
    (cs : CompleteStructure) (bs : Nat) :
    (update_structure store cs bs).sinks =
      cs.sinks.foldl upsertSinkRow store.sinks := by
  rw [update_structure_eq, upsert_sinks_sinks_eq, upsert_sources_sinks_eq,
    usStage2_sinks]

theorem update_structure_tn_proj (store : Store) (cs : CompleteStructure)
    (bs : Nat) :
    (update_structure store cs bs).thing_nodes =
      (usStage2 store cs bs).thing_nodes := by
  rw [update_structure_eq, upsert_sinks_thing_nodes_eq,
    upsert_sources_thing_nodes_eq]

theorem sort_thing_nodes_congr {tns : List StructureServiceThingNode}
    {ex ex' : List (NatKey × StructureServiceThingNode)}
    (h : assignIds tns ex = assignIds tns ex') :
    sort_thing_nodes tns ex = sort_thing_nodes tns ex' := by
  unfold sort_thing_nodes
  rw [h]

/-- A fetch over a table whose `k`-slice agrees with a key-unique reference
table binds `k` exactly as `find?` on the reference table does. -/
theorem fetch_lookup_eq_find_of_slice {κ ρ : Type} [DecidableEq κ]
    {rows rows0 : List ρ} {key : ρ → κ} {keys : List κ} {bs : Nat}
    (hbs : 0 < bs) (hnodup0 : (rows0.map key).Nodup) {k : κ} (hk : k ∈ keys)
    (hsame : rows.filter (fun r => decide (key r = k)) =
      rows0.filter (fun r => decide (key r = k))) :
    dictLookup (fetchByKeysBatched rows key keys bs) k =
      rows0.find? (fun r => decide (key r = k)) := by
  cases hf : rows0.find? (fun r => decide (key r = k)) with
  | some v =>
    exact fetch_lookup_of_slice_singleton hbs hk
      (by rw [hsame]; exact filter_key_singleton hnodup0 hf)
  | none =>
    apply fetch_lookup_of_slice_nil hbs
    rw [hsame, List.filter_eq_nil_iff]
    intro r hr
    have := List.find?_eq_none.mp hf r hr
    simpa using this

/-- Every batch node of `update_structure` carries a document node's
identifying fields, with its id resolved through the id-assignment step. -/
theorem usBatch_node {store : Store} {cs : CompleteStructure} {bs : Nat}
    {n : StructureServiceThingNode} (hn : n ∈ usBatch store cs bs) :
    ∃ u ∈ cs.thing_nodes, n.external_id = u.external_id ∧
      n.stakeholder_key = u.stakeholder_key ∧
      n.element_type_external_id = u.element_type_external_id ∧
      n.id = (match dictLookup (usEx1 store cs bs) (tnKey u) with
        | some row => row.id
        | none => u.id) := by
  unfold usBatch at hn
  obtain ⟨X, hX, hid, hext, hsk, hetx⟩ := populate_mem hn
  obtain ⟨u, hu, he2, hs2, hx2, hid2⟩ := sort_output_node hX
  exact ⟨u, hu, by rw [hext, he2], by rw [hsk, hs2], by rw [hetx, hx2],
    by rw [hid, hid2]⟩

theorem usBatch_key_mem {store : Store} {cs : CompleteStructure} {bs : Nat}
    {n : StructureServiceThingNode} (hn : n ∈ usBatch store cs bs) :
    tnKey n ∈ (cs.thing_nodes.map tnKey).dedup := by
  obtain ⟨u, hu, he, hs, -, -⟩ := usBatch_node hn
  have hkey : tnKey n = tnKey u := by
    unfold tnKey
    rw [he, hs]
  rw [hkey, List.mem_dedup]
  exact List.mem_map_of_mem tnKey hu

/-- The `existing` map passed to the thing-node upsert agrees with `find?`
on the store for every batch node. -/
theorem usBatch_ex (store : Store) (cs : CompleteStructure) (bs : Nat)
    (hbs : 0 < bs) (H2 : (store.thing_nodes.map tnKey).Nodup) :
    ∀ n ∈ usBatch store cs bs, dictLookup (usEx1 store cs bs) (tnKey n) =
      store.thing_nodes.find? (fun r => decide (tnKey r = tnKey n)) := by
  intro n hn
  unfold usEx1
  rw [show fetch_thing_nodes store ((cs.thing_nodes.map tnKey).dedup) bs =
    fetchByKeysBatched store.thing_nodes tnKey
      ((cs.thing_nodes.map tnKey).dedup) bs from rfl]
  rw [fetchByKeysBatched_lookup hbs H2]
  rw [if_pos (usBatch_key_mem hn)]

theorem usBatch_keys_nodup {store : Store} {cs : CompleteStructure}
    {bs : Nat}
    (Hso : ((sort_thing_nodes cs.thing_nodes
      (usEx1 store cs bs)).map tnKey).Nodup) :
    ((usBatch store cs bs).map tnKey).Nodup := by
  unfold usBatch
  rw [populate_map_tnKey]
  exact Hso

/-- A batch node whose key is absent from the store carries the fresh
candidate id of its document node. -/
theorem usBatch_fresh (store : Store) (cs : CompleteStructure) (bs : Nat)
    (hbs : 0 < bs) (H2 : (store.thing_nodes.map tnKey).Nodup)
    (D4 : ∀ u ∈ cs.thing_nodes,
      u.id ∉ store.thing_nodes.map (fun r => r.id)) :
    ∀ n ∈ usBatch store cs bs,
      store.thing_nodes.find? (fun r => decide (tnKey r = tnKey n)) = none →
      n.id ∉ store.thing_nodes.map (fun r => r.id) := by
  intro n hn hfind
  obtain ⟨u, hu, he, hs, -, hid⟩ := usBatch_node hn
  have hkey : tnKey n = tnKey u := by
    unfold tnKey
    rw [he, hs]
  have hex1 : dictLookup (usEx1 store cs bs) (tnKey u) = none := by
    rw [← hkey, usBatch_ex store cs bs hbs H2 n hn]
    exact hfind
  rw [hex1] at hid
  rw [hid]
  exact D4 u hu

/-- Slice view of the synchronized thing-node table at a written batch
node's key. -/
theorem usStage2_slice (store : Store) (cs : CompleteStructure) (bs : Nat)
    (hbs : 0 < bs)
    (H2 : (store.thing_nodes.map tnKey).Nodup)
    (H3 : (store.thing_nodes.map (fun r => r.id)).Nodup)
    (D4 : ∀ u ∈ cs.thing_nodes,
      u.id ∉ store.thing_nodes.map (fun r => r.id))
    (Hso : ((sort_thing_nodes cs.thing_nodes
      (usEx1 store cs bs)).map tnKey).Nodup)
    {n : StructureServiceThingNode} (hn : n ∈ usBatch store cs bs)
    {et : StructureServiceElementType}
    (hET : findElementType
      (cs.element_types.foldl upsertElementTypeRow store.element_types) n =
        some et) :
    (usStage2 store cs bs).thing_nodes.filter
        (fun r => decide (tnKey r = tnKey n)) =
      [(match store.thing_nodes.find?
          (fun r => decide (tnKey r = tnKey n)) with
        | some orig => updatedThingNodeRow orig n et
        | none => newThingNodeRow n et)] := by
  have e1 : (usStage1 store cs).thing_nodes = store.thing_nodes :=
    upsert_element_types_thing_nodes_eq store cs.element_types
  have e2 : (usStage1 store cs).element_types =
      cs.element_types.foldl upsertElementTypeRow store.element_types :=
    upsert_element_types_et_eq store cs.element_types
  have h := upsert_thing_nodes_slice (usStage1 store cs)
    (usBatch store cs bs) (usEx1 store cs bs)
    (by rw [e1]; exact H3) (by rw [e1]; exact H2)
    (by rw [e1]; exact usBatch_ex store cs bs hbs H2)
    (usBatch_keys_nodup Hso)
    (by rw [e1]; exact usBatch_fresh store cs bs hbs H2 D4)
    n hn et (by rw [e2]; exact hET)
  rw [e1] at h
  exact h

/-- Slice view at a skipped batch node's key: unchanged. -/
theorem usStage2_skip (store : Store) (cs : CompleteStructure) (bs : Nat)
    (hbs : 0 < bs)
    (H2 : (store.thing_nodes.map tnKey).Nodup)
    (H3 : (store.thing_nodes.map (fun r => r.id)).Nodup)
    (Hso : ((sort_thing_nodes cs.thing_nodes
      (usEx1 store cs bs)).map tnKey).Nodup)
    {n : StructureServiceThingNode} (hn : n ∈ usBatch store cs bs)
    (hET : findElementType
      (cs.element_types.foldl upsertElementTypeRow store.element_types) n =
        none) :
    (usStage2 store cs bs).thing_nodes.filter
        (fun r => decide (tnKey r = tnKey n)) =
      store.thing_nodes.filter (fun r => decide (tnKey r = tnKey n)) := by
  have e1 : (usStage1 store cs).thing_nodes = store.thing_nodes :=
    upsert_element_types_thing_nodes_eq store cs.element_types
  have e2 : (usStage1 store cs).element_types =
      cs.element_types.foldl upsertElementTypeRow store.element_types :=
    upsert_element_types_et_eq store cs.element_types
  have h := upsert_thing_nodes_skips (usStage1 store cs)
    (usBatch store cs bs) (usEx1 store cs bs)
    (by rw [e1]; exact H3)
    (by rw [e1]; exact usBatch_ex store cs bs hbs H2)
    (usBatch_keys_nodup Hso)
    n hn (by rw [e2]; exact hET)
  rw [e1] at h
  exact h

/-- Slice view at a key carried by no batch node: unchanged. -/
theorem usStage2_untouched (store : Store) (cs : CompleteStructure)
    (bs : Nat) (hbs : 0 < bs)
    (H2 : (store.thing_nodes.map tnKey).Nodup)
    (H3 : (store.thing_nodes.map (fun r => r.id)).Nodup)
    (k : NatKey) (hnok : ∀ n ∈ usBatch store cs bs, tnKey n ≠ k) :
    (usStage2 store cs bs).thing_nodes.filter
        (fun r => decide (tnKey r = k)) =
      store.thing_nodes.filter (fun r => decide (tnKey r = k)) := by
  have e1 : (usStage1 store cs).thing_nodes = store.thing_nodes :=
    upsert_element_types_thing_nodes_eq store cs.element_types
  have h := upsert_thing_nodes_untouched_key (usStage1 store cs)
    (usBatch store cs bs) (usEx1 store cs bs)
    (by rw [e1]; exact H3)
    ?_ k hnok
  · rw [e1] at h
    exact h
  · intro n hn v hv
    rw [usBatch_ex store cs bs hbs H2 n hn] at hv
    constructor
    · simpa using List.find?_some hv
    · rw [e1]
      exact List.mem_of_find?_eq_some hv

/-- After one synchronization, the id-assignment step of a second run over
the same document produces literally the same assigned nodes: updated rows
keep their id, and freshly inserted rows carry the document's candidate
ids. -/
theorem run2_assign_eq (store : Store) (cs : CompleteStructure) (bs : Nat)
    (hbs : 0 < bs)
    (H2 : (store.thing_nodes.map tnKey).Nodup)
    (H3 : (store.thing_nodes.map (fun r => r.id)).Nodup)
    (D2 : (cs.thing_nodes.map tnKey).Nodup)
    (D4 : ∀ u ∈ cs.thing_nodes,
      u.id ∉ store.thing_nodes.map (fun r => r.id))
    (Hso : ((sort_thing_nodes cs.thing_nodes
      (usEx1 store cs bs)).map tnKey).Nodup) :
    assignIds cs.thing_nodes (usEx1 (update_structure store cs bs) cs bs) =
      assignIds cs.thing_nodes (usEx1 store cs bs) := by
  unfold assignIds
  apply List.map_congr_left
  intro u hu
  dsimp only
  have hk : tnKey u ∈ (cs.thing_nodes.map tnKey).dedup := by
    rw [List.mem_dedup]
    exact List.mem_map_of_mem tnKey hu
  have hex1u : dictLookup (usEx1 store cs bs) (tnKey u) =
      store.thing_nodes.find? (fun r => decide (tnKey r = tnKey u)) := by
    unfold usEx1
    rw [show fetch_thing_nodes store ((cs.thing_nodes.map tnKey).dedup) bs =
      fetchByKeysBatched store.thing_nodes tnKey
        ((cs.thing_nodes.map tnKey).dedup) bs from rfl,
      fetchByKeysBatched_lookup hbs H2, if_pos hk]
  have hex2form : usEx1 (update_structure store cs bs) cs bs =
      fetchByKeysBatched (usStage2 store cs bs).thing_nodes tnKey
        ((cs.thing_nodes.map tnKey).dedup) bs := by
    unfold usEx1
    rw [show fetch_thing_nodes (update_structure store cs bs)
        ((cs.thing_nodes.map tnKey).dedup) bs =
      fetchByKeysBatched (update_structure store cs bs).thing_nodes tnKey
        ((cs.thing_nodes.map tnKey).dedup) bs from rfl,
      update_structure_tn_proj]
  by_cases hbatch : ∃ n, n ∈ usBatch store cs bs ∧ tnKey n = tnKey u
  · obtain ⟨n, hn, hkn⟩ := hbatch
    cases hET : findElementType
        (cs.element_types.foldl upsertElementTypeRow store.element_types)
        n with
    | none =>
      have hsl := usStage2_skip store cs bs hbs H2 H3 Hso hn hET
      rw [hkn] at hsl
      have hlook : dictLookup (usEx1 (update_structure store cs bs) cs bs)
          (tnKey u) =
          store.thing_nodes.find? (fun r => decide (tnKey r = tnKey u)) := by
        rw [hex2form]
        exact fetch_lookup_eq_find_of_slice hbs H2 hk hsl
      rw [hlook, hex1u]
    | some et =>
      have hsl := usStage2_slice store cs bs hbs H2 H3 D4 Hso hn hET
      rw [hkn] at hsl
      have hlook : dictLookup (usEx1 (update_structure store cs bs) cs bs)
          (tnKey u) = some (match store.thing_nodes.find?
            (fun r => decide (tnKey r = tnKey u)) with
          | some orig => updatedThingNodeRow orig n et
          | none => newThingNodeRow n et) := by
        rw [hex2form]
        exact fetch_lookup_of_slice_singleton hbs hk hsl
      cases hf : store.thing_nodes.find?
          (fun r => decide (tnKey r = tnKey u)) with
      | some orig =>
        rw [hf] at hlook
        rw [hlook, hex1u, hf]
        rfl
      | none =>
        rw [hf] at hlook
        rw [hlook, hex1u, hf]
        obtain ⟨w, hw, he, hs, -, hid⟩ := usBatch_node hn
        have hku : tnKey n = tnKey w := by
          unfold tnKey
          rw [he, hs]
        have hwu : w = u := List.inj_on_of_nodup_map D2 hw hu
          (by rw [← hku, hkn])
        rw [hwu] at hid
        rw [hex1u, hf] at hid
        dsimp only at hid
        dsimp only
        rw [show (newThingNodeRow n et).id = n.id from rfl, hid]
  · have hnok : ∀ n ∈ usBatch store cs bs, tnKey n ≠ tnKey u := by
      intro n hn hkn
      exact hbatch ⟨n, hn, hkn⟩
    have hsl := usStage2_untouched store cs bs hbs H2 H3 (tnKey u) hnok
    have hlook : dictLookup (usEx1 (update_structure store cs bs) cs bs)
        (tnKey u) =
        store.thing_nodes.find? (fun r => decide (tnKey r = tnKey u)) := by
      rw [hex2form]
      exact fetch_lookup_eq_find_of_slice hbs H2 hk hsl
    rw [hlook, hex1u]

/-- Id uniqueness of the thing-node table survives the synchronization:
updates keep ids, and inserts add the document's fresh, distinct candidate
ids. -/
theorem usStage2_ids_nodup (store : Store) (cs : CompleteStructure)
    (bs : Nat) (hbs : 0 < bs)
    (H2 : (store.thing_nodes.map tnKey).Nodup)
    (H3 : (store.thing_nodes.map (fun r => r.id)).Nodup)
    (D3 : (cs.thing_nodes.map (fun u => u.id)).Nodup)
    (D4 : ∀ u ∈ cs.thing_nodes,
      u.id ∉ store.thing_nodes.map (fun r => r.id))
    (Hso : ((sort_thing_nodes cs.thing_nodes
      (usEx1 store cs bs)).map tnKey).Nodup) :
    ((usStage2 store cs bs).thing_nodes.map (fun r => r.id)).Nodup := by
  have e1 : (usStage1 store cs).thing_nodes = store.thing_nodes :=
    upsert_element_types_thing_nodes_eq store cs.element_types
  have e2 : (usStage1 store cs).element_types =
      cs.element_types.foldl upsertElementTypeRow store.element_types :=
    upsert_element_types_et_eq store cs.element_types
  have hdb : ∀ n ∈ usBatch store cs bs, ∀ db,
      dictLookup (usEx1 store cs bs) (tnKey n) = some db →
      db.id ∈ store.thing_nodes.map (fun r => r.id) := by
    intro n hn db hdbn
    rw [usBatch_ex store cs bs hbs H2 n hn] at hdbn
    exact List.mem_map_of_mem _ (List.mem_of_find?_eq_some hdbn)
  unfold usStage2 upsert_thing_nodes
  dsimp only
  rw [e1, e2]
  rw [@upsertTN_fold_map_id
    (cs.element_types.foldl upsertElementTypeRow store.element_types)
    (usEx1 store cs bs) store.thing_nodes (usBatch store cs bs)
    store.thing_nodes (fun i hi => hi) hdb]
  rw [List.nodup_append]
  have hbk := @usBatch_keys_nodup store cs bs Hso
  have hfkeys : (((usBatch store cs bs).filter (fun n =>
      (findElementType (cs.element_types.foldl upsertElementTypeRow
        store.element_types) n).isSome &&
      (dictLookup (usEx1 store cs bs) (tnKey n)).isNone)).map tnKey).Nodup :=
    List.Nodup.sublist
      (List.Sublist.map tnKey (List.filter_sublist (usBatch store cs bs)))
      hbk
  have hchar : ∀ n ∈ (usBatch store cs bs).filter (fun n =>
      (findElementType (cs.element_types.foldl upsertElementTypeRow
        store.element_types) n).isSome &&
      (dictLookup (usEx1 store cs bs) (tnKey n)).isNone),
      ∃ u ∈ cs.thing_nodes, tnKey n = tnKey u ∧ n.id = u.id := by
    intro n hn
    have hmem := List.mem_of_mem_filter hn
    have hP := (List.mem_filter.mp hn).2
    obtain ⟨u, hu, he, hs, -, hid⟩ := usBatch_node hmem
    have hkey : tnKey n = tnKey u := by
      unfold tnKey
      rw [he, hs]
    have hnone : dictLookup (usEx1 store cs bs) (tnKey u) = none := by
      rw [← hkey]
      have h2 := ((Bool.and_eq_true _ _).mp hP).2
      cases hd : dictLookup (usEx1 store cs bs) (tnKey n) with
      | none => rfl
      | some v => rw [hd] at h2; cases h2
    rw [hnone] at hid
    exact ⟨u, hu, hkey, hid⟩
  refine ⟨H3, ?_, ?_⟩
  · apply List.Nodup.map_on
    · intro x hx y hy hxy
      obtain ⟨ux, hux, hkx, hix⟩ := hchar x hx
      obtain ⟨uy, huy, hky, hiy⟩ := hchar y hy
      have huxy : ux = uy := List.inj_on_of_nodup_map D3 hux huy
        (by rw [← hix, ← hiy, hxy])
      have hk : tnKey x = tnKey y := by rw [hkx, hky, huxy]
      exact List.inj_on_of_nodup_map hfkeys hx hy hk
    · exact List.Nodup.filter _ (List.Nodup.of_map tnKey hbk)
  · intro i hi1 hi2
    rw [List.mem_map] at hi2
    obtain ⟨n, hn, rfl⟩ := hi2
    obtain ⟨u, hu, -, hid⟩ := hchar n hn
    rw [hid] at hi1
    exact D4 u hu hi1

/-- Running the element-type upsert again on the synchronized store changes
nothing. -/
theorem run2_et_noop (store : Store) (cs : CompleteStructure) (bs : Nat)
    (H1 : (store.element_types.map etKey).Nodup)
    (D1 : (cs.element_types.map etKey).Nodup) :
    usStage1 (update_structure store cs bs) cs =
      update_structure store cs bs := by
  unfold usStage1 upsert_element_types
  by_cases h : cs.element_types.isEmpty
  · rw [if_pos h]
  · rw [if_neg h]
    rw [update_structure_et_proj store cs bs]
    rw [etFold_idem H1 D1]
    rw [← update_structure_et_proj store cs bs]

/-- A second run computes literally the same sorted, populated batch. -/
theorem run2_batch_eq (store : Store) (cs : CompleteStructure) (bs : Nat)
    (hbs : 0 < bs)
    (H1 : (store.element_types.map etKey).Nodup)
    (H2 : (store.thing_nodes.map tnKey).Nodup)
    (H3 : (store.thing_nodes.map (fun r => r.id)).Nodup)
    (D1 : (cs.element_types.map etKey).Nodup)
    (D2 : (cs.thing_nodes.map tnKey).Nodup)
    (D4 : ∀ u ∈ cs.thing_nodes,
      u.id ∉ store.thing_nodes.map (fun r => r.id))
    (Hso : ((sort_thing_nodes cs.thing_nodes
      (usEx1 store cs bs)).map tnKey).Nodup) :
    usBatch (update_structure store cs bs) cs bs = usBatch store cs bs := by
  unfold usBatch
  rw [sort_thing_nodes_congr
    (run2_assign_eq store cs bs hbs H2 H3 D2 D4 Hso)]
  rw [run2_et_noop store cs bs H1 D1]
  have htab : (update_structure store cs bs).element_types =
      (usStage1 store cs).element_types := by
    rw [update_structure_et_proj]
    exact (upsert_element_types_et_eq store cs.element_types).symm
  rw [show fetch_element_types (update_structure store cs bs)
      ((cs.element_types.map etKey).dedup) 500 =
    fetchByKeysBatched (update_structure store cs bs).element_types etKey
      ((cs.element_types.map etKey).dedup) 500 from rfl]
  rw [htab]
  rfl

/-- A second run's thing-node upsert is a no-op: every batch node either
skips (unresolvable element type, unchanged from the first run) or finds
the very row the first run wrote, whose renewed update is the identity. -/
theorem run2_stage2_noop (store : Store) (cs : CompleteStructure) (bs : Nat)
    (hbs : 0 < bs)
    (H1 : (store.element_types.map etKey).Nodup)
    (H2 : (store.thing_nodes.map tnKey).Nodup)
    (H3 : (store.thing_nodes.map (fun r => r.id)).Nodup)
    (D1 : (cs.element_types.map etKey).Nodup)
    (D2 : (cs.thing_nodes.map tnKey).Nodup)
    (D3 : (cs.thing_nodes.map (fun u => u.id)).Nodup)
    (D4 : ∀ u ∈ cs.thing_nodes,
      u.id ∉ store.thing_nodes.map (fun r => r.id))
    (Hso : ((sort_thing_nodes cs.thing_nodes
      (usEx1 store cs bs)).map tnKey).Nodup) :
    usStage2 (update_structure store cs bs) cs bs =
      update_structure store cs bs := by
  unfold usStage2
  rw [run2_et_noop store cs bs H1 D1,
    run2_batch_eq store cs bs hbs H1 H2 H3 D1 D2 D4 Hso]
  have hETtable : (update_structure store cs bs).element_types =
      cs.element_types.foldl upsertElementTypeRow store.element_types :=
    update_structure_et_proj store cs bs
  have htn : (update_structure store cs bs).thing_nodes =
      (usStage2 store cs bs).thing_nodes :=
    update_structure_tn_proj store cs bs
  have hids2 : ((update_structure store cs bs).thing_nodes.map
      (fun r => r.id)).Nodup := by
    rw [htn]
    exact usStage2_ids_nodup store cs bs hbs H2 H3 D3 D4 Hso
  unfold upsert_thing_nodes
  have hfold : (usBatch store cs bs).foldl
      (upsertThingNodeStep (update_structure store cs bs).element_types
        (usEx1 (update_structure store cs bs) cs bs))
      (update_structure store cs bs).thing_nodes =
      (update_structure store cs bs).thing_nodes := by
    apply upsertTN_fold_noop hids2
    intro n hn
    cases hET : findElementType
        (cs.element_types.foldl upsertElementTypeRow store.element_types)
        n with
    | none =>
      left
      rw [hETtable]
      exact hET
    | some et =>
      right
      have hsl := usStage2_slice store cs bs hbs H2 H3 D4 Hso hn hET
      have hlook : dictLookup (usEx1 (update_structure store cs bs) cs bs)
          (tnKey n) = some (match store.thing_nodes.find?
            (fun r => decide (tnKey r = tnKey n)) with
          | some orig => updatedThingNodeRow orig n et
          | none => newThingNodeRow n et) := by
        unfold usEx1
        rw [show fetch_thing_nodes (update_structure store cs bs)
            ((cs.thing_nodes.map tnKey).dedup) bs =
          fetchByKeysBatched (update_structure store cs bs).thing_nodes
            tnKey ((cs.thing_nodes.map tnKey).dedup) bs from rfl, htn]
        exact fetch_lookup_of_slice_singleton hbs (usBatch_key_mem hn) hsl
      refine ⟨et, _, by rw [hETtable]; exact hET, hlook, ?_, ?_⟩
      · rw [htn]
        have hwmem : (match store.thing_nodes.find?
            (fun r => decide (tnKey r = tnKey n)) with
          | some orig => updatedThingNodeRow orig n et
          | none => newThingNodeRow n et) ∈
            (usStage2 store cs bs).thing_nodes.filter
              (fun r => decide (tnKey r = tnKey n)) := by
          rw [hsl]
          exact List.mem_cons_self _ []
        exact (List.mem_filter.mp hwmem).1
      · cases store.thing_nodes.find?
          (fun r => decide (tnKey r = tnKey n)) <;> rfl
  rw [hfold]

/-- A second run of the source upsert on the synchronized store changes
nothing: the entity fold is idempotent and the association reconciliation
deletes and re-inserts exactly the rows it wrote. -/
theorem run2_sources_noop (store : Store) (cs : CompleteStructure) (bs : Nat)
    (H4 : (store.sources.map srcKey).Nodup)
    (D5 : (cs.sources.map srcKey).Nodup) :
    upsert_sources (update_structure store cs bs) cs.sources =
      update_structure store cs bs := by
  have hsrcproj := update_structure_sources_proj store cs bs
  have htnproj := update_structure_tn_proj store cs bs
  have hfold2 : cs.sources.foldl upsertSourceRow
      (update_structure store cs bs).sources =
      (update_structure store cs bs).sources := by
    rw [hsrcproj]
    exact srcFold_idem H4 D5
  unfold upsert_sources
  dsimp only
  by_cases hW : (cs.sources.filter
      (fun src => !src.thing_node_external_ids.isEmpty)).isEmpty
  · rw [if_pos hW, hfold2]
  · rw [if_neg hW, hfold2]
    have hassoc1 : (update_structure store cs
        bs).thingnode_source_association =
        reconcileAssocRows store.thingnode_source_association
          (dictValues (srcIdMapFor
            (cs.sources.foldl upsertSourceRow store.sources)
            (sourceTnMappings (cs.sources.filter
              (fun src => !src.thing_node_external_ids.isEmpty)))))
          (assocInsertData
            (srcIdMapFor (cs.sources.foldl upsertSourceRow store.sources)
              (sourceTnMappings (cs.sources.filter
                (fun src => !src.thing_node_external_ids.isEmpty))))
            (tnIdMapFor (usStage2 store cs bs).thing_nodes
              (sourceTnMappings (cs.sources.filter
                (fun src => !src.thing_node_external_ids.isEmpty))))
            (sourceTnMappings (cs.sources.filter
              (fun src => !src.thing_node_external_ids.isEmpty)))) := by
      rw [update_structure_eq, upsert_sinks_src_assoc_eq,
        upsert_sources_assoc_eq_of_nonempty _ _ hW, usStage2_src_assoc,
        usStage2_sources]
    have hassoc2 : reconcileAssocRows
        (update_structure store cs bs).thingnode_source_association
        (dictValues (srcIdMapFor (update_structure store cs bs).sources
          (sourceTnMappings (cs.sources.filter
            (fun src => !src.thing_node_external_ids.isEmpty)))))
        (assocInsertData
          (srcIdMapFor (update_structure store cs bs).sources
            (sourceTnMappings (cs.sources.filter
              (fun src => !src.thing_node_external_ids.isEmpty))))
          (tnIdMapFor (update_structure store cs bs).thing_nodes
            (sourceTnMappings (cs.sources.filter
              (fun src => !src.thing_node_external_ids.isEmpty))))
          (sourceTnMappings (cs.sources.filter
            (fun src => !src.thing_node_external_ids.isEmpty)))) =
        (update_structure store cs bs).thingnode_source_association := by
      rw [hsrcproj, htnproj, hassoc1]
      exact reconcileAssocRows_idem (fun p hp => assocInsertData_fst_mem hp)
    rw [hassoc2]

/-- Mirror of `run2_sources_noop` for the sink upsert. -/
theorem run2_sinks_noop (store : Store) (cs : CompleteStructure) (bs : Nat)
    (H6 : (store.sinks.map snkKey).Nodup)
    (D6 : (cs.sinks.map snkKey).Nodup) :
    upsert_sinks (update_structure store cs bs) cs.sinks =
      update_structure store cs bs := by
  have hsnkproj := update_structure_sinks_proj store cs bs
  have htnproj := update_structure_tn_proj store cs bs
  have hfold2 : cs.sinks.foldl upsertSinkRow
      (update_structure store cs bs).sinks =
      (update_structure store cs bs).sinks := by
    rw [hsnkproj]
    exact snkFold_idem H6 D6
  unfold upsert_sinks
  dsimp only
  by_cases hW : (cs.sinks.filter
      (fun snk => !snk.thing_node_external_ids.isEmpty)).isEmpty
  · rw [if_pos hW, hfold2]
  · rw [if_neg hW, hfold2]
    have hassoc1 : (update_structure store cs
        bs).thingnode_sink_association =
        reconcileAssocRows store.thingnode_sink_association
          (dictValues (snkIdMapFor
            (cs.sinks.foldl upsertSinkRow store.sinks)
            (sinkTnMappings (cs.sinks.filter
              (fun snk => !snk.thing_node_external_ids.isEmpty)))))
          (assocInsertData
            (snkIdMapFor (cs.sinks.foldl upsertSinkRow store.sinks)
              (sinkTnMappings (cs.sinks.filter
                (fun snk => !snk.thing_node_external_ids.isEmpty))))
            (tnIdMapFor (usStage2 store cs bs).thing_nodes
              (sinkTnMappings (cs.sinks.filter
                (fun snk => !snk.thing_node_external_ids.isEmpty))))
            (sinkTnMappings (cs.sinks.filter
              (fun snk => !snk.thing_node_external_ids.isEmpty)))) := by
      rw [update_structure_eq,
        upsert_sinks_assoc_eq_of_nonempty _ _ hW,
        upsert_sources_snk_assoc_eq, usStage2_snk_assoc,
        upsert_sources_sinks_eq, usStage2_sinks,
        upsert_sources_thing_nodes_eq]
    have hassoc2 : reconcileAssocRows
        (update_structure store cs bs).thingnode_sink_association
        (dictValues (snkIdMapFor (update_structure store cs bs).sinks
          (sinkTnMappings (cs.sinks.filter
            (fun snk => !snk.thing_node_external_ids.isEmpty)))))
        (assocInsertData
          (snkIdMapFor (update_structure store cs bs).sinks
            (sinkTnMappings (cs.sinks.filter
              (fun snk => !snk.thing_node_external_ids.isEmpty))))
          (tnIdMapFor (update_structure store cs bs).thing_nodes
            (sinkTnMappings (cs.sinks.filter
              (fun snk => !snk.thing_node_external_ids.isEmpty))))
          (sinkTnMappings (cs.sinks.filter
            (fun snk => !snk.thing_node_external_ids.isEmpty)))) =
        (update_structure store cs bs).thingnode_sink_association := by
      rw [hsnkproj, htnproj, hassoc1]
      exact reconcileAssocRows_idem (fun p hp => assocInsertData_fst_mem hp)
    rw [hassoc2]

/-- **C1.** Running the synchronization twice on the same document leaves
the store literally identical to running it once: the element-type, source
and sink upserts are idempotent key-based writes, the second thing-node
pass re-assigns exactly the ids the first pass persisted and then merges
every node into the row it wrote (or skips it again), and the association
reconciliation deletes precisely the rows it re-inserts.  Hypotheses: the
store tables are key- and id-unique (database unique constraints), the
document has unique natural keys, fresh and distinct candidate node ids
(freshly generated UUIDs), and the sorted batch carries pairwise distinct
natural keys (which holds for every validator-accepted document). -/
theorem update_structure_idem
    (store : Store) (cs : CompleteStructure) (bs : Nat) (hbs : 0 < bs)
    (H1 : (store.element_types.map etKey).Nodup)
    (H2 : (store.thing_nodes.map tnKey).Nodup)
    (H3 : (store.thing_nodes.map (fun r => r.id)).Nodup)
    (H4 : (store.sources.map srcKey).Nodup)
    (H6 : (store.sinks.map snkKey).Nodup)
    (D1 : (cs.element_types.map etKey).Nodup)
    (D2 : (cs.thing_nodes.map tnKey).Nodup)
    (D3 : (cs.thing_nodes.map (fun u => u.id)).Nodup)
    (D4 : ∀ u ∈ cs.thing_nodes,
      u.id ∉ store.thing_nodes.map (fun r => r.id))
    (D5 : (cs.sources.map srcKey).Nodup)
    (D6 : (cs.sinks.map snkKey).Nodup)
    (Hso : ((sort_thing_nodes cs.thing_nodes
      (usEx1 store cs bs)).map tnKey).Nodup) :
    update_structure (update_structure store cs bs) cs bs =
      update_structure store cs bs := by
  rw [update_structure_eq (update_structure store cs bs) cs bs,
    run2_stage2_noop store cs bs hbs H1 H2 H3 D1 D2 D3 D4 Hso,
    run2_sources_noop store cs bs H4 D5,
    run2_sinks_noop store cs bs H6 D6]

/-- C1 witness store: one element type, one node, one source and one sink
with one association row each. -/
def w1store : Store :=
  { element_types := [mkET 10 "et1"], thing_nodes := [mkTN 3 "Z" none],
    sources := [mkSource 1 "s1" []], sinks := [mkSink 2 "t1" []],
    thingnode_source_association := [(1, 3)],
    thingnode_sink_association := [(2, 3)] }

/-- C1 witness document: re-declares everything and adds a child node, a
source reference and a sink reference. -/
def w1cs : CompleteStructure :=
  { element_types := [mkET 20 "et1"],
    thing_nodes := [mkTN 4 "Z" none, mkTN 5 "A" (some "Z")],
    sources := [mkSource 6 "s1" ["Z"]], sinks := [mkSink 7 "t1" ["A"]] }

/-- C1 witness: idempotence at a concrete store and document, every
hypothesis discharged by computation. -/
theorem update_structure_idem_witness :
    update_structure (update_structure w1store w1cs 500) w1cs 500 =
      update_structure w1store w1cs 500 :=
  update_structure_idem w1store w1cs 500 (by decide) (by decide) (by decide)
    (by decide) (by decide) (by decide) (by decide) (by decide) (by decide)
    (by decide) (by decide) (by decide) (by decide)

/-! ## C6: transactional semantics of `update_structure`
(`with get_session()() as session, session.begin():`) -/

/-- The `session.begin()` context manager: the transaction body computes a
new store; on normal exit it is committed and becomes visible, on an
exception everything is rolled back and the store is exactly the pre-call
one. -/
def runTransaction (store : Store)
    (tx : Store → Except DBError Store) : Store :=
  match tx store with
  | Except.ok s' => s'
  | Except.error _ => store

/-- A row-at-a-time upsert fold with an injected failure: the first
argument is the number of row writes that still succeed; the write after
them raises (modelling e.g. an integrity error on the Nth entity).  Returns
the remaining budget together with the written table. -/
def upsertRowsPartial {ρ σ : Type} (step : List ρ → σ → List ρ) :
    Nat → List ρ → List σ → Except DBError (Nat × List ρ)
  | k, rows, [] => Except.ok (k, rows)
  | 0, _, _ :: _ => Except.error (DBError.integrity "injected failure")
  | k + 1, rows, e :: E => upsertRowsPartial step k (step rows e) E

/-- The transaction body of `update_structure` with a failure injected
after `failN` successful entity writes (element types, then sorted thing
nodes, then sources, then sinks; a phase whose writes all succeed completes
like the real phase, association reconciliation included). -/
def txUpdateStructureFail (cs : CompleteStructure) (bs : Nat) (failN : Nat)
    (store : Store) : Except DBError Store :=
  match upsertRowsPartial upsertElementTypeRow failN store.element_types
      cs.element_types with
  | Except.error e => Except.error e
  | Except.ok (k1, _) =>
    match upsertRowsPartial
        (upsertThingNodeStep (usStage1 store cs).element_types
          (usEx1 store cs bs))
        k1 (usStage1 store cs).thing_nodes (usBatch store cs bs) with
    | Except.error e => Except.error e
    | Except.ok (k2, _) =>
      match upsertRowsPartial upsertSourceRow k2
          (usStage2 store cs bs).sources cs.sources with
      | Except.error e => Except.error e
      | Except.ok (k3, _) =>
        match upsertRowsPartial upsertSinkRow k3
            (upsert_sources (usStage2 store cs bs) cs.sources).sinks
            cs.sinks with
        | Except.error e => Except.error e
        | Except.ok _ =>
          Except.ok (upsert_sinks
            (upsert_sources (usStage2 store cs bs) cs.sources) cs.sinks)

/-- A partial fold with enough budget completes as the plain fold. -/
theorem upsertRowsPartial_ok {ρ σ : Type} (step : List ρ → σ → List ρ) :
    ∀ (E : List σ) (k : Nat) (rows : List ρ), E.length ≤ k →
      upsertRowsPartial step k rows E =
        Except.ok (k - E.length, E.foldl step rows) := by
  intro E
  induction E with
  | nil =>
    intro k rows _
    cases k <;> rfl
  | cons e E ih =>
    intro k rows hk
    cases k with
    | zero =>
      rw [List.length_cons] at hk
      omega
    | succ k =>
      rw [show upsertRowsPartial step (k + 1) rows (e :: E) =
        upsertRowsPartial step k (step rows e) E from rfl]
      rw [ih k (step rows e) (by rw [List.length_cons] at hk; omega)]
      rw [List.length_cons, List.foldl_cons]
      congr 1
      congr 1
      omega

/-- A partial fold with too small a budget raises. -/
theorem upsertRowsPartial_error {ρ σ : Type} (step : List ρ → σ → List ρ) :
    ∀ (E : List σ) (k : Nat) (rows : List ρ), k < E.length →
      upsertRowsPartial step k rows E =
        Except.error (DBError.integrity "injected failure") := by
  intro E
  induction E with
  | nil =>
    intro k rows hk
    rw [List.length_nil] at hk
    omega
  | cons e E ih =>
    intro k rows hk
    cases k with
    | zero => rfl
    | succ k =>
      rw [show upsertRowsPartial step (k + 1) rows (e :: E) =
        upsertRowsPartial step k (step rows e) E from rfl]
      exact ih k (step rows e) (by rw [List.length_cons] at hk; omega)

/-- **C6.** `update_structure` is atomic: all its writes happen inside one
`session.begin()` transaction.  If the injected failure hits any entity
write — the element-type, thing-node, source or sink upsert of the Nth
entity — the transaction raises, the rollback discards every earlier write
of the same call, and the visible store is exactly the pre-call store;
if no write fails, the committed store is exactly the pure
`update_structure` result. -/
theorem update_structure_atomic (store : Store) (cs : CompleteStructure)
    (bs : Nat) (failN : Nat) :
    (failN < cs.element_types.length + (usBatch store cs bs).length +
        cs.sources.length + cs.sinks.length →
      runTransaction store (txUpdateStructureFail cs bs failN) = store) ∧
    (cs.element_types.length + (usBatch store cs bs).length +
        cs.sources.length + cs.sinks.length ≤ failN →
      runTransaction store (txUpdateStructureFail cs bs failN) =
        update_structure store cs bs) := by
  constructor
  · intro hfail
    unfold runTransaction txUpdateStructureFail
    by_cases h1 : failN < cs.element_types.length
    · rw [upsertRowsPartial_error _ _ _ _ h1]
    · rw [upsertRowsPartial_ok _ _ _ _ (by omega)]
      dsimp only
      by_cases h2 : failN - cs.element_types.length <
          (usBatch store cs bs).length
      · rw [upsertRowsPartial_error _ _ _ _ h2]
      · rw [upsertRowsPartial_ok _ _ _ _ (by omega)]
        dsimp only
        by_cases h3 : failN - cs.element_types.length -
            (usBatch store cs bs).length < cs.sources.length
        · rw [upsertRowsPartial_error _ _ _ _ h3]
        · rw [upsertRowsPartial_ok _ _ _ _ (by omega)]
          dsimp only
          have h4 : failN - cs.element_types.length -
              (usBatch store cs bs).length - cs.sources.length <
              cs.sinks.length := by omega
          rw [upsertRowsPartial_error _ _ _ _ h4]
  · intro hok
    unfold runTransaction txUpdateStructureFail
    rw [upsertRowsPartial_ok _ _ _ _ (by omega)]
    dsimp only
    rw [upsertRowsPartial_ok _ _ _ _ (by omega)]
    dsimp only
    rw [upsertRowsPartial_ok _ _ _ _ (by omega)]
    dsimp only
    rw [upsertRowsPartial_ok _ _ _ _ (by omega)]
    dsimp only
    rw [update_structure_eq]

/-- C6 witness: at a concrete store and document, failure at the second
entity write rolls everything back, and the failure-free run commits the
synchronized store. -/
theorem update_structure_atomic_witness :
    (1 < w1cs.element_types.length + (usBatch w1store w1cs 500).length +
        w1cs.sources.length + w1cs.sinks.length ∧
      runTransaction w1store (txUpdateStructureFail w1cs 500 1) = w1store) ∧
    runTransaction w1store (txUpdateStructureFail w1cs 500 99) =
      update_structure w1store w1cs 500 :=
  ⟨⟨by decide, (update_structure_atomic w1store w1cs 500 1).1 (by decide)⟩,
    (update_structure_atomic w1store w1cs 500 99).2 (by decide)⟩

/-! ## C7: the `CompleteStructure` validator (`hetdesrun/structure/models.py`
is not part of the source snapshot).  Modelled from the spec: §4.1
"Structure Validator" — checks in order, each failing fast with a
descriptive error; error texts follow the repository's model tests. -/

/-- Modelled from the spec: the validator's in-document parent resolution,
keyed by `(stakeholder_key, external_id)`; the parent is looked up whenever
the reference is non-null (§4.1 check 4 treats every non-null reference as
a real reference). -/
def vParentOf (tns : List StructureServiceThingNode)
    (tn : StructureServiceThingNode) :
    Option StructureServiceThingNode :=
  match tn.parent_external_node_id with
  | none => none
  | some p =>
    dictLookup (tns.map (fun t => (tnKey t, t))) (tn.stakeholder_key, p)

/-- Modelled from the spec: §4.1 check 5 — walk a node's ancestor chain,
recording visited keys; report a cycle when a key is revisited before a
null parent is reached.  The fuel `tns.length + 1` exceeds the number of
distinct keys, so the fuel-exhausted branch (which reports a cycle) is only
reached when a key did repeat. -/
def cycleFrom (tns : List StructureServiceThingNode) :
    Nat → List NatKey → StructureServiceThingNode → Bool
  | 0, _, _ => true
  | fuel + 1, visited, tn =>
    if tnKey tn ∈ visited then true
    else match vParentOf tns tn with
      | none => false
      | some p => cycleFrom tns fuel (tnKey tn :: visited) p

/-- Modelled from the spec: §4.1 checks 1-5, in order, fail fast — check 1
element types present, check 2 unique natural keys per entity list, check 3
every thing node's element-type reference resolves in-document, check 4
every non-null parent reference resolves in-document, check 5 no ancestor
chain revisits a node.  Checks 6-7 (owner keys, source/sink references) run
after the cycle check and cannot preempt it, so they are not modelled; a
document passing checks 1-5 is reported valid here. -/
def validateStructure (cs : CompleteStructure) : Except String Unit :=
  if cs.element_types.isEmpty then
    Except.error "The structure must include at least one StructureServiceElementType object to be valid."
  else if ¬ ((cs.element_types.map etKey).Nodup ∧
      (cs.thing_nodes.map tnKey).Nodup ∧ (cs.sources.map srcKey).Nodup ∧
      (cs.sinks.map snkKey).Nodup) then
    Except.error "The stakeholder key and external id pair must be unique within each entity list."
  else
    match cs.thing_nodes.find?
        (fun tn => (findElementType cs.element_types tn).isNone) with
    | some tn => Except.error ("StructureServiceThingNode " ++
        tn.external_id ++ " references a non-existing element type.")
    | none =>
      match cs.thing_nodes.find? (fun tn =>
          tn.parent_external_node_id.isSome &&
          (vParentOf cs.thing_nodes tn).isNone) with
      | some tn => Except.error ("Root node '" ++ tn.name ++
          "' has an invalid parent_external_node_id.")
      | none =>
        match cs.thing_nodes.find? (fun tn =>
            cycleFrom cs.thing_nodes (cs.thing_nodes.length + 1) [] tn) with
        | some tn => Except.error
            ("Circular reference detected in node " ++ tn.external_id)
        | none => Except.ok ()

/-- Modelled from the spec: the document is validated while it is
constructed, before the synchronization opens its transaction, so a
validation error aborts with no store access at all. -/
def update_structure_validated (store : Store) (cs : CompleteStructure)
    (bs : Nat) : Except String Store :=
  match validateStructure cs with
  | Except.error e => Except.error e
  | Except.ok _ => Except.ok (update_structure store cs bs)

/-- **C7** (amended, modelled from the spec): for every document that
passes the validator's checks 1-4 and whose thing nodes contain a cycle in
the parent relation, the synchronization raises the cycle validation error
and performs no store mutation.  Two amendments: a document that also fails
an *earlier* check (missing element types, duplicate keys, unresolvable
element-type or parent references) gets that earlier error instead of the
cycle error, and the error names the first document node whose *ancestor
walk* revisits a node — a node that reaches a cycle, though possibly not
itself on it. -/
theorem cycle_validation_error (store : Store) (cs : CompleteStructure)
    (bs : Nat)
    (h1 : cs.element_types.isEmpty = false)
    (h2 : (cs.element_types.map etKey).Nodup ∧
      (cs.thing_nodes.map tnKey).Nodup ∧ (cs.sources.map srcKey).Nodup ∧
      (cs.sinks.map snkKey).Nodup)
    (h3 : ∀ tn ∈ cs.thing_nodes,
      (findElementType cs.element_types tn).isNone = false)
    (h4 : ∀ tn ∈ cs.thing_nodes, tn.parent_external_node_id.isSome = true →
      (vParentOf cs.thing_nodes tn).isNone = false)
    (X : StructureServiceThingNode) (hX : X ∈ cs.thing_nodes)
    (hcyc : cycleFrom cs.thing_nodes (cs.thing_nodes.length + 1) [] X
      = true) :
    ∃ Y ∈ cs.thing_nodes,
      cycleFrom cs.thing_nodes (cs.thing_nodes.length + 1) [] Y = true ∧
      update_structure_validated store cs bs =
        Except.error ("Circular reference detected in node " ++
          Y.external_id) := by
  cases hf : cs.thing_nodes.find? (fun tn =>
      cycleFrom cs.thing_nodes (cs.thing_nodes.length + 1) [] tn) with
  | none =>
    exact absurd hcyc (by simpa using List.find?_eq_none.mp hf X hX)
  | some Y =>
    refine ⟨Y, List.mem_of_find?_eq_some hf,
      by simpa using List.find?_some hf, ?_⟩
    unfold update_structure_validated validateStructure
    rw [if_neg (by rw [h1]; exact Bool.false_ne_true)]
    rw [if_neg (not_not_intro h2)]
    have hc3 : cs.thing_nodes.find?
        (fun tn => (findElementType cs.element_types tn).isNone) = none := by
      rw [List.find?_eq_none]
      intro tn htn
      simp [h3 tn htn]
    rw [hc3]
    dsimp only
    have hc4 : cs.thing_nodes.find? (fun tn =>
        tn.parent_external_node_id.isSome &&
        (vParentOf cs.thing_nodes tn).isNone) = none := by
      rw [List.find?_eq_none]
      intro tn htn
      cases hp : tn.parent_external_node_id.isSome with
      | false => simp [hp]
      | true => simp [hp, h4 tn htn hp]
    rw [hc4]
    dsimp only
    rw [hf]

/-- C7 counterexample document: `A` and `B` reference each other as parent
(a clear cycle) but the element-type list is empty. -/
def c7cs : CompleteStructure :=
  { element_types := [],
    thing_nodes := [mkTN 1 "A" (some "B"), mkTN 2 "B" (some "A")],
    sources := [], sinks := [] }

/-- C7 counterexample: the document's thing nodes form a two-node cycle,
yet the synchronization raises the element-type-missing error of the
earlier fail-fast check, not a cycle error naming any document node — the
claim's conclusion fails although its hypothesis holds. -/
theorem cycle_validation_error_cex :
    (∃ a ∈ c7cs.thing_nodes, ∃ b ∈ c7cs.thing_nodes,
      a.parent_external_node_id = some b.external_id ∧
      b.parent_external_node_id = some a.external_id ∧ ¬ a = b) ∧
    update_structure_validated c5store c7cs 500 =
      Except.error "The structure must include at least one StructureServiceElementType object to be valid." ∧
    (∀ Y ∈ c7cs.thing_nodes,
      ¬ update_structure_validated c5store c7cs 500 =
        Except.error ("Circular reference detected in node " ++
          Y.external_id)) := by
  refine ⟨by decide, rfl, ?_⟩
  intro Y hY h
  rw [show update_structure_validated c5store c7cs 500 =
    Except.error "The structure must include at least one StructureServiceElementType object to be valid." from rfl] at h
  rw [Except.error.injEq] at h
  rcases (by simpa [c7cs] using hY :
      Y = mkTN 1 "A" (some "B") ∨ Y = mkTN 2 "B" (some "A")) with h1 | h1 <;>
    subst h1 <;> exact absurd h (by decide)

/-- C7 witness document: the same two-node cycle, now with the element
type present, unique keys, and resolving references. -/
def w7cs : CompleteStructure :=
  { element_types := [mkET 10 "et1"],
    thing_nodes := [mkTN 1 "A" (some "B"), mkTN 2 "B" (some "A")],
    sources := [], sinks := [] }

/-- C7 witness: the amended theorem applied at a concrete store and cyclic
document, every hypothesis discharged by computation. -/
theorem cycle_validation_error_witness :
    ∃ Y ∈ w7cs.thing_nodes,
      cycleFrom w7cs.thing_nodes (w7cs.thing_nodes.length + 1) [] Y
        = true ∧
      update_structure_validated c5store w7cs 500 =
        Except.error ("Circular reference detected in node " ++
          Y.external_id) :=
  cycle_validation_error c5store w7cs 500 (by decide) (by decide)
    (by decide) (by decide) (mkTN 1 "A" (some "B")) (by decide) (by decide)

end HdStruct
